import Mathlib

/-!
libsimulator: the TCP stream socket (`src/src/tcp_socket.cpp`).

A shallow embedding of `sim::asio::ip::tcp::socket` and of the packet and route
records it uses (`src/include/simulator/simulator.hpp`, `src/src/simulator.cpp`).

Conventions of the embedding.

* `int` members (`m_mss`, `m_cwnd`, `m_bytes_in_flight`, recorded packet sizes) are
  `Int`. The products and the window update of the source (`m_mss * 2`,
  `m_mss * acked_bytes`, `m_cwnd += ...`) are reduced to 32 bits (`to_int32`):
  signed overflow is undefined in C++, and the wrapped value is what the usual
  compilers compute. The sums on `m_bytes_in_flight` are exact: with a path MTU
  of at most 46340 they stay below 2^31 in every reachable state
  (`socket.in_range`). `int / int` is `Int.tdiv` (truncation toward zero); a
  division by zero aborts.
* `std::uint64_t` sequence numbers are `Nat` with explicit `% 2 ^ 64`.
* Bytes are `Nat`; the socket only copies them.
* A `boost::function` handler is a `Nat` (its identity); an empty handler is `none`.
* A `std::shared_ptr<sink>` is a `Nat` (the identity of the sink object).
  What a sink does with a packet is outside the socket: every call the socket
  makes to a collaborator (`forward_packet`, `io_service::post`, a timer, the
  simulation's bind table) is appended to the `effects` trace of the socket, in
  call order. `socket.forward` is `forward_packet` for a first hop that keeps the
  packet and returns (a queue with room forwards it from its timer). A hop may
  instead call back into the socket before it returns: the write path is also
  given with the reaction of the hop as a parameter (`socket.forward_sync` up to
  `socket.write_some_impl_sync`), with a full queue (`full_queue`) and a peer on a
  route without queues (`direct_peer`) as instances.
* A gather buffer is a list of bytes; `socket.write_some_impl_sync` sees of each
  buffer what `int buf_size` lets it see (`int_sized`), `socket.write_some_impl` takes
  the buffers as they are (sizes below 2^31).
* A failed `assert`, a null or out-of-range dereference, a division by zero and
  a loop that never ends give no result: the function returns `Outcome.abort s`,
  where the trace of `s` holds every call made up to that point. Everything
  else returns `Outcome.ok`.
-/

namespace sim

/-- Result of a member function: a value, or the state at which an assertion
failed, the behaviour became undefined or the function stopped making progress. -/
inductive Outcome (σ : Type) (α : Type) where
  | ok (a : α)
  | abort (s : σ)
deriving DecidableEq, Repr

/-- Sequencing of outcomes: an abort ends the execution. -/
def Outcome.bind {σ α β : Type} : Outcome σ α → (α → Outcome σ β) → Outcome σ β
  | .ok a, f => f a
  | .abort s, _ => .abort s

abbrev Byte := Nat
abbrev Handler := Nat
abbrev Sink := Nat

/-- The `boost::asio::error` values the socket layer uses; `success` is a
default-constructed `error_code`. -/
inductive error_code where
  | success
  | bad_descriptor
  | not_connected
  | would_block
  | eof
  | operation_aborted
  | address_family_not_supported
  | address_not_available
  | connection_refused
  | host_not_found
deriving DecidableEq, Repr

/-- An `ip::address`: its family and its bits. -/
structure address where
  is_v4 : Bool
  bits : Nat
deriving DecidableEq, Repr

/-- A default-constructed `ip::address()` is the IPv4 address 0.0.0.0. -/
def address.default : address := { is_v4 := true, bits := 0 }

/-- An `ip::tcp::endpoint` (also used for `udp::endpoint`): address and port. -/
structure endpoint where
  addr : address
  port : Nat
deriving DecidableEq, Repr

/-- A default-constructed endpoint: 0.0.0.0 port 0. -/
def endpoint.default : endpoint := { addr := address.default, port := 0 }

/-- The member `hops` of `struct route`: the sinks still to traverse. -/
abbrev route := List Sink

/-- A `struct channel`: the two routes and the two endpoints of a connection. -/
structure channel where
  hops0 : route
  hops1 : route
  ep0 : endpoint
  ep1 : endpoint
deriving DecidableEq, Repr

/-- The array access `hops[i]` for an index returned by `remote_idx`. -/
def channel.hops (c : channel) (i : Nat) : route :=
  if i = 0 then c.hops0 else c.hops1

/-- `channel::remote_idx`: 1 when `self` is `ep[0]`, 0 when it is `ep[1]`;
`none` stands for the failed `assert(false && "invalid socket")`. -/
def channel.remote_idx (c : channel) (self : endpoint) : Option Nat :=
  if c.ep0 = self then some 1
  else if c.ep1 = self then some 0
  else none

/-- `channel::self_idx`. -/
def channel.self_idx (c : channel) (self : endpoint) : Option Nat :=
  if c.ep0 = self then some 0
  else if c.ep1 = self then some 1
  else none

/-- The enumeration `packet::type_t`. -/
inductive type_t where
  | uninitialized
  | syn
  | syn_ack
  | ack
  | error
  | payload
deriving DecidableEq, Repr

/-- A `struct aux::packet`. `from_ep` is the member `from`; `drop_fun` holds the
socket the drop callback is bound to (`this`), if a callback is attached. -/
structure packet where
  type : type_t
  ec : error_code
  buffer : List Byte
  from_ep : endpoint
  overhead : Int
  hops : route
  channel : Option channel
  seq_nr : Nat
  drop_fun : Option Nat
deriving DecidableEq, Repr

/-- The default constructor `packet()`: uninitialized, overhead 20, seq_nr 0. -/
def packet.default : packet :=
  { type := .uninitialized, ec := .success, buffer := [], from_ep := endpoint.default,
    overhead := 20, hops := [], channel := none, seq_nr := 0, drop_fun := none }

/-- `packet::ok_to_drop`. -/
def packet.ok_to_drop (p : packet) : Bool :=
  p.type != .syn_ack && p.type != .ack && p.type != .error

/-- `sim::forward_packet`: pop the first hop and hand the packet to it. The
result is the sink called and the packet it receives; `none` is the undefined
`pop_front` on an empty route. -/
def forward_packet (p : packet) : Option (Sink × packet) :=
  match p.hops with
  | [] => none
  | h :: t => some (h, { p with hops := t })

/-- One call from the socket to a collaborator. -/
inductive effect where
  /-- A call `forward_packet(p)`, with the packet as passed. -/
  | forward_packet (p : packet)
  /-- The call `m_io_service.post(std::bind(h, ec, bytes))` of a read or write handler. -/
  | post_io (h : Handler) (ec : error_code) (bytes : Nat)
  /-- The call `m_io_service.post(std::bind(h, ec))` of a connect handler. -/
  | post_connect (h : Handler) (ec : error_code)
  /-- Arming `m_connect_timer` for `ms` milliseconds with `std::bind(h, ec)`. -/
  | connect_timer (ms : Nat) (h : Handler) (ec : error_code)
  /-- The call `m_recv_timer.cancel()`. -/
  | recv_timer_cancel
  /-- The call `m_io_service.unbind_socket(this, ep)`. -/
  | unbind_socket (ep : endpoint)
  /-- The call `m_forwarder->clear()` on the forwarder `fwd`. -/
  | forwarder_clear (fwd : Sink)
  /-- The caller's receive buffers as the `memcpy` calls of a read started by
  `async_read_some_impl` left them. -/
  | memcpy (bufs : List (List Byte))
  /-- The call `m_sim.bind_socket(socket, ep, ec)` made by `io_service::bind_socket`. -/
  | bind_socket (ep : endpoint)
  /-- The call `m_io_service.internal_connect(this, target, ec)`. -/
  | internal_connect (target : endpoint)
deriving DecidableEq, Repr

/-- The lookup `find(k)` of a `std::map` or `std::unordered_map`, held as a list of
key and value pairs. -/
def map_find {α : Type} : List (Nat × α) → Nat → Option α
  | [], _ => none
  | (k, v) :: m, key => if k = key then some v else map_find m key

/-- The removal `erase(it)` of the entry with key `key`. -/
def map_erase {α : Type} (m : List (Nat × α)) (key : Nat) : List (Nat × α) :=
  m.filter (fun kv => kv.1 != key)

/-- The assignment `m[key] = v`: the entry is created or overwritten. -/
def map_assign {α : Type} (m : List (Nat × α)) (key : Nat) (v : α) : List (Nat × α) :=
  (key, v) :: map_erase m key

/-- The call `m.insert(std::make_pair(key, v))` on a `std::map`: an existing entry
with that key is kept and `v` is discarded. -/
def map_insert {α : Type} (m : List (Nat × α)) (key : Nat) (v : α) : List (Nat × α) :=
  match map_find m key with
  | some _ => m
  | none => m ++ [(key, v)]

/-- The conversion of an integer to `std::uint64_t`. -/
def to_uint64 (i : Int) : Nat := (i % (2 ^ 64 : Int)).toNat

/-- The value an `int` computation leaves in its 32 bits when the exact result is
`i`: the result reduced modulo 2^32 to the range from -2^31 to 2^31 - 1 (two's
complement). Inside the range this is `i` itself. -/
def to_int32 (i : Int) : Int := (i + 2 ^ 31) % 2 ^ 32 - 2 ^ 31

/-- The members `m_ips` of `io_service` (the addresses of the node). -/
structure io_service where
  m_ips : List address
deriving DecidableEq, Repr

/-- The IPv4 wildcard `ip::address_v4::any()`. -/
def address.v4_any : address := { is_v4 := true, bits := 0 }

/-- The IPv6 wildcard `ip::address_v6::any()`. -/
def address.v6_any : address := { is_v4 := false, bits := 0 }

/-- The parts of the simulation a socket calls that are not in the repository's
source files, taken as given: `simulation::bind_socket` (from the endpoint and
the incoming `ec` to the bound endpoint and `ec`), `simulation::internal_connect`
(from the socket's bound endpoint and the target to the channel, or null, and
`ec`) and `configuration::path_mtu`. -/
structure environment where
  ios : io_service
  sim_bind_socket : endpoint → error_code → endpoint × error_code
  sim_internal_connect : endpoint → endpoint → Option channel × error_code
  path_mtu : address → address → Int

/-- The address chosen by `io_service::bind_socket` (and `bind_udp_socket`) for
the requested address `a`: the first local address of the family for a
wildcard, `a` itself when it is local, `none` for `address_not_available`. -/
def io_service.pick_address (ios : io_service) (a : address) : Option address :=
  if a = address.v4_any then ios.m_ips.find? (fun ip => ip.is_v4)
  else if a = address.v6_any then ios.m_ips.find? (fun ip => !ip.is_v4)
  else if ios.m_ips.count a = 0 then none
  else some a

/-- `io_service::bind_socket(socket, ep, ec)`, with `sim_bind` for the simulation's
`bind_socket`: `none` is the failed assertion that the node has an address;
otherwise the endpoint `m_sim.bind_socket` was called with, if it was called,
then the returned endpoint and `ec` after the call. -/
def io_service.bind_socket (ios : io_service)
    (sim_bind : endpoint → error_code → endpoint × error_code) (ep : endpoint)
    (ec : error_code) : Option (Option endpoint × endpoint × error_code) :=
  if ios.m_ips = [] then none
  else if ep.addr = address.v4_any then
    match ios.m_ips.find? (fun ip => ip.is_v4) with
    | none => some (none, endpoint.default, .address_not_available)
    | some a => some (some { ep with addr := a }, sim_bind { ep with addr := a } ec)
  else if ep.addr = address.v6_any then
    match ios.m_ips.find? (fun ip => !ip.is_v4) with
    | none => some (none, endpoint.default, .address_not_available)
    | some a => some (some { ep with addr := a }, sim_bind { ep with addr := a } ec)
  else if ios.m_ips.count ep.addr = 0 then
    some (none, endpoint.default, .address_not_available)
  else some (some ep, sim_bind ep ec)

/-- `io_service::bind_udp_socket(socket, ep, ec)`, with `sim_bind_udp` for the
simulation's `bind_udp_socket`; the result is read as for `bind_socket`. -/
def io_service.bind_udp_socket (ios : io_service)
    (sim_bind_udp : endpoint → error_code → endpoint × error_code) (ep : endpoint)
    (ec : error_code) : Option (Option endpoint × endpoint × error_code) :=
  if ios.m_ips = [] then none
  else if ep.addr = address.v4_any then
    match ios.m_ips.find? (fun ip => ip.is_v4) with
    | none => some (none, endpoint.default, .address_not_available)
    | some a => some (some { ep with addr := a }, sim_bind_udp { ep with addr := a } ec)
  else if ep.addr = address.v6_any then
    match ios.m_ips.find? (fun ip => !ip.is_v4) with
    | none => some (none, endpoint.default, .address_not_available)
    | some a => some (some { ep with addr := a }, sim_bind_udp { ep with addr := a } ec)
  else if ios.m_ips.count ep.addr = 0 then
    some (none, endpoint.default, .address_not_available)
  else some (some ep, sim_bind_udp ep ec)

/-- The requested address cannot be bound on the node: it is the IPv4 wildcard and
the node has no IPv4 address, or the IPv6 wildcard and the node has no IPv6
address, or a specific address that is not one of the node's. -/
def io_service.not_available (ios : io_service) (a : address) : Prop :=
  (a = address.v4_any ∧ ∀ ip ∈ ios.m_ips, ip.is_v4 = false) ∨
  (a = address.v6_any ∧ ∀ ip ∈ ios.m_ips, ip.is_v4 = true) ∨
  (a ≠ address.v4_any ∧ a ≠ address.v6_any ∧ a ∉ ios.m_ips)

/-- The address the simulation's bind is called with for the requested address `a`:
`a` itself when it is specific, the first address of the family in the node's
list when it is a wildcard. -/
def io_service.bound_address (ios : io_service) (a : address) : Option address :=
  if a = address.v4_any then ios.m_ips.find? (fun ip => ip.is_v4)
  else if a = address.v6_any then ios.m_ips.find? (fun ip => !ip.is_v4)
  else some a

/-- A `basic_resolver_entry`: the endpoint, the host name and the service name. -/
structure resolver_entry where
  m_endpoint : endpoint
  m_host_name : String
  m_service : String
deriving DecidableEq, Repr

/-- A `basic_resolver_iterator`: the result list and the index `m_idx` (an `int`). -/
structure resolver_iterator where
  m_results : List resolver_entry
  m_idx : Int
deriving DecidableEq, Repr

/-- The default constructor `basic_resolver_iterator()`: no results, `m_idx = -1`. -/
def resolver_iterator.default : resolver_iterator :=
  { m_results := [], m_idx := -1 }

/-- The test `(m_idx == -1) || (m_idx == m_results.size())` of `operator==`; the second
comparison converts the `int` to `std::size_t`. -/
def resolver_iterator.at_end (it : resolver_iterator) : Bool :=
  it.m_idx == -1 || to_uint64 it.m_idx == it.m_results.length

/-- `basic_resolver_iterator::operator==`. -/
def resolver_iterator.eq (lhs rhs : resolver_iterator) : Bool :=
  if lhs.m_idx = rhs.m_idx then true
  else lhs.at_end == rhs.at_end

/-- `basic_resolver_iterator::operator!=`. -/
def resolver_iterator.ne (lhs rhs : resolver_iterator) : Bool :=
  !lhs.eq rhs

/-- `basic_resolver_iterator::operator++`. -/
def resolver_iterator.incr (it : resolver_iterator) : resolver_iterator :=
  { it with m_idx := it.m_idx + 1 }

/-- `basic_resolver_iterator::operator*`; `none` is the undefined `m_results[m_idx]` for an
index outside the list. -/
def resolver_iterator.deref (it : resolver_iterator) : Option resolver_entry :=
  if it.m_idx < 0 then none else it.m_results.get? it.m_idx.toNat

/-- The loop `while (iter != iterator()) { use(*iter); ++iter; }` of the resolver tests:
the entries visited, in order; `none` when an entry outside the list is read or
the loop is still running after `fuel` iterations. -/
def resolver_iterator.visit : Nat → resolver_iterator → Option (List resolver_entry)
  | fuel, it =>
    if it.ne resolver_iterator.default then
      match fuel with
      | 0 => none
      | fuel + 1 =>
        match it.deref with
        | none => none
        | some e =>
          match resolver_iterator.visit fuel it.incr with
          | none => none
          | some es => some (e :: es)
    else some []

namespace tcp

/-- The members of `tcp::socket` (with those of `socket_base<tcp>`), and the
trace `effects` of its calls to collaborators. `self` is the `this` pointer. -/
structure socket where
  self : Nat
  m_bound_to : endpoint
  m_forwarder : Option Sink
  m_open : Bool
  m_non_blocking : Bool
  m_max_receive_queue_size : Int
  m_connect_handler : Option Handler
  m_mss : Int
  m_send_handler : Option Handler
  m_send_buffer : List (List Byte)
  m_incoming_queue : List packet
  m_queue_size : Int
  m_recv_handler : Option Handler
  m_recv_buffer : List (List Byte)
  m_is_v4 : Bool
  m_recv_null_buffers : Bool
  m_send_null_buffers : Bool
  m_channel : Option channel
  m_next_outgoing_seq : Nat
  m_next_incoming_seq : Nat
  m_last_drop_seq : Nat
  m_cwnd : Int
  m_bytes_in_flight : Int
  m_reorder_buffer : List (Nat × packet)
  m_outstanding_packet_sizes : List (Nat × Int)
  m_outgoing_packets : List packet
  effects : List effect
deriving DecidableEq, Repr

/-- The constructor `tcp::socket::socket(io_service&)`. -/
def socket.init (self : Nat) : socket :=
  { self := self, m_bound_to := endpoint.default, m_forwarder := none, m_open := false,
    m_non_blocking := false, m_max_receive_queue_size := 64 * 1024,
    m_connect_handler := none, m_mss := 1475, m_send_handler := none, m_send_buffer := [],
    m_incoming_queue := [], m_queue_size := 0, m_recv_handler := none, m_recv_buffer := [],
    m_is_v4 := true, m_recv_null_buffers := false, m_send_null_buffers := false,
    m_channel := none, m_next_outgoing_seq := 0, m_next_incoming_seq := 0,
    m_last_drop_seq := 0, m_cwnd := 1475 * 2, m_bytes_in_flight := 0,
    m_reorder_buffer := [], m_outstanding_packet_sizes := [], m_outgoing_packets := [],
    effects := [] }

/-- What `write_some_impl` hands back: the socket, the `ec` argument as left by
the call, and the returned byte count. -/
structure write_result where
  st : socket
  ec : error_code
  bytes : Nat
deriving DecidableEq, Repr

/-- What `read_some_impl` hands back: the socket, `ec`, the returned byte count
and the caller's buffers as the call left them. -/
structure read_result where
  st : socket
  ec : error_code
  bytes : Nat
  bufs : List (List Byte)
deriving DecidableEq, Repr

/-- How the segmentation loop of one buffer ends: it ran to the end of the
buffer (`next`), or it left `write_some_impl` by a `return` (`done`). -/
inductive write_exit where
  | next (s : socket) (ret : Nat)
  | done (r : write_result)
deriving DecidableEq, Repr

/-- The local variables of the copy loop of `read_some_impl`: the receive
buffers before `recv_iter` (`done`) and from `recv_iter` on (`rest`),
`buf_offset`, `total_received`, and the member `m_queue_size`. -/
structure read_cursor where
  done : List (List Byte)
  rest : List (List Byte)
  buf_offset : Nat
  total_received : Nat
  queue_size : Int
deriving DecidableEq, Repr

/-- How the queue loop of `read_some_impl` ends: by the `return 0` of the error
branch (`error`, with the queue after the erase), or by leaving the loop
(`stop`). -/
inductive read_exit where
  | error (q : List packet) (ec : error_code) (c : read_cursor)
  | stop (q : List packet) (c : read_cursor)
deriving DecidableEq, Repr

/-- Append one call to the trace. -/
def socket.emit (s : socket) (e : effect) : socket :=
  { s with effects := s.effects ++ [e] }

/-- A call `forward_packet(p)` made by the socket, for a first hop that keeps the
packet and returns without calling back into the socket (see
`socket.forward_sync` for the other hops); it aborts on an empty route. -/
def socket.forward (s : socket) (p : packet) : Outcome socket socket :=
  match forward_packet p with
  | none => .abort s
  | some _ => .ok (s.emit (.forward_packet p))

/-- `tcp::socket::send_packet`, for a first hop that keeps the packet
(`socket.forward`). -/
def socket.send_packet (s : socket) (p : packet) : Outcome socket socket :=
  socket.forward
    { s with
      m_bytes_in_flight := s.m_bytes_in_flight + (p.buffer.length : Int)
      m_outstanding_packet_sizes :=
        map_assign s.m_outstanding_packet_sizes p.seq_nr (p.buffer.length : Int) }
    p

/-- The payload packet that `write_some_impl` builds for the segment `data`: kind
payload, source the bound endpoint, overhead 40, the route to the peer, the
next outgoing sequence number, and the drop callback bound to this socket. -/
def socket.payload_packet (s : socket) (hops : route) (data : List Byte) : packet :=
  { packet.default with
    type := .payload
    buffer := data
    from_ep := { addr := s.m_bound_to.addr, port := s.m_bound_to.port }
    overhead := 40
    hops := hops
    seq_nr := s.m_next_outgoing_seq
    drop_fun := some s.self }

/-- The `while (buf_size > 0)` loop of `write_some_impl` on one buffer `buf`,
with `ret` bytes sent so far and `ec` the error argument as it stands. The
first argument is the number of iterations allowed; `buf.length` suffices since
every iteration sends at least one byte. With `m_mss = 0` the source loop never
ends and with `m_mss < 0` the range given to `assign` is invalid: both abort.
The buffer is taken to have fewer than 2^31 bytes, so that `int buf_size` is its
length; `socket.write_some_impl_sync` has the conversion. -/
def socket.write_buffer (hops : route) (ec : error_code) :
    Nat → socket → List Byte → Nat → Outcome socket write_exit
  | fuel, s, buf, ret =>
    if buf = [] then .ok (.next s ret)
    else
      match fuel with
      | 0 => .abort s
      | fuel + 1 =>
        let packet_size : Int := min (buf.length : Int) s.m_mss
        if packet_size ≤ 0 then .abort s
        else
          let p : packet := s.payload_packet hops (buf.take packet_size.toNat)
          match socket.send_packet
              { s with m_next_outgoing_seq := (s.m_next_outgoing_seq + 1) % 2 ^ 64 } p with
          | .abort a => .abort a
          | .ok s2 =>
            let ret2 := ret + packet_size.toNat
            if s2.m_bytes_in_flight + s2.m_mss > s2.m_cwnd then
              if ret2 = 0 then .ok (.done { st := s2, ec := .would_block, bytes := 0 })
              else .ok (.done { st := s2, ec := ec, bytes := ret2 })
            else socket.write_buffer hops ec fuel s2 (buf.drop packet_size.toNat) ret2

/-- The `for` loop of `write_some_impl` over the gather list, with `ret` bytes
sent so far and `ec` the error argument as it stands. -/
def socket.write_buffers (hops : route) (ec : error_code) :
    socket → List (List Byte) → Nat → Outcome socket write_result
  | s, [], ret => .ok { st := s, ec := ec, bytes := ret }
  | s, buf :: rest, ret =>
    match socket.write_buffer hops ec buf.length s buf ret with
    | .abort a => .abort a
    | .ok (.done r) => .ok r
    | .ok (.next s2 ret2) => socket.write_buffers hops ec s2 rest ret2

/-- `tcp::socket::write_some_impl(bufs, ec)`; `ec` is the value the caller
passes in, which the success path leaves untouched. -/
def socket.write_some_impl (s : socket) (bufs : List (List Byte)) (ec : error_code) :
    Outcome socket write_result :=
  if !s.m_open then .ok { st := s, ec := .bad_descriptor, bytes := 0 }
  else
    match s.m_channel with
    | none => .ok { st := s, ec := .not_connected, bytes := 0 }
    | some c =>
      match c.remote_idx s.m_bound_to with
      | none => .abort s
      | some remote =>
        let hops := c.hops remote
        if hops = [] then .ok { st := s, ec := .not_connected, bytes := 0 }
        else if s.m_bytes_in_flight + s.m_mss > s.m_cwnd then
          .ok { st := s, ec := .would_block, bytes := 0 }
        else socket.write_buffers hops ec s bufs 0

/-- `tcp::socket::async_write_some_impl(bufs, handler)`. -/
def socket.async_write_some_impl (s : socket) (bufs : List (List Byte)) (handler : Handler) :
    Outcome socket socket :=
  match s.write_some_impl bufs .success with
  | .abort a => .abort a
  | .ok r =>
    if r.ec = .would_block then
      .ok { r.st with m_send_handler := some handler, m_send_buffer := bufs }
    else if r.ec ≠ .success then
      .ok { r.st.emit (.post_io handler r.ec 0) with m_send_handler := none, m_send_buffer := [] }
    else
      .ok { r.st.emit (.post_io handler .success r.bytes) with
            m_send_handler := none, m_send_buffer := [] }

/-- `tcp::socket::maybe_wakeup_writer`. -/
def socket.maybe_wakeup_writer (s : socket) : Outcome socket socket :=
  match s.m_send_handler with
  | none => .ok s
  | some h =>
    if s.m_send_null_buffers then .abort s
    else s.async_write_some_impl s.m_send_buffer h

/-- The loop of `tcp::socket::available` over the incoming queue, with `ret`
bytes counted so far and `ec` the error argument as it stands. -/
def available_loop (ec : error_code) : List packet → Nat → Nat × error_code
  | [], ret => (ret, ec)
  | p :: q, ret =>
    if p.type = .error then
      if ret > 0 then (ret, ec) else (0, p.ec)
    else available_loop ec q (ret + p.buffer.length)

/-- `tcp::socket::available(ec)`: the returned count and `ec` after the call. -/
def socket.available (s : socket) (ec : error_code) : Nat × error_code :=
  if !s.m_open then (0, .bad_descriptor)
  else if s.m_channel = none then (0, .not_connected)
  else if s.m_incoming_queue = [] then (0, ec)
  else available_loop ec s.m_incoming_queue 0

/-- The inner `while (recv_iter != m_recv_buffer.end())` loop of `read_some_impl`
for the payload `pbuf` of the packet at the head of the queue. The arguments
are the buffers from `recv_iter` on, the payload, the buffers before
`recv_iter`, `buf_offset`, `total_received` and `m_queue_size`. The result is the
cursor after the loop and the payload left in the packet, `none` when the
packet was erased from the queue. `copy_size` is the smaller of the payload and
of the room left, so an iteration that neither fills the buffer nor drains the
packet does not exist; a `buf_offset` beyond the buffer would give `memcpy` a
negative size. Both abort. -/
def copy_payload :
    List (List Byte) → List Byte → List (List Byte) → Nat → Nat → Int →
      Option (read_cursor × Option (List Byte))
  | [], pbuf, done, off, total, qs =>
    some ({ done := done, rest := [], buf_offset := off, total_received := total,
            queue_size := qs }, some pbuf)
  | b :: rest, pbuf, done, off, total, qs =>
    if b.length < off then none
    else
      let copy_size := min pbuf.length (b.length - off)
      let b2 := b.take off ++ pbuf.take copy_size ++ b.drop (off + copy_size)
      let pbuf2 := pbuf.drop copy_size
      let qs2 := qs - (copy_size : Int)
      let off2 := off + copy_size
      let total2 := total + copy_size
      if off2 = b.length then
        if pbuf2 = [] then
          some ({ done := done ++ [b2], rest := rest, buf_offset := 0,
                  total_received := total2, queue_size := qs2 }, none)
        else copy_payload rest pbuf2 (done ++ [b2]) 0 total2 qs2
      else
        if pbuf2 = [] then
          some ({ done := done, rest := b2 :: rest, buf_offset := off2,
                  total_received := total2, queue_size := qs2 }, none)
        else none

/-- The `while (!m_incoming_queue.empty())` loop of `read_some_impl`. `none` is a
failed assertion. -/
def read_queue : List packet → read_cursor → Option read_exit
  | [], c => some (.stop [] c)
  | p :: q, c =>
    if p.type = .error then
      if c.total_received > 0 then some (.stop (p :: q) c)
      else if p.ec = .success then none
      else some (.error q p.ec c)
    else if p.type = .payload then
      match copy_payload c.rest p.buffer c.done c.buf_offset c.total_received c.queue_size with
      | none => none
      | some (c2, some pbuf2) => some (.stop ({ p with buffer := pbuf2 } :: q) c2)
      | some (c2, none) => if c2.rest = [] then some (.stop q c2) else read_queue q c2
    else none

/-- `tcp::socket::read_some_impl(bufs, ec)`. A receive buffer is the list of the
bytes it holds. -/
def socket.read_some_impl (s : socket) (bufs : List (List Byte)) :
    Outcome socket read_result :=
  if bufs = [] then .abort s
  else if !s.m_open then .ok { st := s, ec := .bad_descriptor, bytes := 0, bufs := bufs }
  else if s.m_channel = none then
    .ok { st := s, ec := .not_connected, bytes := 0, bufs := bufs }
  else if s.m_incoming_queue = [] then
    .ok { st := s, ec := .would_block, bytes := 0, bufs := bufs }
  else
    match read_queue s.m_incoming_queue
        { done := [], rest := bufs, buf_offset := 0, total_received := 0,
          queue_size := s.m_queue_size } with
    | none => .abort { s with m_recv_buffer := bufs }
    | some (.error q ec c) =>
      .ok { st := { s with m_recv_buffer := c.done ++ c.rest, m_incoming_queue := q,
                           m_queue_size := c.queue_size, m_channel := none },
            ec := ec, bytes := 0, bufs := c.done ++ c.rest }
    | some (.stop q c) =>
      if c.total_received = 0 then .abort { s with m_recv_buffer := bufs }
      else
        .ok { st := { s with m_recv_buffer := c.done ++ c.rest, m_incoming_queue := q,
                             m_queue_size := c.queue_size },
              ec := .success, bytes := c.total_received, bufs := c.done ++ c.rest }

/-- `tcp::socket::async_read_some_impl(bufs, handler)`. -/
def socket.async_read_some_impl (s : socket) (bufs : List (List Byte)) (handler : Handler) :
    Outcome socket socket :=
  match bufs with
  | [] => .abort s
  | b :: _ =>
    if b.length = 0 then .abort s
    else
      match s.read_some_impl bufs with
      | .abort a => .abort a
      | .ok r =>
        if r.ec = .would_block then
          if r.st.m_incoming_queue ≠ [] then .abort r.st
          else
            .ok { r.st with m_recv_buffer := bufs, m_recv_handler := some handler,
                            m_recv_null_buffers := false }
        else if r.ec ≠ .success then
          .ok { r.st.emit (.post_io handler r.ec 0) with
                m_recv_handler := none, m_recv_buffer := [] }
        else
          .ok { (r.st.emit (.memcpy r.bufs)).emit (.post_io handler .success r.bytes) with
                m_recv_handler := none, m_recv_buffer := [] }

/-- `tcp::socket::async_read_some_null_buffers_impl(handler)`. -/
def socket.async_read_some_null_buffers_impl (s : socket) (handler : Handler) : socket :=
  let r := s.available .success
  if r.2 ≠ .success then
    { s.emit (.post_io handler r.2 0) with m_recv_handler := none, m_recv_buffer := [] }
  else if r.1 > 0 then
    { s.emit (.post_io handler .success 0) with m_recv_handler := none, m_recv_buffer := [] }
  else { s with m_recv_handler := some handler, m_recv_null_buffers := true }

/-- `tcp::socket::maybe_wakeup_reader`. -/
def socket.maybe_wakeup_reader (s : socket) : Outcome socket socket :=
  if s.m_incoming_queue.length ≠ 1 then .ok s
  else
    match s.m_recv_handler with
    | none => .ok s
    | some h =>
      if s.m_recv_null_buffers then .ok (s.async_read_some_null_buffers_impl h)
      else s.async_read_some_impl s.m_recv_buffer h

/-- The loop of the ACK case that re-sends dropped packets; the second argument
is `m_outgoing_packets`. -/
def socket.resend : socket → List packet → Outcome socket socket
  | s, [] => .ok { s with m_outgoing_packets := [] }
  | s, pkt :: rest =>
    if s.m_bytes_in_flight + (pkt.buffer.length : Int) ≤ s.m_cwnd then
      match socket.send_packet { s with m_outgoing_packets := rest } pkt with
      | .abort a => .abort a
      | .ok s2 => socket.resend s2 rest
    else .ok { s with m_outgoing_packets := pkt :: rest }

/-- The loop of the payload case that moves packets from the reorder buffer to
the incoming queue while the next expected sequence number is found. Every
iteration erases an entry, so `m_reorder_buffer.length` iterations suffice. -/
def socket.drain_reorder : Nat → socket → socket
  | 0, s => s
  | fuel + 1, s =>
    match map_find s.m_reorder_buffer s.m_next_incoming_seq with
    | none => s
    | some pkt =>
      socket.drain_reorder fuel
        { s with
          m_reorder_buffer := map_erase s.m_reorder_buffer s.m_next_incoming_seq
          m_incoming_queue := s.m_incoming_queue ++ [pkt]
          m_next_incoming_seq := (s.m_next_incoming_seq + 1) % 2 ^ 64 }

/-- The ACK case of `incoming_packet` up to and including the update of
`m_cwnd`, `m_cwnd += m_mss * acked_bytes / m_cwnd` in `int` arithmetic: the
product and the sum are reduced to 32 bits. -/
def socket.ack_received (s : socket) (p : packet) : Outcome socket (socket × Int) :=
  match map_find s.m_outstanding_packet_sizes p.seq_nr with
  | none => .abort s
  | some acked_bytes =>
    let s1 := { s with
      m_outstanding_packet_sizes := map_erase s.m_outstanding_packet_sizes p.seq_nr }
    if s1.m_bytes_in_flight < acked_bytes then .abort s1
    else
      let s2 := { s1 with m_bytes_in_flight := s1.m_bytes_in_flight - acked_bytes }
      match socket.resend s2 s2.m_outgoing_packets with
      | .abort a => .abort a
      | .ok s3 =>
        if s3.m_cwnd = 0 then .abort s3
        else
          .ok ({ s3 with
                 m_cwnd :=
                   to_int32 (s3.m_cwnd + Int.tdiv (to_int32 (s3.m_mss * acked_bytes)) s3.m_cwnd) },
               acked_bytes)

/-- The case `error` / `payload` of `incoming_packet` up to the call of
`maybe_wakeup_reader`: the state with `true` when that call is reached, with
`false` when the function returned after storing the packet in the reorder
buffer. -/
def socket.data_received (s : socket) (p : packet) : Outcome socket (socket × Bool) :=
  match s.m_channel with
  | none => .abort s
  | some c =>
    match c.remote_idx s.m_bound_to with
    | none => .abort s
    | some remote =>
      let ack : packet := { packet.default with type := .ack, seq_nr := p.seq_nr,
                                                hops := c.hops remote }
      match socket.forward s ack with
      | .abort a => .abort a
      | .ok s1 =>
        if p.seq_nr ≠ s1.m_next_incoming_seq then
          .ok ({ s1 with m_reorder_buffer := map_insert s1.m_reorder_buffer p.seq_nr p }, false)
        else
          let s2 := { s1 with
            m_next_incoming_seq := (s1.m_next_incoming_seq + 1) % 2 ^ 64
            m_incoming_queue := s1.m_incoming_queue ++ [p] }
          .ok (socket.drain_reorder s2.m_reorder_buffer.length s2, true)

/-- `tcp::socket::incoming_packet(p)`. -/
def socket.incoming_packet (s : socket) (p : packet) : Outcome socket socket :=
  match p.type with
  | .uninitialized => .abort s
  | .ack =>
    let was_writeable : Bool := decide (s.m_bytes_in_flight + s.m_mss > s.m_cwnd)
    match s.ack_received p with
    | .abort a => .abort a
    | .ok (s1, _) =>
      let is_writeable : Bool := decide (s1.m_bytes_in_flight + s1.m_mss ≤ s1.m_cwnd)
      if !was_writeable && is_writeable then s1.maybe_wakeup_writer
      else .ok s1
  | .syn => .ok s
  | .syn_ack =>
    match s.m_connect_handler with
    | none => .abort s
    | some h => .ok { s.emit (.post_connect h .success) with m_connect_handler := none }
  | .error | .payload =>
    match s.data_received p with
    | .abort a => .abort a
    | .ok (s1, false) => .ok s1
    | .ok (s1, true) => s1.maybe_wakeup_reader

/-- `tcp::socket::packet_dropped(p)`. -/
def socket.packet_dropped (s : socket) (p : packet) : Outcome socket socket :=
  match s.m_channel with
  | none => .abort s
  | some c =>
    match c.remote_idx s.m_bound_to with
    | none => .abort s
    | some remote =>
      let s1 := { s with
        m_outgoing_packets := s.m_outgoing_packets ++ [{ p with hops := c.hops remote }] }
      if s1.m_mss = 0 then .abort s1
      else
        let packets_in_cwnd : Int := Int.tdiv s1.m_cwnd s1.m_mss
        if s1.m_last_drop_seq > 0
            ∧ p.seq_nr < to_uint64 ((s1.m_last_drop_seq : Int) + packets_in_cwnd) then
          .ok s1
        else
          let cwnd2 : Int := Int.tdiv s1.m_cwnd 2
          .ok { s1 with
                m_cwnd := if cwnd2 < s1.m_mss then s1.m_mss else cwnd2
                m_last_drop_seq := p.seq_nr }

/-- `tcp::socket::abort_recv_handler`; called with a handler pending. -/
def socket.abort_recv_handler (s : socket) : Outcome socket socket :=
  match s.m_recv_handler with
  | none => .abort s
  | some h =>
    .ok { (s.emit (.post_io h .operation_aborted 0)).emit .recv_timer_cancel with
          m_recv_handler := none, m_recv_buffer := [], m_recv_null_buffers := false }

/-- `tcp::socket::abort_send_handler`; called with a handler pending. -/
def socket.abort_send_handler (s : socket) : Outcome socket socket :=
  match s.m_send_handler with
  | none => .abort s
  | some h =>
    .ok { s.emit (.post_io h .operation_aborted 0) with
          m_send_handler := none, m_send_buffer := [], m_send_null_buffers := false }

/-- `tcp::socket::cancel(ec)`; it always reports success. -/
def socket.cancel (s : socket) : socket :=
  let s1 : socket :=
    match s.m_recv_handler with
    | none => s
    | some h =>
      { (s.emit (.post_io h .operation_aborted 0)).emit .recv_timer_cancel with
        m_recv_handler := none, m_recv_buffer := [], m_recv_null_buffers := false }
  let s2 : socket :=
    match s1.m_send_handler with
    | none => s1
    | some h =>
      { s1.emit (.post_io h .operation_aborted 0) with
        m_send_handler := none, m_send_buffer := [], m_send_null_buffers := false }
  match s2.m_connect_handler with
  | none => s2
  | some h => { s2.emit (.post_connect h .operation_aborted) with m_connect_handler := none }

/-- The first block of `tcp::socket::close(ec)`: with a channel, send the EOF
packet when the route to the peer is not empty and no connect is pending,
then drop the channel. -/
def socket.close_channel (s : socket) : Outcome socket socket :=
  match s.m_channel with
  | none => .ok s
  | some c =>
    match c.remote_idx s.m_bound_to with
    | none => .abort s
    | some remote =>
      let hops := c.hops remote
      if hops ≠ [] ∧ s.m_connect_handler = none then
        let p : packet :=
          { packet.default with
            type := .error
            ec := .eof
            from_ep := { addr := s.m_bound_to.addr, port := s.m_bound_to.port }
            overhead := 40
            hops := hops
            seq_nr := s.m_next_outgoing_seq }
        match socket.send_packet
            { s with m_next_outgoing_seq := (s.m_next_outgoing_seq + 1) % 2 ^ 64 } p with
        | .abort a => .abort a
        | .ok s1 => .ok { s1 with m_channel := none }
      else .ok { s with m_channel := none }

/-- `tcp::socket::close(ec)`; it always reports success. -/
def socket.close (s : socket) : Outcome socket socket :=
  match s.close_channel with
  | .abort a => .abort a
  | .ok s1 =>
    let s2 : socket :=
      if s1.m_bound_to ≠ endpoint.default then
        { s1.emit (.unbind_socket s1.m_bound_to) with m_bound_to := endpoint.default }
      else s1
    let s3 : socket := { s2 with m_open := false }
    let s4 : socket :=
      match s3.m_forwarder with
      | none => s3
      | some f => { s3.emit (.forwarder_clear f) with m_forwarder := none }
    .ok (socket.cancel
      { s4 with m_next_incoming_seq := 0, m_next_outgoing_seq := 0, m_last_drop_seq := 0 })

/-- `tcp::socket::open(protocol, ec)`; `v4` says whether the protocol is
`tcp::v4()` and `fwd` is the forwarder object that `make_shared` creates. -/
def socket.open_socket (s : socket) (v4 : Bool) (fwd : Sink) : Outcome socket socket :=
  match s.close with
  | .abort a => .abort a
  | .ok s1 => .ok { s1 with m_open := true, m_is_v4 := v4, m_forwarder := some fwd }

/-- `route::replace_last`; `none` is the undefined `back()` of an empty route. -/
def route_replace_last (r : route) (s : Sink) : Option route :=
  match r with
  | [] => none
  | _ :: _ => some (r.dropLast ++ [s])

/-- `tcp::socket::internal_connect(bind_ip, c, ec)`. The channel is shared with
the peer; the socket holds it as changed by `replace_last`. -/
def socket.internal_connect (s : socket) (bind_ip : endpoint) (c : channel) (fwd : Sink) :
    Outcome socket socket :=
  match s.open_socket s.m_is_v4 fwd with
  | .abort a => .abort a
  | .ok s1 =>
    match s1.m_forwarder with
    | none => .abort s1
    | some f =>
      match route_replace_last c.hops1 f with
      | none => .abort { s1 with m_bound_to := bind_ip, m_channel := some c }
      | some r =>
        .ok { s1 with m_bound_to := bind_ip, m_channel := some { c with hops1 := r } }

/-- `io_service::bind_socket(socket, ep, ec)` as called by a TCP socket: the
returned endpoint, `ec` after the call, and the socket with the call to the
simulation recorded when it is made. -/
def socket.ios_bind_socket (s : socket) (env : environment) (ep : endpoint) (ec : error_code) :
    Outcome socket (socket × endpoint × error_code) :=
  if env.ios.m_ips = [] then .abort s
  else
    match env.ios.pick_address ep.addr with
    | none => .ok (s, endpoint.default, .address_not_available)
    | some a =>
      let ep2 : endpoint := { ep with addr := a }
      .ok (s.emit (.bind_socket ep2), env.sim_bind_socket ep2 ec)

/-- `tcp::socket::bind(ep, ec)`: the socket and `ec` after the call. -/
def socket.bind (s : socket) (env : environment) (ep : endpoint) (ec : error_code) :
    Outcome socket (socket × error_code) :=
  if !s.m_open then .ok (s, .bad_descriptor)
  else if ep.addr.is_v4 ≠ s.m_is_v4 then .ok (s, .address_family_not_supported)
  else
    match s.ios_bind_socket env ep ec with
    | .abort a => .abort a
    | .ok (s1, addr, ec1) =>
      if ec1 ≠ .success then .ok (s1, ec1)
      else .ok ({ s1 with m_bound_to := addr }, ec1)

/-- `io_service::get_path_mtu(source, dest)`; `none` is the failed assertion that
`source` is a local address. -/
def get_path_mtu (env : environment) (source dest : address) : Option Int :=
  if env.ios.m_ips.count source = 0 then none
  else some (env.path_mtu source dest)

/-- The part of `async_connect` after the socket is open and bound; `m_cwnd = m_mss * 2`
is computed in `int` (reduced to 32 bits). -/
def socket.connect_bound (s : socket) (env : environment) (target : endpoint) (h : Handler) :
    Outcome socket socket :=
  if s.m_bound_to.addr.is_v4 ≠ target.addr.is_v4 then
    .ok (s.emit (.post_connect h .address_family_not_supported))
  else
    let r := env.sim_internal_connect s.m_bound_to target
    let s1 := { s.emit (.internal_connect target) with m_channel := r.1 }
    match get_path_mtu env s1.m_bound_to.addr target.addr with
    | none => .abort s1
    | some mtu =>
      let s2 := { s1 with m_mss := mtu, m_cwnd := to_int32 (mtu * 2) }
      if r.2 ≠ .success then
        .ok { s2.emit (.connect_timer 50 h r.2) with m_channel := none }
      else .ok { s2 with m_connect_handler := some h }

/-- `tcp::socket::async_connect(target, h)`; `fwd` is the forwarder object created
if the socket has to be opened. -/
def socket.async_connect (s : socket) (env : environment) (target : endpoint) (h : Handler)
    (fwd : Sink) : Outcome socket socket :=
  match (if !s.m_open then s.open_socket target.addr.is_v4 fwd else .ok s) with
  | .abort a => .abort a
  | .ok s1 =>
    if s1.m_connect_handler ≠ none then .abort s1
    else if s1.m_bound_to.addr = address.default then
      match s1.ios_bind_socket env endpoint.default .success with
      | .abort a => .abort a
      | .ok (s2, addr, ec) =>
        if ec ≠ .success then .ok (s2.emit (.post_connect h ec))
        else socket.connect_bound { s2 with m_bound_to := addr } env target h
    else socket.connect_bound s1 env target h

/-- `tcp::socket::async_write_some(bufs, handler)`. -/
def socket.async_write_some (s : socket) (bufs : List (List Byte)) (handler : Handler) :
    Outcome socket socket :=
  match (if s.m_send_handler ≠ none then s.abort_send_handler else .ok s) with
  | .abort a => .abort a
  | .ok s1 => s1.async_write_some_impl bufs handler

/-- `tcp::socket::async_read_some(bufs, handler)` for a list of buffers. -/
def socket.async_read_some (s : socket) (bufs : List (List Byte)) (handler : Handler) :
    Outcome socket socket :=
  match (if s.m_recv_handler ≠ none then s.abort_recv_handler else .ok s) with
  | .abort a => .abort a
  | .ok s1 => s1.async_read_some_impl bufs handler

/-- `tcp::socket::async_read_some(null_buffers, handler)`. -/
def socket.async_read_some_null_buffers (s : socket) (handler : Handler) :
    Outcome socket socket :=
  match (if s.m_recv_handler ≠ none then s.abort_recv_handler else .ok s) with
  | .abort a => .abort a
  | .ok s1 => .ok (s1.async_read_some_null_buffers_impl handler)

/-- `tcp::socket::read_some(bufs, ec)`; it asserts the non-blocking mode. -/
def socket.read_some (s : socket) (bufs : List (List Byte)) : Outcome socket read_result :=
  if !s.m_non_blocking then .abort s else s.read_some_impl bufs

/-- `tcp::socket::write_some(bufs, ec)`; it asserts the non-blocking mode. -/
def socket.write_some (s : socket) (bufs : List (List Byte)) (ec : error_code) :
    Outcome socket write_result :=
  if !s.m_non_blocking then .abort s else s.write_some_impl bufs ec

/-- What can happen to a TCP socket: a call of its public interface by the
application, a packet handed to it by the last hop of a route
(`incoming_packet`), or the drop callback of a packet it sent
(`packet_dropped`). -/
inductive event where
  | open_socket (v4 : Bool) (fwd : Sink)
  | close
  | cancel
  | io_control_non_blocking (b : Bool)
  | bind (ep : endpoint) (ec : error_code)
  | async_connect (target : endpoint) (h : Handler) (fwd : Sink)
  | internal_connect (bind_ip : endpoint) (c : channel) (fwd : Sink)
  | async_write_some (bufs : List (List Byte)) (h : Handler)
  | write_some (bufs : List (List Byte)) (ec : error_code)
  | async_read_some (bufs : List (List Byte)) (h : Handler)
  | async_read_some_null_buffers (h : Handler)
  | read_some (bufs : List (List Byte))
  | incoming_packet (p : packet)
  | packet_dropped (p : packet)
deriving DecidableEq, Repr

/-- The socket after one event; values returned to the caller are dropped. -/
def step (env : environment) (s : socket) : event → Outcome socket socket
  | .open_socket v4 fwd => s.open_socket v4 fwd
  | .close => s.close
  | .cancel => .ok s.cancel
  | .io_control_non_blocking b => .ok { s with m_non_blocking := b }
  | .bind ep ec => (s.bind env ep ec).bind (fun r => .ok r.1)
  | .async_connect target h fwd => s.async_connect env target h fwd
  | .internal_connect bind_ip c fwd => s.internal_connect bind_ip c fwd
  | .async_write_some bufs h => s.async_write_some bufs h
  | .write_some bufs ec => (s.write_some bufs ec).bind (fun r => .ok r.st)
  | .async_read_some bufs h => s.async_read_some bufs h
  | .async_read_some_null_buffers h => s.async_read_some_null_buffers h
  | .read_some bufs => (s.read_some bufs).bind (fun r => .ok r.st)
  | .incoming_packet p => s.incoming_packet p
  | .packet_dropped p => s.packet_dropped p

/-- The socket after a sequence of events, each of which returns. -/
def run (env : environment) : socket → List event → Outcome socket socket
  | s, [] => .ok s
  | s, e :: es =>
    match step env s e with
    | .abort a => .abort a
    | .ok s2 => run env s2 es

/-- The packets that `incoming_packet(p)` pushes onto `m_incoming_queue` (the
`push_back` calls of the case `error` / `payload`, before the reader is woken):
what the queue has gained when `maybe_wakeup_reader` is reached. -/
def socket.appended_by (s : socket) (p : packet) : List packet :=
  if p.type = .payload ∨ p.type = .error then
    match s.data_received p with
    | .ok (s1, _) => s1.m_incoming_queue.drop s.m_incoming_queue.length
    | .abort _ => []
  else []

/-- The socket after `incoming_packet` has been called with each packet of a list
in turn. -/
def socket.deliver : socket → List packet → Outcome socket socket
  | s, [] => .ok s
  | s, p :: ps =>
    match s.incoming_packet p with
    | .abort a => .abort a
    | .ok s2 => socket.deliver s2 ps

/-- The socket at the end of the calls of `incoming_packet` with the packets of a
list in turn (the last state if a call does not return), and all the packets
pushed onto the incoming queue by these calls, in the order of the pushes. -/
def socket.deliver_log : socket → List packet → socket × List packet
  | s, [] => (s, [])
  | s, p :: ps =>
    match s.incoming_packet p with
    | .abort a => (a, s.appended_by p)
    | .ok s2 => ((socket.deliver_log s2 ps).1, s.appended_by p ++ (socket.deliver_log s2 ps).2)

/-- The reorder buffer is a map: every packet is stored under its own sequence
number, and no key occurs twice. -/
def socket.reorder_wf (s : socket) : Prop :=
  (∀ kv ∈ s.m_reorder_buffer, kv.2.seq_nr = kv.1) ∧ (s.m_reorder_buffer.map Prod.fst).Nodup

/-- The sending and sequencing members of `t` are those of `s`: what a read
leaves alone. -/
def socket.same_transport (s t : socket) : Prop :=
  t.m_mss = s.m_mss ∧ t.m_cwnd = s.m_cwnd ∧ t.m_bytes_in_flight = s.m_bytes_in_flight ∧
  t.m_outstanding_packet_sizes = s.m_outstanding_packet_sizes ∧
  t.m_outgoing_packets = s.m_outgoing_packets ∧
  t.m_next_outgoing_seq = s.m_next_outgoing_seq ∧
  t.m_next_incoming_seq = s.m_next_incoming_seq ∧
  t.m_last_drop_seq = s.m_last_drop_seq ∧
  t.m_reorder_buffer = s.m_reorder_buffer

/-- The packets `log` pushed onto the incoming queue so far carry the sequence
numbers 0, 1, ... up to the next expected one, the reorder buffer is a map,
and the sequence counter together with the reorder buffer accounts for at
most `cnt` packets. -/
def socket.in_order (s : socket) (log : List packet) (cnt : Nat) : Prop :=
  log.map packet.seq_nr = List.range s.m_next_incoming_seq ∧ s.reorder_wf ∧
  s.m_next_incoming_seq + s.m_reorder_buffer.length ≤ cnt

/-- The state of a receiver on `c` with no read pending after the packets `rec`
(with distinct sequence numbers) were delivered: the incoming queue holds the
sequence numbers below the expected one in order, every packet delivered is
in the queue or in the reorder buffer, and the expected sequence number is
not waiting in the reorder buffer. -/
def socket.reordering (s : socket) (c : channel) (remote : Nat) (rec : List packet) : Prop :=
  s.m_channel = some c ∧ c.remote_idx s.m_bound_to = some remote ∧ s.m_recv_handler = none ∧
  s.m_incoming_queue.map packet.seq_nr = List.range s.m_next_incoming_seq ∧ s.reorder_wf ∧
  List.Perm (s.m_incoming_queue ++ s.m_reorder_buffer.map Prod.snd) rec ∧
  map_find s.m_reorder_buffer s.m_next_incoming_seq = none ∧
  s.m_next_incoming_seq + s.m_reorder_buffer.length ≤ rec.length

/-- The socket an outcome ends in, whether the call returned or not. -/
def final : Outcome socket socket → socket
  | .ok s => s
  | .abort s => s

/-- The packets passed to `forward_packet` in a trace, in call order. -/
def forwarded : List effect → List packet
  | [] => []
  | .forward_packet p :: es => p :: forwarded es
  | _ :: es => forwarded es

/-- A channel between 10.0.0.1:1000 (index 0, the connecting side) and
10.0.0.2:1337 (index 1), each route with two hops. -/
def demo_channel : channel :=
  { hops0 := [1, 2], hops1 := [3, 4],
    ep0 := { addr := { is_v4 := true, bits := 167772161 }, port := 1000 },
    ep1 := { addr := { is_v4 := true, bits := 167772162 }, port := 1337 } }

/-- An open socket bound to 10.0.0.1:1000 and connected over `demo_channel`, with
MSS 10 and the initial window of two segments. -/
def demo_sender : socket :=
  { socket.init 0 with
    m_open := true, m_forwarder := some 2, m_bound_to := demo_channel.ep0,
    m_channel := some demo_channel, m_mss := 10, m_cwnd := 20 }

/-- An open socket bound to 10.0.0.2:1337, the accepting side of `demo_channel`,
as the constructor and `internal_connect` leave it. -/
def demo_receiver : socket :=
  { socket.init 1 with
    m_open := true, m_forwarder := some 4, m_bound_to := demo_channel.ep1,
    m_channel := some demo_channel }

/-- A packet of kind `t` with sequence number `seq` and payload `b`, otherwise as
default-constructed. -/
def demo_packet (t : type_t) (seq : Nat) (b : List Byte) : packet :=
  { packet.default with type := t, seq_nr := seq, buffer := b }

/-- Whether a call returned. -/
def returns {α : Type} : Outcome socket α → Bool
  | .ok _ => true
  | .abort _ => false

/-- A node with the one address 10.0.0.1, in a simulation where every bind
succeeds on port 1000, every connect yields `demo_channel`, and the path MTU is
10 bytes. -/
def demo_env : environment :=
  { ios := { m_ips := [{ is_v4 := true, bits := 167772161 }] }
    sim_bind_socket := fun ep ec => ({ addr := ep.addr, port := 1000 }, ec)
    sim_internal_connect := fun _ _ => (some demo_channel, .success)
    path_mtu := fun _ _ => 10 }

/-- The connect that starts the runs of the connecting socket. -/
def demo_connect : event :=
  .async_connect demo_channel.ep1 7 2

/-- The payload bytes queued ahead of the first error packet. -/
def queued_bytes : List packet → List Byte
  | [] => []
  | p :: q => if p.type = .error then [] else p.buffer ++ queued_bytes q

/-- The error code of the first error packet in a queue, if there is one. -/
def first_error : List packet → Option error_code
  | [] => none
  | p :: q => if p.type = .error then some p.ec else first_error q

/-- The EOF packet with sequence number `seq`, otherwise as default-constructed. -/
def demo_eof (seq : Nat) : packet :=
  { demo_packet .error seq [] with ec := .eof }

/-- The accepting socket with two payload packets (3 and 2 bytes) and an EOF in its
incoming queue. -/
def demo_reader : socket :=
  { demo_receiver with
    m_incoming_queue :=
      [demo_packet .payload 0 [1, 2, 3], demo_packet .payload 1 [4, 5], demo_eof 2],
    m_next_incoming_seq := 3 }

/-- The packets the socket passed to `forward_packet` between the states `s` and
`t`. -/
def socket.emitted_since (s t : socket) : List packet :=
  (forwarded t.effects).drop (forwarded s.effects).length

/-- The byte count a call of `write_some_impl` returned, `none` if it did not
return. -/
def written_bytes : Outcome socket write_result → Option Nat
  | .ok w => some w.bytes
  | .abort _ => none

/-- The EOF packet that `close` sends on the route `hops`. -/
def socket.eof_packet (s : socket) (hops : route) : packet :=
  { packet.default with
    type := .error
    ec := .eof
    from_ep := { addr := s.m_bound_to.addr, port := s.m_bound_to.port }
    overhead := 40
    hops := hops
    seq_nr := s.m_next_outgoing_seq }

/-- The packets `close` sends: the EOF packet when the socket has a channel, the
route to the peer is not empty and no connect is pending, nothing
otherwise. -/
def socket.close_packets (s : socket) : List packet :=
  match s.m_channel with
  | none => []
  | some c =>
    match c.remote_idx s.m_bound_to with
    | none => []
    | some remote =>
      if c.hops remote ≠ [] ∧ s.m_connect_handler = none then [s.eof_packet (c.hops remote)]
      else []

/-- The accepting socket with an asynchronous read of up to 4 bytes pending. -/
def demo_pending_reader : socket :=
  { demo_receiver with m_recv_handler := some 5, m_recv_buffer := [[0, 0, 0, 0]] }

/-- An `aux::sink_forwarder`: the sink it forwards to, if it has not been cleared. -/
structure sink_forwarder where
  m_dst : Option Nat
deriving DecidableEq, Repr

/-- `sink_forwarder::incoming_packet(p)`: the sink the packet is handed to, none
when the forwarder has been cleared. -/
def sink_forwarder.incoming_packet (f : sink_forwarder) (p : packet) : Option (Nat × packet) :=
  match f.m_dst with
  | none => none
  | some dst => some (dst, p)

/-- `sink_forwarder::clear()`. -/
def sink_forwarder.clear (_ : sink_forwarder) : sink_forwarder :=
  { m_dst := none }

/-- `tcp::socket::cancel(ec)` with the error code it returns: it ends with
`ec.clear(); return ec;`. -/
def socket.cancel_ec (s : socket) : socket × error_code :=
  (s.cancel, .success)

/-- `tcp::socket::close(ec)` with the error code it returns: it ends with
`ec.clear(); return ec;`. -/
def socket.close_ec (s : socket) : Outcome socket (socket × error_code) :=
  match s.close with
  | .abort a => .abort a
  | .ok t => .ok (t, .success)

/-- The completions `cancel` posts: `operation_aborted` with 0 bytes to a pending read
handler (whose timer is cancelled) and to a pending write handler, and
`operation_aborted` to a pending connect handler. -/
def socket.cancel_posts (s : socket) : List effect :=
  (match s.m_recv_handler with
   | none => []
   | some h => [.post_io h .operation_aborted 0, .recv_timer_cancel]) ++
  (match s.m_send_handler with
   | none => []
   | some h => [.post_io h .operation_aborted 0]) ++
  (match s.m_connect_handler with
   | none => []
   | some h => [.post_connect h .operation_aborted])

/-- The connecting socket with a read, a write and a connect pending. -/
def demo_busy : socket :=
  { demo_sender with
    m_recv_handler := some 5, m_recv_buffer := [[0, 0]], m_send_handler := some 6,
    m_send_buffer := [[1, 2]], m_connect_handler := some 7 }

/-- The connecting socket of `demo_channel` while its connect is pending (handler 7). -/
def demo_connecting : socket :=
  { demo_sender with m_connect_handler := some 7 }

/-- An open socket bound to 10.0.0.1:1000 that is not connected. -/
def demo_bound : socket :=
  { socket.init 0 with m_open := true, m_forwarder := some 2, m_bound_to := demo_channel.ep0 }

/-- The IPv6 endpoint [::2]:1337. -/
def demo_v6_target : endpoint :=
  { addr := { is_v4 := false, bits := 2 }, port := 1337 }

/-- A node with the addresses 10.0.0.1 and ::1, in a simulation where every bind
succeeds on port 1000, no endpoint is listening (`connection_refused`), and the
path MTU is 10 bytes. -/
def demo_dual_env : environment :=
  { ios := { m_ips := [{ is_v4 := true, bits := 167772161 }, { is_v4 := false, bits := 1 }] }
    sim_bind_socket := fun ep ec => ({ addr := ep.addr, port := 1000 }, ec)
    sim_internal_connect := fun _ _ => (none, .connection_refused)
    path_mtu := fun _ _ => 10 }

/-- The constructor `sink_forwarder(dst)` for the destination `dst`. -/
def sink_forwarder.init (dst : Nat) : sink_forwarder :=
  { m_dst := some dst }

/-- `sink_forwarder::label()`, with `label_of` for the labels of the sinks. -/
def sink_forwarder.label (f : sink_forwarder) (label_of : Nat → String) : String :=
  match f.m_dst with
  | none => ""
  | some dst => label_of dst

/-- A resolver result list of four entries for test.com, port 8080. -/
def demo_results : List resolver_entry :=
  [{ m_endpoint := { addr := { is_v4 := true, bits := 16909060 }, port := 8080 },
     m_host_name := "test.com", m_service := "8080" },
   { m_endpoint := { addr := { is_v4 := true, bits := 16909061 }, port := 8080 },
     m_host_name := "test.com", m_service := "8080" },
   { m_endpoint := { addr := { is_v4 := true, bits := 16909062 }, port := 8080 },
     m_host_name := "test.com", m_service := "8080" },
   { m_endpoint := { addr := { is_v4 := true, bits := 16909063 }, port := 8080 },
     m_host_name := "test.com", m_service := "8080" }]

/-- The number of payload bytes of a list of packets. -/
def payload_bytes : List packet → Int
  | [] => 0
  | p :: l => (p.buffer.length : Int) + payload_bytes l

/-- The socket an exit of the segmentation loop carries. -/
def write_exit.st : write_exit → socket
  | .next s _ => s
  | .done r => r.st

/-- The sum of the sizes recorded in `m_outstanding_packet_sizes`. -/
def outstanding_bytes : List (Nat × Int) → Int
  | [] => 0
  | (_, n) :: m => n + outstanding_bytes m

/-- The second segment of `demo_dropped_run` as the queue behind the first hop
hands it to the drop callback: one hop is popped already. -/
def demo_segment : packet :=
  { (demo_packet .payload 1 [10, 11, 12, 13, 14]) with
    from_ep := demo_channel.ep0, overhead := 40, hops := [4], drop_fun := some 0 }

/-- A run of the connecting socket: connect, a write of 15 bytes (the segments 0
of 10 bytes and 1 of 5 bytes), then the drop of segment 1. -/
def demo_dropped_run : List event :=
  [demo_connect,
   .incoming_packet (demo_packet .syn_ack 0 []),
   .async_write_some [List.range 15] 8,
   .packet_dropped demo_segment]

/-- The run `demo_dropped_run`, then the ACK of segment 0 (which re-sends segment
1), then the ACK of segment 1. -/
def demo_retransmit_run : List event :=
  demo_dropped_run ++
    [.incoming_packet (demo_packet .ack 0 []),
     .incoming_packet (demo_packet .ack 1 [])]

/-- A first connection of the socket: connect, a write of 5 bytes that is never
ACKed, the payload packet 1 received before packet 0, then `close()`. -/
def demo_first_connection : List event :=
  [demo_connect,
   .incoming_packet (demo_packet .syn_ack 0 []),
   .async_write_some [[1, 2, 3, 4, 5]] 8,
   .incoming_packet (demo_packet .payload 1 [66, 67]),
   .close]

/-- A second connection of the same socket: open, connect, and the payload
packet 0 of the new peer. -/
def demo_second_connection : List event :=
  [.open_socket true 2,
   demo_connect,
   .incoming_packet (demo_packet .syn_ack 0 []),
   .incoming_packet (demo_packet .payload 0 [1])]

/-- The connecting socket on a path with an MTU of 50000 bytes (MSS 50000) with the
window `cwnd` and one full segment of 50000 bytes, numbered `seq`, in flight:
`cwnd = 100000` and `seq = 0` are the values after the connect and a first write
of 50000 bytes. -/
def demo_jumbo (cwnd : Int) (seq : Nat) : socket :=
  { demo_sender with
    m_mss := 50000, m_cwnd := cwnd, m_bytes_in_flight := 50000,
    m_outstanding_packet_sizes := [(seq, 50000)], m_next_outgoing_seq := seq + 1 }

/-- The segments a buffer is cut into, following the words of the specification
("slice one MSS-sized payload packet" while bytes are left): pieces of `mss`
bytes, the last one holding the rest. The first argument bounds the number of
pieces; the length of the buffer suffices when `mss >= 1`. -/
def split_buffer (mss : Nat) : Nat → List Byte → List (List Byte)
  | 0, _ => []
  | fuel + 1, buf =>
    if buf = [] then [] else buf.take mss :: split_buffer mss fuel (buf.drop mss)

/-- The packets at the head of a queue up to, not including, the first error
packet. -/
def ahead_of_error : List packet → List packet
  | [] => []
  | p :: q => if p.type = .error then [] else p :: ahead_of_error q

/-! ## Properties -/

theorem to_uint64_of_range {i : Int} (h0 : 0 ≤ i) (h1 : i < 2 ^ 64) : (to_uint64 i : Int) = i := by
  unfold to_uint64
  rw [Int.toNat_of_nonneg (Int.emod_nonneg _ (by norm_num)), Int.emod_eq_of_lt h0 h1]

/-- C10: `packet_dropped` on a packet with sequence number `s`, for a socket that
has a channel it is an endpoint of, with `0 < MSS`, `0 <= cwnd` and
`last_drop_seq + cwnd / MSS` within the 64-bit range: the call returns; if
`last_drop_seq > 0` and `s < last_drop_seq + floor(cwnd / MSS)` then `cwnd` and
`last_drop_seq` are unchanged, otherwise `cwnd` becomes
`max(floor(cwnd / 2), MSS)` and `last_drop_seq` becomes `s`. -/
theorem packet_dropped_halves_once (s : socket) (p : packet) (c : channel) (remote : Nat)
    (hc : s.m_channel = some c) (hr : c.remote_idx s.m_bound_to = some remote)
    (hmss : 0 < s.m_mss) (hcwnd : 0 ≤ s.m_cwnd)
    (hrange : (s.m_last_drop_seq : Int) + s.m_cwnd / s.m_mss < 2 ^ 64) :
    ∃ s2, s.packet_dropped p = .ok s2 ∧
      (if 0 < s.m_last_drop_seq ∧ (p.seq_nr : Int) < (s.m_last_drop_seq : Int) + s.m_cwnd / s.m_mss
       then s2.m_cwnd = s.m_cwnd ∧ s2.m_last_drop_seq = s.m_last_drop_seq
       else s2.m_cwnd = max (s.m_cwnd / 2) s.m_mss ∧ s2.m_last_drop_seq = p.seq_nr) := by
  have hne : s.m_mss ≠ 0 := by omega
  have hdiv : Int.tdiv s.m_cwnd s.m_mss = s.m_cwnd / s.m_mss :=
    Int.tdiv_eq_ediv hcwnd (le_of_lt hmss)
  have hhalf : Int.tdiv s.m_cwnd 2 = s.m_cwnd / 2 := Int.tdiv_eq_ediv hcwnd (by norm_num)
  have hq : 0 ≤ s.m_cwnd / s.m_mss := Int.ediv_nonneg hcwnd (le_of_lt hmss)
  have hconv : (to_uint64 ((s.m_last_drop_seq : Int) + s.m_cwnd / s.m_mss) : Int)
      = (s.m_last_drop_seq : Int) + s.m_cwnd / s.m_mss :=
    to_uint64_of_range (by omega) hrange
  have hlt : p.seq_nr < to_uint64 ((s.m_last_drop_seq : Int) + s.m_cwnd / s.m_mss)
      ↔ (p.seq_nr : Int) < (s.m_last_drop_seq : Int) + s.m_cwnd / s.m_mss := by
    constructor
    · intro h
      have h2 := Int.ofNat_lt.mpr h
      omega
    · intro h
      apply Int.ofNat_lt.mp
      omega
  simp only [socket.packet_dropped, hc, hr, hne, hdiv, hhalf, hlt, if_false, gt_iff_lt]
  by_cases hcond : 0 < s.m_last_drop_seq
      ∧ (p.seq_nr : Int) < (s.m_last_drop_seq : Int) + s.m_cwnd / s.m_mss
  · rw [if_pos hcond]
    refine ⟨_, rfl, ?_⟩
    rw [if_pos hcond]
    exact ⟨rfl, rfl⟩
  · rw [if_neg hcond]
    refine ⟨_, rfl, ?_⟩
    rw [if_neg hcond]
    refine ⟨?_, rfl⟩
    show (if s.m_cwnd / 2 < s.m_mss then s.m_mss else s.m_cwnd / 2) = max (s.m_cwnd / 2) s.m_mss
    split
    · rw [max_eq_right]; omega
    · rw [max_eq_left]; omega

/-- Witness of C10: the constructor's socket, connected over a channel, drops
the packet with sequence number 3. -/
theorem packet_dropped_halves_once_witness :
    ∃ s2, socket.packet_dropped
        { socket.init 0 with
          m_channel := some { hops0 := [1], hops1 := [2], ep0 := endpoint.default,
                              ep1 := { addr := { is_v4 := true, bits := 7 }, port := 80 } } }
        { packet.default with type := .payload, seq_nr := 3 } = .ok s2 ∧
      s2.m_cwnd = 1475 ∧ s2.m_last_drop_seq = 3 := by
  have h := packet_dropped_halves_once
    { socket.init 0 with
      m_channel := some { hops0 := [1], hops1 := [2], ep0 := endpoint.default,
                          ep1 := { addr := { is_v4 := true, bits := 7 }, port := 80 } } }
    { packet.default with type := .payload, seq_nr := 3 }
    { hops0 := [1], hops1 := [2], ep0 := endpoint.default,
      ep1 := { addr := { is_v4 := true, bits := 7 }, port := 80 } } 1
    rfl (by decide) (by decide) (by decide) (by decide)
  obtain ⟨s2, h1, h2⟩ := h
  refine ⟨s2, h1, ?_⟩
  rw [if_neg (by decide)] at h2
  exact ⟨by rw [h2.1]; decide, h2.2⟩

theorem map_find_erase_self {α : Type} (m : List (Nat × α)) (k : Nat) :
    map_find (map_erase m k) k = none := by
  induction m with
  | nil => rfl
  | cons kv m ih =>
    obtain ⟨k2, v⟩ := kv
    by_cases h : k2 = k
    · simpa [map_erase, List.filter, h] using ih
    · have hb : (k2 != k) = true := by simpa using h
      simp only [map_erase, List.filter, hb, map_find, h, if_false]
      simpa [map_erase] using ih

/-- C8, the code at a failing input: `demo_sender` has two segments of 10 bytes in
flight (the window of 20 is full, so it is blocked) and a write handler
pending. The ACK of the first segment leaves 10 bytes in flight against a
window of 25, so the socket is unblocked, and yet the pending write is not
retried: the handler stays pending and nothing is posted or sent. -/
theorem ack_that_unblocks_leaves_writer_pending :
    (demo_sender.m_bytes_in_flight + 20) + demo_sender.m_mss > demo_sender.m_cwnd ∧
    socket.incoming_packet
        { demo_sender with
          m_bytes_in_flight := 20, m_outstanding_packet_sizes := [(1, 10), (0, 10)],
          m_next_outgoing_seq := 2, m_send_handler := some 5, m_send_buffer := [[1, 2, 3]] }
        (demo_packet .ack 0 [])
      = .ok { demo_sender with
          m_bytes_in_flight := 10, m_outstanding_packet_sizes := [(1, 10)], m_cwnd := 25,
          m_next_outgoing_seq := 2, m_send_handler := some 5, m_send_buffer := [[1, 2, 3]] } ∧
    (10 : Int) + demo_sender.m_mss ≤ 25 := by
  refine ⟨by decide, ?_, by decide⟩
  rfl

/-- C9 as stated fails in two ways. First, the socket is not blocked and a write of
3 bytes is pending: the ACK of the one outstanding segment (10 bytes) wakes
the writer, which sends the 3 bytes, and afterwards `bytes_in_flight` is 3,
not 10 - 10, and outstanding-sizes holds the new segment. Second, with MSS
50000 and `cwnd = 100000` (the state after a connect over a path with MTU 50000
and a write of one full segment, `demo_jumbo`), no writer pending and the
retransmit queue empty, the ACK of the segment of 50000 bytes computes
`m_mss * acked_bytes = 2500000000` in `int`, which wraps to -1794967296: `cwnd`
becomes 100000 - 17949 = 82051, not 100000 + 25000, and has decreased. -/
theorem ack_with_pending_writer_sends :
    (map_find [((0 : Nat), (10 : Int))] 0 = some 10 ∧
      socket.incoming_packet
          { demo_sender with
            m_cwnd := 100, m_bytes_in_flight := 10, m_outstanding_packet_sizes := [(0, 10)],
            m_next_outgoing_seq := 1, m_send_handler := some 5, m_send_buffer := [[1, 2, 3]] }
          (demo_packet .ack 0 [])
        = .ok { demo_sender with
            m_cwnd := 101, m_bytes_in_flight := 3, m_outstanding_packet_sizes := [(1, 3)],
            m_next_outgoing_seq := 2, m_send_handler := none, m_send_buffer := [],
            effects :=
              [.forward_packet
                 { packet.default with
                   type := .payload, buffer := [1, 2, 3], from_ep := demo_channel.ep0,
                   overhead := 40, hops := [3, 4], seq_nr := 1, drop_fun := some 0 },
               .post_io 5 .success 3] } ∧
      (3 : Int) ≠ 10 - 10) ∧
    (map_find (demo_jumbo 100000 0).m_outstanding_packet_sizes 0 = some 50000 ∧
      (demo_jumbo 100000 0).m_outgoing_packets = [] ∧
      (demo_jumbo 100000 0).m_send_handler = none ∧
      (demo_jumbo 100000 0).m_mss = 50000 ∧ (demo_jumbo 100000 0).m_cwnd = 100000 ∧
      returns ((demo_jumbo 100000 0).incoming_packet (demo_packet .ack 0 [])) = true ∧
      (final ((demo_jumbo 100000 0).incoming_packet (demo_packet .ack 0 []))).m_cwnd = 82051 ∧
      (82051 : Int) < 100000 ∧ (82051 : Int) ≠ 100000 + 50000 * 50000 / 100000) := by
  refine ⟨by decide!, by decide!⟩

theorem to_int32_of_range (i : Int) (h1 : -2 ^ 31 ≤ i) (h2 : i < 2 ^ 31) : to_int32 i = i := by
  unfold to_int32
  omega

/-- C9, amended: for an ACK whose sequence number has recorded size `a` in
outstanding-sizes, with `0 <= a <= bytes_in_flight`, `MSS >= 0` and `cwnd > 0`,
received while the retransmit queue is empty and no write handler is
pending, and with `MSS * a` and the new `cwnd` below 2^31 (the `int` arithmetic
does not overflow): the call returns, that entry is removed from
outstanding-sizes, `bytes_in_flight` is reduced by exactly `a`, `cwnd` becomes
`cwnd + floor(MSS * a / cwnd)` with the old `cwnd`, and `cwnd` does not decrease. -/
theorem ack_accounting (s : socket) (p : packet) (a : Int)
    (hp : p.type = .ack)
    (hfind : map_find s.m_outstanding_packet_sizes p.seq_nr = some a)
    (hq : s.m_outgoing_packets = []) (hw : s.m_send_handler = none)
    (ha0 : 0 ≤ a) (ha : a ≤ s.m_bytes_in_flight) (hmss : 0 ≤ s.m_mss) (hcwnd : 0 < s.m_cwnd)
    (hprod32 : s.m_mss * a < 2 ^ 31)
    (hsum32 : s.m_cwnd + s.m_mss * a / s.m_cwnd < 2 ^ 31) :
    ∃ s2, s.incoming_packet p = .ok s2 ∧
      s2.m_outstanding_packet_sizes = map_erase s.m_outstanding_packet_sizes p.seq_nr ∧
      map_find s2.m_outstanding_packet_sizes p.seq_nr = none ∧
      s2.m_bytes_in_flight = s.m_bytes_in_flight - a ∧
      s2.m_cwnd = s.m_cwnd + s.m_mss * a / s.m_cwnd ∧
      s.m_cwnd ≤ s2.m_cwnd := by
  have hne : s.m_cwnd ≠ 0 := by omega
  have hlt : ¬ s.m_bytes_in_flight < a := by omega
  have hprod : 0 ≤ s.m_mss * a := Int.mul_nonneg hmss ha0
  have hq0 : 0 ≤ s.m_mss * a / s.m_cwnd := Int.ediv_nonneg hprod (le_of_lt hcwnd)
  have hw1 : to_int32 (s.m_mss * a) = s.m_mss * a :=
    to_int32_of_range _ (by omega) hprod32
  have hdiv : Int.tdiv (s.m_mss * a) s.m_cwnd = s.m_mss * a / s.m_cwnd :=
    Int.tdiv_eq_ediv hprod (le_of_lt hcwnd)
  have hw2 : to_int32 (s.m_cwnd + s.m_mss * a / s.m_cwnd) = s.m_cwnd + s.m_mss * a / s.m_cwnd :=
    to_int32_of_range _ (by omega) hsum32
  simp only [socket.incoming_packet, hp, socket.ack_received, hfind, hlt, hq, socket.resend,
    hne, hw1, hdiv, hw2, if_false, socket.maybe_wakeup_writer, hw, ite_self]
  refine ⟨_, rfl, rfl, ?_, rfl, rfl, ?_⟩
  · exact map_find_erase_self _ _
  · show s.m_cwnd ≤ s.m_cwnd + s.m_mss * a / s.m_cwnd
    omega

/-- Witness of C9: `demo_sender` with one segment of 10 bytes in flight. -/
theorem ack_accounting_witness :
    ∃ s2, socket.incoming_packet
        { demo_sender with m_bytes_in_flight := 10, m_outstanding_packet_sizes := [(0, 10)] }
        (demo_packet .ack 0 []) = .ok s2 ∧
      s2.m_bytes_in_flight = 0 ∧ s2.m_cwnd = 25 := by
  obtain ⟨s2, h1, _, _, h4, h5, _⟩ := ack_accounting
    { demo_sender with m_bytes_in_flight := 10, m_outstanding_packet_sizes := [(0, 10)] }
    (demo_packet .ack 0 []) 10 rfl rfl rfl rfl (by decide) (by decide) (by decide) (by decide)
    (by decide) (by decide)
  exact ⟨s2, h1, by rw [h4]; decide, by rw [h5]; decide⟩

theorem forward_ok (s : socket) (p : packet) (h : p.hops ≠ []) :
    socket.forward s p = .ok (s.emit (.forward_packet p)) := by
  unfold socket.forward forward_packet
  cases hp : p.hops with
  | nil => exact absurd hp h
  | cons x xs => rfl

theorem forwarded_append (a b : List effect) :
    forwarded (a ++ b) = forwarded a ++ forwarded b := by
  induction a with
  | nil => rfl
  | cons e a ih => cases e <;> simp [forwarded, ih]

theorem read_some_impl_frame (s : socket) (bufs : List (List Byte)) :
    match s.read_some_impl bufs with
    | .ok r =>
      r.st = { s with m_recv_buffer := r.st.m_recv_buffer
                      m_incoming_queue := r.st.m_incoming_queue
                      m_queue_size := r.st.m_queue_size
                      m_channel := r.st.m_channel }
    | .abort a => a = { s with m_recv_buffer := a.m_recv_buffer } := by
  unfold socket.read_some_impl
  split_ifs
  all_goals try rfl
  cases read_queue s.m_incoming_queue
      { done := [], rest := bufs, buf_offset := 0, total_received := 0,
        queue_size := s.m_queue_size } with
  | none => rfl
  | some e =>
    cases e with
    | error q ec c => rfl
    | stop q c =>
      simp only
      split_ifs <;> rfl

theorem read_some_impl_effects (s : socket) (bufs : List (List Byte)) :
    (match s.read_some_impl bufs with
      | .ok r => r.st.effects
      | .abort a => a.effects) = s.effects := by
  have h := read_some_impl_frame s bufs
  cases hr : s.read_some_impl bufs with
  | ok r => rw [hr] at h; simp only at h ⊢; rw [h]
  | abort a => rw [hr] at h; simp only at h ⊢; rw [h]

theorem async_read_some_impl_forwarded (s : socket) (bufs : List (List Byte)) (h : Handler) :
    forwarded (final (s.async_read_some_impl bufs h)).effects = forwarded s.effects := by
  have hr := read_some_impl_effects s bufs
  unfold socket.async_read_some_impl
  cases bufs with
  | nil => rfl
  | cons b bs =>
    simp only
    split_ifs
    · rfl
    · cases hread : s.read_some_impl (b :: bs) with
      | abort a =>
        rw [hread] at hr
        simp only [final]
        rw [show a.effects = s.effects from hr]
      | ok r =>
        rw [hread] at hr
        have hr2 : r.st.effects = s.effects := hr
        simp only
        split_ifs <;> simp [final, socket.emit, forwarded_append, forwarded, hr2]

theorem async_read_some_null_buffers_impl_forwarded (s : socket) (h : Handler) :
    forwarded (s.async_read_some_null_buffers_impl h).effects = forwarded s.effects := by
  unfold socket.async_read_some_null_buffers_impl
  simp only
  split_ifs <;> simp [socket.emit, forwarded_append, forwarded]

theorem maybe_wakeup_reader_forwarded (s : socket) :
    forwarded (final s.maybe_wakeup_reader).effects = forwarded s.effects := by
  unfold socket.maybe_wakeup_reader
  by_cases hlen : s.m_incoming_queue.length ≠ 1
  · rw [if_pos hlen]; rfl
  · rw [if_neg hlen]
    cases hh : s.m_recv_handler with
    | none => rfl
    | some h =>
      simp only
      by_cases hnull : s.m_recv_null_buffers = true
      · rw [if_pos hnull]
        exact async_read_some_null_buffers_impl_forwarded _ _
      · rw [if_neg hnull]
        exact async_read_some_impl_forwarded _ _ _

theorem drain_reorder_effects (fuel : Nat) (s : socket) :
    (socket.drain_reorder fuel s).effects = s.effects := by
  induction fuel generalizing s with
  | zero => rfl
  | succ n ih =>
    unfold socket.drain_reorder
    split
    · rfl
    · rw [ih]

/-- C4: every payload packet handed to `incoming_packet` of a socket with a
channel and a non-empty route to its peer causes exactly one call of
`forward_packet` (whether the call then returns or stops at a failed
assertion of the woken reader): the packet forwarded is an ACK with the
sequence number of the payload and the route `channel.hops[remote index]`,
whatever the sequence number is. -/
theorem payload_is_acked_once (s : socket) (p : packet) (c : channel) (remote : Nat)
    (hc : s.m_channel = some c) (hr : c.remote_idx s.m_bound_to = some remote)
    (hh : c.hops remote ≠ []) (hp : p.type = .payload) :
    forwarded (final (s.incoming_packet p)).effects
      = forwarded s.effects
        ++ [{ packet.default with type := .ack, seq_nr := p.seq_nr, hops := c.hops remote }] := by
  have hfw := forward_ok s
    { packet.default with type := .ack, seq_nr := p.seq_nr, hops := c.hops remote } hh
  simp only [socket.incoming_packet, hp, socket.data_received, hc, hr, hfw]
  by_cases hseq : p.seq_nr ≠ (s.emit (.forward_packet
      { packet.default with type := .ack, seq_nr := p.seq_nr,
                            hops := c.hops remote })).m_next_incoming_seq
  · rw [if_pos hseq]
    simp [final, socket.emit, forwarded_append, forwarded]
  · rw [if_neg hseq]
    simp only
    rw [maybe_wakeup_reader_forwarded, drain_reorder_effects]
    simp [socket.emit, forwarded_append, forwarded]

/-- Witness of C4: `demo_receiver` is handed a payload packet from the future
(sequence number 7). -/
theorem payload_is_acked_once_witness :
    forwarded (final (demo_receiver.incoming_packet (demo_packet .payload 7 [1, 2]))).effects
      = [{ packet.default with type := .ack, seq_nr := 7, hops := [1, 2] }] :=
  payload_is_acked_once demo_receiver (demo_packet .payload 7 [1, 2]) demo_channel 0
    rfl (by decide) (by decide) rfl

theorem split_buffer_fuel (mss : Nat) (hm : 1 ≤ mss) :
    ∀ (fuel fuel2 : Nat) (buf : List Byte), buf.length ≤ fuel → buf.length ≤ fuel2 →
      split_buffer mss fuel buf = split_buffer mss fuel2 buf := by
  intro fuel
  induction fuel with
  | zero =>
    intro fuel2 buf h1 _
    have hb : buf = [] := List.length_eq_zero.mp (by omega)
    subst hb
    cases fuel2 with
    | zero => rfl
    | succ n => simp [split_buffer]
  | succ n ih =>
    intro fuel2 buf h1 h2
    cases fuel2 with
    | zero =>
      have hb : buf = [] := List.length_eq_zero.mp (by omega)
      subst hb
      simp [split_buffer]
    | succ m =>
      unfold split_buffer
      by_cases hb : buf = []
      · rw [if_pos hb, if_pos hb]
      · rw [if_neg hb, if_neg hb]
        congr 1
        have hl : 0 < buf.length := List.length_pos.mpr hb
        apply ih
        · rw [List.length_drop]; omega
        · rw [List.length_drop]; omega

theorem map_find_some_mem {α : Type} (m : List (Nat × α)) (k : Nat) (v : α)
    (h : map_find m k = some v) : (k, v) ∈ m := by
  induction m with
  | nil => simp [map_find] at h
  | cons kv m ih =>
    obtain ⟨k2, v2⟩ := kv
    by_cases hk : k2 = k
    · simp only [map_find, hk, if_true, Option.some.injEq] at h
      subst hk; subst h
      exact List.mem_cons_self _ _
    · simp only [map_find, hk, if_false] at h
      exact List.mem_cons_of_mem _ (ih h)

theorem map_find_none_iff {α : Type} (m : List (Nat × α)) (k : Nat) :
    map_find m k = none ↔ k ∉ m.map Prod.fst := by
  induction m with
  | nil => simp [map_find]
  | cons kv m ih =>
    obtain ⟨k2, v2⟩ := kv
    by_cases hk : k2 = k
    · simp [map_find, hk]
    · simp only [map_find, hk, if_false, List.map_cons, List.mem_cons, not_or]
      rw [ih]
      constructor
      · intro h; exact ⟨fun h2 => hk h2.symm, h⟩
      · intro h; exact h.2

theorem map_erase_of_not_mem {α : Type} (m : List (Nat × α)) (k : Nat)
    (h : k ∉ m.map Prod.fst) : map_erase m k = m := by
  unfold map_erase
  rw [List.filter_eq_self]
  intro kv hkv
  have : kv.1 ≠ k := by
    intro he
    apply h
    rw [← he]
    exact List.mem_map_of_mem _ hkv
  simpa using this

theorem map_erase_perm {α : Type} (m : List (Nat × α)) (k : Nat) (v : α)
    (h : map_find m k = some v) (hnd : (m.map Prod.fst).Nodup) :
    List.Perm m ((k, v) :: map_erase m k) := by
  induction m with
  | nil => simp [map_find] at h
  | cons kv m ih =>
    obtain ⟨k2, v2⟩ := kv
    rw [List.map_cons, List.nodup_cons] at hnd
    by_cases hk : k2 = k
    · simp only [map_find, hk, if_true, Option.some.injEq] at h
      subst hk; subst h
      have hb : ((k2, v2).1 != k2) = false := by simp
      have : map_erase ((k2, v2) :: m) k2 = m := by
        unfold map_erase
        rw [List.filter_cons_of_neg (by simp)]
        exact map_erase_of_not_mem m k2 hnd.1
      rw [this]
    · simp only [map_find, hk, if_false] at h
      have h2 : map_erase ((k2, v2) :: m) k = (k2, v2) :: map_erase m k := by
        unfold map_erase
        rw [List.filter_cons_of_pos (by simpa using hk)]
      rw [h2]
      exact ((ih h hnd.2).cons (k2, v2)).trans (List.Perm.swap _ _ _)

theorem map_erase_sublist {α : Type} (m : List (Nat × α)) (k : Nat) :
    List.Sublist (map_erase m k) m := List.filter_sublist _

theorem map_erase_nodup {α : Type} (m : List (Nat × α)) (k : Nat)
    (hnd : (m.map Prod.fst).Nodup) : ((map_erase m k).map Prod.fst).Nodup :=
  List.Nodup.sublist ((map_erase_sublist m k).map _) hnd

theorem map_insert_length {α : Type} (m : List (Nat × α)) (k : Nat) (v : α) :
    (map_insert m k v).length ≤ m.length + 1 := by
  unfold map_insert
  cases map_find m k <;> simp

theorem map_insert_of_none {α : Type} (m : List (Nat × α)) (k : Nat) (v : α)
    (h : map_find m k = none) : map_insert m k v = m ++ [(k, v)] := by
  unfold map_insert
  rw [h]

theorem map_find_append_ne {α : Type} (m : List (Nat × α)) (k k2 : Nat) (v : α) (h : k ≠ k2) :
    map_find (m ++ [(k, v)]) k2 = map_find m k2 := by
  induction m with
  | nil => simp [map_find, h]
  | cons kv m ih =>
    obtain ⟨k3, v3⟩ := kv
    show (if k3 = k2 then some v3 else map_find (m ++ [(k, v)]) k2)
      = if k3 = k2 then some v3 else map_find m k2
    rw [ih]

theorem map_find_insert_ne {α : Type} (m : List (Nat × α)) (k k2 : Nat) (v : α) (h : k ≠ k2) :
    map_find (map_insert m k v) k2 = map_find m k2 := by
  unfold map_insert
  cases hf : map_find m k with
  | some w => rfl
  | none => exact map_find_append_ne m k k2 v h

theorem reorder_wf_insert (s : socket) (p : packet) (hwf : s.reorder_wf) :
    socket.reorder_wf { s with m_reorder_buffer := map_insert s.m_reorder_buffer p.seq_nr p } := by
  unfold socket.reorder_wf at *
  simp only
  unfold map_insert
  cases hf : map_find s.m_reorder_buffer p.seq_nr with
  | some w => exact hwf
  | none =>
    simp only
    constructor
    · intro kv hkv
      rw [List.mem_append, List.mem_singleton] at hkv
      rcases hkv with hkv | hkv
      · exact hwf.1 kv hkv
      · subst hkv; rfl
    · rw [List.map_append, List.nodup_append]
      refine ⟨hwf.2, by simp, ?_⟩
      intro a ha hb
      simp only [List.map_cons, List.map_nil, List.mem_singleton] at hb
      subst hb
      exact (map_find_none_iff _ _).mp hf ha

theorem reorder_wf_erase (s : socket) (k : Nat) (hwf : s.reorder_wf) :
    socket.reorder_wf { s with m_reorder_buffer := map_erase s.m_reorder_buffer k } := by
  unfold socket.reorder_wf at *
  exact ⟨fun kv hkv => hwf.1 kv ((map_erase_sublist _ _).subset hkv), map_erase_nodup _ _ hwf.2⟩

/-- The drain loop, for a well-formed reorder buffer and a sequence counter that
stays below `B < 2^64`: it appends packets with consecutive sequence numbers
starting at the expected one, takes exactly these out of the reorder buffer,
and stops when the next expected sequence number is not in the buffer. -/
theorem drain_reorder_spec (B : Nat) (hB : B < 2 ^ 64) :
    ∀ (fuel : Nat) (s : socket), s.m_reorder_buffer.length ≤ fuel → s.reorder_wf →
      s.m_next_incoming_seq + s.m_reorder_buffer.length ≤ B →
      ∃ (app : List packet) (rb : List (Nat × packet)),
        socket.drain_reorder fuel s
          = { s with m_incoming_queue := s.m_incoming_queue ++ app
                     m_reorder_buffer := rb
                     m_next_incoming_seq := s.m_next_incoming_seq + app.length } ∧
        app.map packet.seq_nr = List.range' s.m_next_incoming_seq app.length ∧
        List.Perm (app ++ rb.map Prod.snd) (s.m_reorder_buffer.map Prod.snd) ∧
        (∀ kv ∈ rb, kv.2.seq_nr = kv.1) ∧ (rb.map Prod.fst).Nodup ∧
        map_find rb (s.m_next_incoming_seq + app.length) = none := by
  intro fuel
  induction fuel with
  | zero =>
    intro s hfuel hwf _
    have hnil : s.m_reorder_buffer = [] := List.eq_nil_of_length_eq_zero (by omega)
    refine ⟨[], s.m_reorder_buffer, ?_, rfl, by simp, hwf.1, hwf.2, ?_⟩
    · simp [socket.drain_reorder]
    · rw [hnil]; rfl
  | succ fuel ih =>
    intro s hfuel hwf hbound
    unfold socket.drain_reorder
    cases hf : map_find s.m_reorder_buffer s.m_next_incoming_seq with
    | none =>
      refine ⟨[], s.m_reorder_buffer, ?_, rfl, by simp, hwf.1, hwf.2, ?_⟩
      · simp
      · simpa using hf
    | some pkt =>
      have hmem := map_find_some_mem _ _ _ hf
      have hperm := map_erase_perm _ _ _ hf hwf.2
      have hlen : s.m_reorder_buffer.length
          = (map_erase s.m_reorder_buffer s.m_next_incoming_seq).length + 1 := by
        rw [hperm.length_eq, List.length_cons]
      have hmod : (s.m_next_incoming_seq + 1) % 2 ^ 64 = s.m_next_incoming_seq + 1 :=
        Nat.mod_eq_of_lt (by omega)
      have hseq : pkt.seq_nr = s.m_next_incoming_seq := hwf.1 _ hmem
      simp only [hmod]
      obtain ⟨app2, rb, heq, hseqs, hp2, hrb1, hrb2, hnone⟩ :=
        ih { s with
             m_reorder_buffer := map_erase s.m_reorder_buffer s.m_next_incoming_seq
             m_incoming_queue := s.m_incoming_queue ++ [pkt]
             m_next_incoming_seq := s.m_next_incoming_seq + 1 }
          (by simp only; omega) (reorder_wf_erase s _ hwf) (by simp only; omega)
      refine ⟨pkt :: app2, rb, ?_, ?_, ?_, hrb1, hrb2, ?_⟩
      · rw [heq]
        simp only [List.append_assoc, List.singleton_append, List.length_cons]
        have : s.m_next_incoming_seq + 1 + app2.length = s.m_next_incoming_seq + (app2.length + 1) := by
          omega
        rw [this]
      · simp only [List.map_cons, List.length_cons, hseq]
        simp only at hseqs
        rw [hseqs]
        rfl
      · have h3 : List.Perm (s.m_reorder_buffer.map Prod.snd)
            (pkt :: (map_erase s.m_reorder_buffer s.m_next_incoming_seq).map Prod.snd) := by
          simpa using hperm.map Prod.snd
        simp only at hp2
        exact ((hp2.cons pkt).trans h3.symm)
      · simp only [List.length_cons]
        simp only at hnone
        have : s.m_next_incoming_seq + (app2.length + 1) = s.m_next_incoming_seq + 1 + app2.length := by
          omega
        rw [this]
        exact hnone

theorem same_transport_refl (s : socket) : s.same_transport s :=
  ⟨rfl, rfl, rfl, rfl, rfl, rfl, rfl, rfl, rfl⟩

theorem read_some_impl_same_transport (s : socket) (bufs : List (List Byte)) :
    match s.read_some_impl bufs with
    | .ok r => s.same_transport r.st
    | .abort a => s.same_transport a := by
  have h := read_some_impl_frame s bufs
  cases hr : s.read_some_impl bufs with
  | ok r =>
    rw [hr] at h
    simp only at h ⊢
    unfold socket.same_transport
    rw [h]
    exact ⟨rfl, rfl, rfl, rfl, rfl, rfl, rfl, rfl, rfl⟩
  | abort a =>
    rw [hr] at h
    simp only at h ⊢
    unfold socket.same_transport
    rw [h]
    exact ⟨rfl, rfl, rfl, rfl, rfl, rfl, rfl, rfl, rfl⟩

theorem async_read_some_impl_same_transport (s : socket) (bufs : List (List Byte))
    (h : Handler) : s.same_transport (final (s.async_read_some_impl bufs h)) := by
  have hr := read_some_impl_same_transport s bufs
  unfold socket.async_read_some_impl
  cases bufs with
  | nil => exact same_transport_refl s
  | cons b bs =>
    simp only
    by_cases hb : b.length = 0
    · rw [if_pos hb]; exact same_transport_refl s
    · rw [if_neg hb]
      cases hread : s.read_some_impl (b :: bs) with
      | abort a =>
        rw [hread] at hr
        exact hr
      | ok r =>
        rw [hread] at hr
        simp only at hr ⊢
        split_ifs <;> exact hr

theorem async_read_some_null_buffers_impl_same_transport (s : socket) (h : Handler) :
    s.same_transport (s.async_read_some_null_buffers_impl h) := by
  unfold socket.async_read_some_null_buffers_impl
  simp only
  split_ifs <;> exact same_transport_refl s

theorem maybe_wakeup_reader_same_transport (s : socket) :
    s.same_transport (final s.maybe_wakeup_reader) := by
  unfold socket.maybe_wakeup_reader
  by_cases hlen : s.m_incoming_queue.length ≠ 1
  · rw [if_pos hlen]; exact same_transport_refl s
  · rw [if_neg hlen]
    cases hh : s.m_recv_handler with
    | none => exact same_transport_refl s
    | some h =>
      simp only
      by_cases hnull : s.m_recv_null_buffers = true
      · rw [if_pos hnull]
        exact async_read_some_null_buffers_impl_same_transport _ _
      · rw [if_neg hnull]
        exact async_read_some_impl_same_transport _ _ _

/-- The case `error` / `payload` of `incoming_packet` before the reader is woken,
for a well-formed reorder buffer and a sequence counter that stays below
`B < 2^64`. If it does not return, nothing has changed. If it returns, the
incoming queue has gained packets `app` with consecutive sequence numbers
starting at the expected one, which has advanced by their number: either
none (the packet went to the reorder buffer unless its key was taken) or the
packet itself followed by what the drain loop took out of the reorder
buffer. -/
theorem data_received_spec (B : Nat) (hB : B < 2 ^ 64) (s : socket) (p : packet)
    (hwf : s.reorder_wf) (hbound : s.m_next_incoming_seq + s.m_reorder_buffer.length + 1 ≤ B) :
    match s.data_received p with
    | .abort a => a = s
    | .ok (s1, woke) =>
      ∃ (app : List packet) (rb : List (Nat × packet)),
        s1 = { s with effects := s1.effects
                      m_incoming_queue := s.m_incoming_queue ++ app
                      m_reorder_buffer := rb
                      m_next_incoming_seq := s.m_next_incoming_seq + app.length } ∧
        app.map packet.seq_nr = List.range' s.m_next_incoming_seq app.length ∧
        (∀ kv ∈ rb, kv.2.seq_nr = kv.1) ∧ (rb.map Prod.fst).Nodup ∧
        rb.length + app.length ≤ s.m_reorder_buffer.length + 1 ∧
        ((woke = false ∧ app = [] ∧ rb = map_insert s.m_reorder_buffer p.seq_nr p
            ∧ p.seq_nr ≠ s.m_next_incoming_seq) ∨
         (woke = true ∧ p.seq_nr = s.m_next_incoming_seq ∧
            ∃ app2, app = p :: app2 ∧
              List.Perm (app2 ++ rb.map Prod.snd) (s.m_reorder_buffer.map Prod.snd) ∧
              map_find rb (s.m_next_incoming_seq + app.length) = none)) := by
  unfold socket.data_received
  cases hc : s.m_channel with
  | none => rfl
  | some c =>
    simp only
    cases hr : c.remote_idx s.m_bound_to with
    | none => rfl
    | some remote =>
      simp only
      unfold socket.forward
      cases hfw : forward_packet
          { packet.default with type := .ack, seq_nr := p.seq_nr, hops := c.hops remote } with
      | none => rfl
      | some x =>
        simp only
        by_cases hseq : p.seq_nr ≠ s.m_next_incoming_seq
        · have hseq2 : p.seq_nr ≠ (s.emit (.forward_packet
              { packet.default with type := .ack, seq_nr := p.seq_nr,
                                    hops := c.hops remote })).m_next_incoming_seq := hseq
          rw [if_pos hseq2]
          have hwf2 := reorder_wf_insert s p hwf
          refine ⟨[], map_insert s.m_reorder_buffer p.seq_nr p, ?_, rfl, hwf2.1, hwf2.2, ?_,
            Or.inl ⟨rfl, rfl, rfl, hseq⟩⟩
          · simp [socket.emit, hc]
          · simpa using map_insert_length s.m_reorder_buffer p.seq_nr p
        · have hseq2 : ¬ p.seq_nr ≠ (s.emit (.forward_packet
              { packet.default with type := .ack, seq_nr := p.seq_nr,
                                    hops := c.hops remote })).m_next_incoming_seq := hseq
          rw [if_neg hseq2]
          have hseq3 : p.seq_nr = s.m_next_incoming_seq := not_not.mp hseq
          have hmod : (s.m_next_incoming_seq + 1) % 2 ^ 64 = s.m_next_incoming_seq + 1 :=
            Nat.mod_eq_of_lt (by omega)
          simp only [socket.emit, hmod]
          obtain ⟨app2, rb, heq, hseqs, hperm, hrb1, hrb2, hnone⟩ :=
            drain_reorder_spec B hB s.m_reorder_buffer.length
              { s with effects := s.effects ++ [.forward_packet
                         { packet.default with type := .ack, seq_nr := p.seq_nr,
                                               hops := c.hops remote }]
                       m_next_incoming_seq := s.m_next_incoming_seq + 1
                       m_incoming_queue := s.m_incoming_queue ++ [p] }
              (le_refl _) hwf (by simp only; omega)
          have hlen : app2.length + rb.length = s.m_reorder_buffer.length := by
            have := hperm.length_eq
            simpa using this
          refine ⟨p :: app2, rb, ?_, ?_, hrb1, hrb2, ?_,
            Or.inr ⟨trivial, hseq3, app2, rfl, hperm, ?_⟩⟩
          · rw [heq]
            simp only [List.append_assoc, List.singleton_append, List.length_cons]
            have : s.m_next_incoming_seq + 1 + app2.length
                = s.m_next_incoming_seq + (app2.length + 1) := by omega
            rw [this, hc]
          · simp only [List.map_cons, List.length_cons, hseq3]
            simp only at hseqs
            rw [hseqs]
            rfl
          · simp only [List.length_cons]; omega
          · simp only [List.length_cons]
            simp only at hnone
            have : s.m_next_incoming_seq + (app2.length + 1)
                = s.m_next_incoming_seq + 1 + app2.length := by omega
            rw [this]
            exact hnone

theorem incoming_packet_data (s : socket) (p : packet)
    (hp : p.type = .payload ∨ p.type = .error) :
    s.incoming_packet p
      = (match s.data_received p with
         | .abort a => .abort a
         | .ok (s1, false) => .ok s1
         | .ok (s1, true) => s1.maybe_wakeup_reader) := by
  rcases hp with hp | hp <;> simp only [socket.incoming_packet, hp]

theorem range_append_range' (a b : Nat) :
    List.range a ++ List.range' a b = List.range (a + b) := by
  rw [List.range_eq_range', List.range_eq_range']
  have := List.range'_append_1 0 a b
  rw [Nat.add_comm b a] at this
  simpa using this

theorem incoming_data_in_order (s : socket) (p : packet) (log : List packet) (cnt : Nat)
    (hp : p.type = .payload ∨ p.type = .error) (hinv : s.in_order log cnt)
    (hcnt : cnt + 1 < 2 ^ 64) :
    (final (s.incoming_packet p)).in_order (log ++ s.appended_by p) (cnt + 1) := by
  obtain ⟨hlog, hwf, hbound⟩ := hinv
  have hspec := data_received_spec (cnt + 1) hcnt s p hwf (by omega)
  rw [incoming_packet_data s p hp]
  unfold socket.appended_by
  rw [if_pos hp]
  cases hd : s.data_received p with
  | abort a =>
    rw [hd] at hspec
    simp only at hspec
    subst hspec
    simp only [final, List.append_nil]
    exact ⟨hlog, hwf, by omega⟩
  | ok r =>
    obtain ⟨s1, woke⟩ := r
    rw [hd] at hspec
    obtain ⟨app, rb, heq, hseqs, hrb1, hrb2, hlen, _⟩ := hspec
    have hq : s1.m_incoming_queue = s.m_incoming_queue ++ app := by rw [heq]
    have hnext : s1.m_next_incoming_seq = s.m_next_incoming_seq + app.length := by rw [heq]
    have hrb : s1.m_reorder_buffer = rb := by rw [heq]
    have happ : s1.m_incoming_queue.drop s.m_incoming_queue.length = app := by
      rw [hq, List.drop_left]
    have hinv1 : ∀ t : socket, s1.same_transport t → t.in_order (log ++ app) (cnt + 1) := by
      intro t ht
      obtain ⟨_, _, _, _, _, _, h7, _, h9⟩ := ht
      refine ⟨?_, ?_, ?_⟩
      · rw [List.map_append, hlog, hseqs, h7, hnext, range_append_range']
      · unfold socket.reorder_wf
        rw [h9, hrb]
        exact ⟨hrb1, hrb2⟩
      · rw [h7, h9, hnext, hrb]; omega
    simp only [happ]
    cases woke with
    | false => exact hinv1 s1 (same_transport_refl s1)
    | true => exact hinv1 _ (maybe_wakeup_reader_same_transport s1)

theorem deliver_log_in_order :
    ∀ (ps : List packet) (s : socket) (log : List packet) (cnt : Nat),
      (∀ p ∈ ps, p.type = .payload ∨ p.type = .error) → s.in_order log cnt →
      cnt + ps.length < 2 ^ 64 →
      (log ++ (s.deliver_log ps).2).map packet.seq_nr
        = List.range (s.deliver_log ps).1.m_next_incoming_seq := by
  intro ps
  induction ps with
  | nil =>
    intro s log cnt _ hinv _
    simpa [socket.deliver_log] using hinv.1
  | cons p ps ih =>
    intro s log cnt htypes hinv hcnt
    have hp := htypes p (List.mem_cons_self _ _)
    have hstep := incoming_data_in_order s p log cnt hp hinv
      (by rw [List.length_cons] at hcnt; omega)
    unfold socket.deliver_log
    cases hi : s.incoming_packet p with
    | abort a =>
      rw [hi] at hstep
      exact hstep.1
    | ok s2 =>
      rw [hi] at hstep
      simp only
      rw [← List.append_assoc]
      exact ih s2 _ (cnt + 1) (fun q hq => htypes q (List.mem_cons_of_mem _ hq)) hstep
        (by rw [List.length_cons] at hcnt; omega)

/-- What `appended_by` stands for: when the case `error` / `payload` of
`incoming_packet` reaches the wake-up of the reader, the incoming queue is the
old queue followed by the packets `appended_by` lists. -/
theorem data_received_queue (s : socket) (p : packet) (s1 : socket) (woke : Bool)
    (hp : p.type = .payload ∨ p.type = .error)
    (hwf : s.reorder_wf) (hbound : s.m_next_incoming_seq + s.m_reorder_buffer.length + 1 < 2 ^ 64)
    (hd : s.data_received p = .ok (s1, woke)) :
    s1.m_incoming_queue = s.m_incoming_queue ++ s.appended_by p := by
  have hspec := data_received_spec _ hbound s p hwf (le_refl _)
  rw [hd] at hspec
  obtain ⟨app, rb, heq, _⟩ := hspec
  have hq : s1.m_incoming_queue = s.m_incoming_queue ++ app := by rw [heq]
  unfold socket.appended_by
  rw [if_pos hp, hd]
  simp only
  rw [hq, List.drop_left]

/-- C3: for every sequence `ps` of payload or error packets (fewer than 2^64 of
them, with arbitrary sequence numbers, duplicates and gaps) handed one after
the other to `incoming_packet` of a socket that starts with expected sequence
number 0 and an empty reorder buffer (whatever its incoming queue holds): the packets
pushed onto the incoming queue, in the order of the pushes, carry the sequence
numbers 0, 1, ..., k-1, where k is the final next-expected-incoming-seq. So the
packet with sequence number N is never pushed before the one with N-1. This
holds whether every call returns or one of them stops (at an assertion of the
woken reader, or for want of a channel). -/
theorem incoming_queue_gets_consecutive_seq (s : socket) (ps : List packet)
    (hnext : s.m_next_incoming_seq = 0) (hreorder : s.m_reorder_buffer = [])
    (htypes : ∀ p ∈ ps, p.type = .payload ∨ p.type = .error)
    (hlen : ps.length < 2 ^ 64) :
    (s.deliver_log ps).2.map packet.seq_nr
      = List.range (s.deliver_log ps).1.m_next_incoming_seq := by
  have hinv : s.in_order [] 0 := by
    refine ⟨by rw [hnext]; rfl, ?_, by rw [hnext, hreorder]; simp⟩
    unfold socket.reorder_wf
    rw [hreorder]
    exact ⟨by simp, by simp⟩
  have h := deliver_log_in_order ps s [] 0 htypes hinv (by omega)
  simpa using h

/-- Witness of C3: `demo_receiver` is handed the sequence numbers 1, 1, 0, 3 (a
duplicate and a gap): the packets pushed carry 0 and 1, and 2 is expected. -/
theorem incoming_queue_gets_consecutive_seq_witness :
    (demo_receiver.deliver_log
        [demo_packet .payload 1 [11], demo_packet .payload 1 [12], demo_packet .payload 0 [10],
         demo_packet .payload 3 [13]]).2.map packet.seq_nr
      = List.range (demo_receiver.deliver_log
          [demo_packet .payload 1 [11], demo_packet .payload 1 [12], demo_packet .payload 0 [10],
           demo_packet .payload 3 [13]]).1.m_next_incoming_seq :=
  incoming_queue_gets_consecutive_seq demo_receiver
    [demo_packet .payload 1 [11], demo_packet .payload 1 [12], demo_packet .payload 0 [10],
     demo_packet .payload 3 [13]] rfl rfl (by decide) (by decide)

theorem data_received_ok (s : socket) (p : packet) (c : channel) (remote : Nat)
    (hc : s.m_channel = some c) (hr : c.remote_idx s.m_bound_to = some remote)
    (hh : c.hops remote ≠ []) : ∃ r, s.data_received p = .ok r := by
  have hfw := forward_ok s
    { packet.default with type := .ack, seq_nr := p.seq_nr, hops := c.hops remote } hh
  simp only [socket.data_received, hc, hr, hfw]
  split_ifs
  · exact ⟨_, rfl⟩
  · exact ⟨_, rfl⟩

theorem maybe_wakeup_reader_idle (s : socket) (h : s.m_recv_handler = none) :
    s.maybe_wakeup_reader = .ok s := by
  unfold socket.maybe_wakeup_reader
  rw [h]
  split_ifs <;> rfl

theorem reordering_step (s : socket) (c : channel) (remote : Nat) (rec : List packet)
    (p : packet) (hh : c.hops remote ≠ []) (hinv : s.reordering c remote rec)
    (hp : p.type = .payload) (hnew : p.seq_nr ∉ rec.map packet.seq_nr)
    (hcnt : rec.length + 1 < 2 ^ 64) :
    ∃ s2, s.incoming_packet p = .ok s2 ∧ s2.reordering c remote (rec ++ [p]) := by
  obtain ⟨hc, hr, hrecv, hseq, hwf, hJ, hD, hbound⟩ := hinv
  obtain ⟨r, hd⟩ := data_received_ok s p c remote hc hr hh
  obtain ⟨s1, woke⟩ := r
  have hspec := data_received_spec (rec.length + 1) hcnt s p hwf (by omega)
  rw [hd] at hspec
  obtain ⟨app, rb, heq, hseqs, hrb1, hrb2, hlen, hcase⟩ := hspec
  have e1 : s1.m_channel = s.m_channel := by rw [heq]
  have e2 : s1.m_bound_to = s.m_bound_to := by rw [heq]
  have e3 : s1.m_recv_handler = s.m_recv_handler := by rw [heq]
  have e4 : s1.m_incoming_queue = s.m_incoming_queue ++ app := by rw [heq]
  have e5 : s1.m_next_incoming_seq = s.m_next_incoming_seq + app.length := by rw [heq]
  have e6 : s1.m_reorder_buffer = rb := by rw [heq]
  have hres : s.incoming_packet p = .ok s1 := by
    rw [incoming_packet_data s p (Or.inl hp), hd]
    cases woke with
    | false => rfl
    | true => exact maybe_wakeup_reader_idle s1 (by rw [e3, hrecv])
  refine ⟨s1, hres, by rw [e1, hc], by rw [e2, hr], by rw [e3, hrecv], ?_, ?_, ?_, ?_, ?_⟩
  · rw [e4, e5, List.map_append, hseq, hseqs, range_append_range']
  · unfold socket.reorder_wf
    rw [e6]
    exact ⟨hrb1, hrb2⟩
  · rw [e4, e6]
    rcases hcase with ⟨_, happ, hrbeq, _⟩ | ⟨_, _, app2, happ, hperm, _⟩
    · have hnone : map_find s.m_reorder_buffer p.seq_nr = none := by
        cases hf : map_find s.m_reorder_buffer p.seq_nr with
        | none => rfl
        | some pk =>
          exfalso
          have hmem := map_find_some_mem _ _ _ hf
          have hpk : pk ∈ rec := by
            apply hJ.subset
            apply List.mem_append_right
            exact List.mem_map_of_mem Prod.snd hmem
          have hpkseq : pk.seq_nr = p.seq_nr := hwf.1 _ hmem
          apply hnew
          rw [← hpkseq]
          exact List.mem_map_of_mem _ hpk
      rw [happ, hrbeq, map_insert_of_none _ _ _ hnone, List.append_nil, List.map_append,
        ← List.append_assoc]
      exact List.Perm.append_right _ hJ
    · rw [happ]
      have h1 : List.Perm (s.m_incoming_queue ++ p :: app2 ++ List.map Prod.snd rb)
          (s.m_incoming_queue ++ p :: (s.m_reorder_buffer.map Prod.snd)) := by
        rw [List.append_assoc]
        apply List.Perm.append_left
        exact List.Perm.cons p hperm
      have h2 : List.Perm (s.m_incoming_queue ++ p :: (s.m_reorder_buffer.map Prod.snd))
          (p :: (s.m_incoming_queue ++ s.m_reorder_buffer.map Prod.snd)) :=
        List.perm_middle
      have h3 : List.Perm (p :: (s.m_incoming_queue ++ s.m_reorder_buffer.map Prod.snd))
          (rec ++ [p]) :=
        (List.Perm.cons p hJ).trans (List.perm_append_singleton p rec).symm
      exact h1.trans (h2.trans h3)
  · rw [e5, e6]
    rcases hcase with ⟨_, happ, hrbeq, hne⟩ | ⟨_, _, app2, _, _, hnone⟩
    · rw [happ, hrbeq, List.length_nil, Nat.add_zero, map_find_insert_ne _ _ _ _ hne]
      exact hD
    · exact hnone
  · rw [e5, e6, List.length_append, List.length_singleton]
    omega

theorem reordering_deliver (c : channel) (remote : Nat) (hh : c.hops remote ≠ []) :
    ∀ (ps : List packet) (s : socket) (rec : List packet),
      s.reordering c remote rec → (∀ p ∈ ps, p.type = .payload) →
      ((rec ++ ps).map packet.seq_nr).Nodup → (rec ++ ps).length < 2 ^ 64 →
      ∃ s2, s.deliver ps = .ok s2 ∧ s2.reordering c remote (rec ++ ps) := by
  intro ps
  induction ps with
  | nil =>
    intro s rec hinv _ _ _
    exact ⟨s, rfl, by simpa using hinv⟩
  | cons p ps ih =>
    intro s rec hinv htypes hnd hlen
    have hnew : p.seq_nr ∉ rec.map packet.seq_nr := by
      intro hmem
      rw [List.map_append, List.map_cons] at hnd
      have := (List.nodup_append.mp hnd).2.2 hmem
      exact this (List.mem_cons_self _ _)
    have hlen2 : rec.length + 1 < 2 ^ 64 := by
      rw [List.length_append, List.length_cons] at hlen; omega
    obtain ⟨s1, hstep, hinv1⟩ := reordering_step s c remote rec p hh hinv
      (htypes p (List.mem_cons_self _ _)) hnew hlen2
    have hassoc : rec ++ [p] ++ ps = rec ++ p :: ps := by simp
    obtain ⟨s2, hrun, hinv2⟩ := ih s1 (rec ++ [p]) hinv1
      (fun q hq => htypes q (List.mem_cons_of_mem _ hq))
      (by rw [hassoc]; exact hnd) (by rw [hassoc]; exact hlen)
    refine ⟨s2, ?_, by rw [← hassoc]; exact hinv2⟩
    unfold socket.deliver
    rw [hstep]
    exact hrun

/-- C2 as stated fails: `demo_receiver` (expected sequence number 0, empty incoming
queue and reorder buffer) has a read of up to 4 bytes pending. Handed the one
payload packet with sequence number 0 (n = 1), it wakes the reader, which
takes the packet out of the queue again: afterwards the incoming queue is
empty, not the one packet. -/
theorem pending_reader_empties_queue :
    socket.deliver
        { demo_receiver with m_recv_handler := some 5, m_recv_buffer := [[0, 0, 0, 0]] }
        [demo_packet .payload 0 [7]]
      = .ok { demo_receiver with
          m_next_incoming_seq := 1, m_incoming_queue := [], m_queue_size := -1,
          m_recv_handler := none, m_recv_buffer := [],
          effects :=
            [.forward_packet { packet.default with type := .ack, seq_nr := 0, hops := [1, 2] },
             .memcpy [[7, 0, 0, 0]], .post_io 5 .success 1] } ∧
    ([] : List packet) ≠ [demo_packet .payload 0 [7]] := by
  decide!

/-- C2, amended: for every `n < 2^64` and every list `ps` of payload packets whose
sequence numbers are a permutation of 0..n-1: if a socket connected over `c`
(non-empty route to the peer) with no read handler pending,
next-expected-incoming-seq 0, an empty incoming queue and an empty reorder
buffer receives them in that order, then every call returns and afterwards
the incoming queue holds exactly these packets in increasing sequence-number
order, the reorder buffer is empty, and next-expected-incoming-seq is `n`. -/
theorem permuted_delivery_is_sorted (n : Nat) (ps : List packet) (s : socket)
    (c : channel) (remote : Nat)
    (hn : n < 2 ^ 64) (hperm : List.Perm (ps.map packet.seq_nr) (List.range n))
    (htypes : ∀ p ∈ ps, p.type = .payload)
    (hc : s.m_channel = some c) (hr : c.remote_idx s.m_bound_to = some remote)
    (hh : c.hops remote ≠ []) (hrecv : s.m_recv_handler = none)
    (hnext : s.m_next_incoming_seq = 0) (hqueue : s.m_incoming_queue = [])
    (hreorder : s.m_reorder_buffer = []) :
    ∃ s2, s.deliver ps = .ok s2 ∧
      List.Perm s2.m_incoming_queue ps ∧
      s2.m_incoming_queue.map packet.seq_nr = List.range n ∧
      s2.m_reorder_buffer = [] ∧ s2.m_next_incoming_seq = n := by
  have hlen : ps.length = n := by
    have := hperm.length_eq
    simpa using this
  have hinv : s.reordering c remote [] := by
    refine ⟨hc, hr, hrecv, by rw [hqueue, hnext]; rfl, ?_, by rw [hqueue, hreorder]; simp,
      by rw [hreorder]; rfl, by rw [hnext, hreorder]; simp⟩
    unfold socket.reorder_wf
    rw [hreorder]
    exact ⟨by simp, by simp⟩
  obtain ⟨s2, hrun, hinv2⟩ := reordering_deliver c remote hh ps s [] hinv htypes
    (by rw [List.nil_append]; exact hperm.nodup_iff.mpr (List.nodup_range n))
    (by rw [List.nil_append, hlen]; exact hn)
  rw [List.nil_append] at hinv2
  obtain ⟨_, _, _, hseq, hwf, hJ, hD, _⟩ := hinv2
  -- the sequence numbers held by the queue and by the reorder buffer
  have hkeys : (s2.m_reorder_buffer.map Prod.snd).map packet.seq_nr
      = s2.m_reorder_buffer.map Prod.fst := by
    rw [List.map_map]
    apply List.map_congr_left
    intro kv hkv
    exact hwf.1 kv hkv
  have hall : List.Perm (List.range s2.m_next_incoming_seq ++ s2.m_reorder_buffer.map Prod.fst)
      (List.range n) := by
    have h1 := (hJ.map packet.seq_nr).trans hperm
    rw [List.map_append, hseq, hkeys] at h1
    exact h1
  have hle : s2.m_next_incoming_seq ≤ n := by
    by_contra hgt
    have hmem : n ∈ List.range s2.m_next_incoming_seq ++ s2.m_reorder_buffer.map Prod.fst :=
      List.mem_append_left _ (List.mem_range.mpr (by omega))
    have := List.mem_range.mp (hall.subset hmem)
    omega
  have hge : n ≤ s2.m_next_incoming_seq := by
    by_contra hlt
    have hmem : s2.m_next_incoming_seq ∈ List.range n := List.mem_range.mpr (by omega)
    have hmem2 := hall.symm.subset hmem
    rw [List.mem_append] at hmem2
    rcases hmem2 with h | h
    · have := List.mem_range.mp h
      omega
    · exact (map_find_none_iff _ _).mp hD h
  have hm : s2.m_next_incoming_seq = n := by omega
  have hrb : s2.m_reorder_buffer = [] := by
    have hl := hall.length_eq
    rw [List.length_append, List.length_range, List.length_range, List.length_map, hm] at hl
    exact List.eq_nil_of_length_eq_zero (by omega)
  refine ⟨s2, hrun, ?_, by rw [hseq, hm], hrb, hm⟩
  rw [hrb] at hJ
  simpa using hJ

/-- Witness of C2: `demo_receiver` is handed the sequence numbers 2, 0, 1. -/
theorem permuted_delivery_is_sorted_witness :
    ∃ s2, demo_receiver.deliver
        [demo_packet .payload 2 [12], demo_packet .payload 0 [10], demo_packet .payload 1 [11]]
        = .ok s2 ∧
      s2.m_incoming_queue.map packet.seq_nr = List.range 3 ∧
      s2.m_reorder_buffer = [] ∧ s2.m_next_incoming_seq = 3 := by
  obtain ⟨s2, h1, _, h3, h4, h5⟩ := permuted_delivery_is_sorted 3
    [demo_packet .payload 2 [12], demo_packet .payload 0 [10], demo_packet .payload 1 [11]]
    demo_receiver demo_channel 0 (by decide) (by decide) (by decide) rfl (by decide)
    (by decide) rfl rfl rfl rfl
  exact ⟨s2, h1, h3, h4, h5⟩

theorem read_some_impl_error (s : socket) (bufs : List (List Byte)) (p : packet)
    (tl : List packet) (hb : bufs ≠ []) (hopen : s.m_open = true) (hch : s.m_channel ≠ none)
    (hq : s.m_incoming_queue = p :: tl) (hp : p.type = .error) (hec : p.ec ≠ .success) :
    s.read_some_impl bufs =
      .ok { st := { s with m_recv_buffer := bufs, m_incoming_queue := tl, m_channel := none },
            ec := p.ec, bytes := 0, bufs := bufs } := by
  unfold socket.read_some_impl
  rw [if_neg hb, hopen]
  simp only [Bool.not_true, Bool.false_eq_true, if_false]
  rw [if_neg hch, if_neg (by rw [hq]; simp), hq]
  simp only [read_queue, hp, if_true, Nat.lt_irrefl, if_false, hec, List.nil_append]


theorem cancel_forwarded (s : socket) :
    forwarded s.cancel.effects = forwarded s.effects := by
  unfold socket.cancel
  cases h1 : s.m_recv_handler <;> cases h2 : s.m_send_handler <;>
    cases h3 : s.m_connect_handler <;>
    simp [socket.emit, forwarded_append, forwarded, h1, h2, h3]

theorem close_channel_forwarded (s : socket)
    (hwf : ∀ c, s.m_channel = some c → (c.remote_idx s.m_bound_to).isSome = true) :
    ∃ t, s.close_channel = .ok t ∧
      forwarded t.effects = forwarded s.effects ++ s.close_packets := by
  unfold socket.close_channel socket.close_packets
  cases hc : s.m_channel with
  | none => exact ⟨s, rfl, by simp⟩
  | some c =>
    have := hwf c hc
    cases hr : c.remote_idx s.m_bound_to with
    | none => rw [hr] at this; cases this
    | some remote =>
      simp only [hr]
      by_cases hh : c.hops remote ≠ [] ∧ s.m_connect_handler = none
      · rw [if_pos hh, if_pos hh]
        unfold socket.send_packet
        rw [forward_ok _ _ (by exact hh.1)]
        refine ⟨_, rfl, ?_⟩
        simp [socket.emit, forwarded_append, forwarded, socket.eof_packet]
      · rw [if_neg hh, if_neg hh]
        exact ⟨_, rfl, by simp⟩

theorem close_forwarded (s : socket)
    (hwf : ∀ c, s.m_channel = some c → (c.remote_idx s.m_bound_to).isSome = true) :
    ∃ t, s.close = .ok t ∧ forwarded t.effects = forwarded s.effects ++ s.close_packets := by
  obtain ⟨s1, h1, h2⟩ := close_channel_forwarded s hwf
  unfold socket.close
  rw [h1]
  refine ⟨_, rfl, ?_⟩
  rw [cancel_forwarded, ← h2]
  by_cases hb : s1.m_bound_to ≠ endpoint.default <;> cases hf : s1.m_forwarder <;>
    simp [socket.emit, forwarded_append, forwarded, hb, hf]

theorem written_bytes_ok (o : Outcome socket write_result) (n : Nat)
    (h : written_bytes o = some n) : ∃ w, o = .ok w ∧ w.bytes = n := by
  cases o with
  | ok w =>
    simp only [written_bytes, Option.some.injEq] at h
    exact ⟨w, rfl, h⟩
  | abort a => cases h

theorem available_loop_spec (ec : error_code) : ∀ (q : List packet) (ret : Nat),
    available_loop ec q ret =
      (ret + (queued_bytes q).length,
        if ret + (queued_bytes q).length = 0 then (first_error q).getD ec else ec) := by
  intro q
  induction q with
  | nil =>
    intro ret
    simp [available_loop, queued_bytes, first_error]
  | cons p q ih =>
    intro ret
    unfold available_loop
    by_cases he : p.type = .error
    · rw [if_pos he]
      by_cases hr : ret > 0
      · rw [if_pos hr]
        simp only [queued_bytes, he, if_true, List.length_nil, Nat.add_zero]
        rw [if_neg (by omega)]
      · rw [if_neg hr]
        have : ret = 0 := by omega
        subst this
        simp [queued_bytes, first_error, he]
    · rw [if_neg he, ih]
      simp only [queued_bytes, first_error, he, if_false, List.length_append, Nat.add_assoc]

/-- C15: for an open, connected socket and a non-empty list of buffers: when the
incoming queue starts with an error packet carrying the error code `e` (not
success), `read_some_impl` returns 0 bytes with error `e`, the queue loses exactly
that packet, the buffers are as passed in, the channel is cleared and nothing
else changes but `m_recv_buffer`; on an empty queue it returns 0 bytes with
`would_block` and the socket is unchanged. -/
theorem read_some_impl_error_head (s : socket) (bufs : List (List Byte)) (hb : bufs ≠ [])
    (hopen : s.m_open = true) (hch : s.m_channel ≠ none) :
    (∀ (p : packet) (tl : List packet), s.m_incoming_queue = p :: tl → p.type = .error →
      p.ec ≠ .success →
      s.read_some_impl bufs =
        .ok { st := { s with m_recv_buffer := bufs, m_incoming_queue := tl,
                             m_channel := none },
              ec := p.ec, bytes := 0, bufs := bufs }) ∧
    (s.m_incoming_queue = [] →
      s.read_some_impl bufs = .ok { st := s, ec := .would_block, bytes := 0, bufs := bufs }) := by
  constructor
  · intro p tl hq hp hec
    exact read_some_impl_error s bufs p tl hb hopen hch hq hp hec
  · intro hq
    unfold socket.read_some_impl
    rw [if_neg hb, hopen]
    simp only [Bool.not_true, Bool.false_eq_true, if_false]
    rw [if_neg hch, if_pos hq]

/-- Witness of C15: a read on the accepting socket with an EOF followed by a payload
packet in its queue, and a read on the accepting socket with an empty queue. -/
theorem read_some_impl_error_head_witness :
    socket.read_some_impl
        { demo_receiver with m_incoming_queue := [demo_eof 0, demo_packet .payload 1 [7]] }
        [[0, 0]] =
      .ok { st := { demo_receiver with m_recv_buffer := [[0, 0]],
                                       m_incoming_queue := [demo_packet .payload 1 [7]],
                                       m_channel := none },
            ec := .eof, bytes := 0, bufs := [[0, 0]] } ∧
    demo_receiver.read_some_impl [[0, 0]] =
      .ok { st := demo_receiver, ec := .would_block, bytes := 0, bufs := [[0, 0]] } :=
  ⟨(read_some_impl_error_head
      { demo_receiver with m_incoming_queue := [demo_eof 0, demo_packet .payload 1 [7]] }
      [[0, 0]] (by decide) rfl (by decide)).1 (demo_eof 0) [demo_packet .payload 1 [7]] rfl rfl
      (by decide),
   (read_some_impl_error_head demo_receiver [[0, 0]] (by decide) rfl (by decide)).2 rfl⟩

/-- What `available(ec)` returns on every socket: `bad_descriptor` (and 0) on a socket
that is not open and `not_connected` (and 0) on an open socket without a
channel; on an open, connected socket the number of bytes queued ahead of the
first error packet, with `ec` left as passed in unless that number is 0 and the
queue holds an error packet, in which case `ec` is the code of the first error
packet. -/
theorem available_spec (s : socket) (ec : error_code) :
    (s.m_open = false → s.available ec = (0, .bad_descriptor)) ∧
    (s.m_open = true → s.m_channel = none → s.available ec = (0, .not_connected)) ∧
    (s.m_open = true → s.m_channel ≠ none →
      s.available ec =
        ((queued_bytes s.m_incoming_queue).length,
          if (queued_bytes s.m_incoming_queue).length = 0
          then (first_error s.m_incoming_queue).getD ec else ec)) ∧
    (s.m_open = true → s.m_channel ≠ none → s.m_incoming_queue = [] →
      s.available ec = (0, ec)) := by
  have h3 : s.m_open = true → s.m_channel ≠ none →
      s.available ec =
        ((queued_bytes s.m_incoming_queue).length,
          if (queued_bytes s.m_incoming_queue).length = 0
          then (first_error s.m_incoming_queue).getD ec else ec) := by
    intro ho hc
    unfold socket.available
    rw [ho]
    simp only [Bool.not_true, Bool.false_eq_true, if_false]
    rw [if_neg hc]
    by_cases hq : s.m_incoming_queue = []
    · rw [if_pos hq, hq]
      simp [queued_bytes, first_error]
    · rw [if_neg hq, available_loop_spec]
      simp only [Nat.zero_add]
  refine ⟨?_, ?_, h3, ?_⟩
  · intro ho
    unfold socket.available
    rw [ho]
    rfl
  · intro ho hc
    unfold socket.available
    rw [ho]
    simp only [Bool.not_true, Bool.false_eq_true, if_false]
    rw [if_pos hc]
  · intro ho hc hq
    rw [h3 ho hc, hq]
    simp [queued_bytes, first_error]

theorem queued_bytes_length (q : List packet) :
    (queued_bytes q).length = ((ahead_of_error q).map (fun p => p.buffer.length)).sum := by
  induction q with
  | nil => rfl
  | cons p q ih =>
    unfold queued_bytes ahead_of_error
    by_cases he : p.type = .error
    · rw [if_pos he, if_pos he]
      rfl
    · rw [if_neg he, if_neg he, List.length_append, ih, List.map_cons, List.sum_cons]

/-- C16: on a socket whose incoming queue starts with no empty payload packet (a
peer's `write_some_impl` builds none, and a read removes the packet it has
emptied), `available(ec)` reports `bad_descriptor` (and 0) when the socket is not
open and `not_connected` (and 0) when it is open without a channel; on an open,
connected socket it returns 0 and leaves `ec` as passed in when the queue is
empty, returns 0 and sets `ec` to the code of the first packet when that is an
error packet, and otherwise returns the sum of the payload sizes of the
packets ahead of the first error packet (`ahead_of_error`), which is positive,
and leaves `ec` as passed in. The call does not change the socket: the model of
the `const` member function returns only the count and `ec`. -/
theorem available_sums_payloads_ahead_of_error (s : socket) (ec : error_code)
    (hne : ∀ p tl, s.m_incoming_queue = p :: tl → p.type ≠ .error → p.buffer ≠ []) :
    (s.m_open = false → s.available ec = (0, .bad_descriptor)) ∧
    (s.m_open = true → s.m_channel = none → s.available ec = (0, .not_connected)) ∧
    (s.m_open = true → s.m_channel ≠ none → s.m_incoming_queue = [] →
      s.available ec = (0, ec)) ∧
    (∀ p tl, s.m_open = true → s.m_channel ≠ none → s.m_incoming_queue = p :: tl →
      p.type = .error → s.available ec = (0, p.ec)) ∧
    (∀ p tl, s.m_open = true → s.m_channel ≠ none → s.m_incoming_queue = p :: tl →
      p.type ≠ .error →
      s.available ec =
        (((ahead_of_error s.m_incoming_queue).map (fun p => p.buffer.length)).sum, ec) ∧
      0 < ((ahead_of_error s.m_incoming_queue).map (fun p => p.buffer.length)).sum) := by
  obtain ⟨h1, h2, h3, h4⟩ := available_spec s ec
  refine ⟨h1, h2, h4, ?_, ?_⟩
  · intro p tl ho hc hq he
    rw [h3 ho hc, hq]
    simp [queued_bytes, first_error, he]
  · intro p tl ho hc hq he
    have hb := hne p tl hq he
    have hpos : 0 < (queued_bytes s.m_incoming_queue).length := by
      rw [hq]
      unfold queued_bytes
      rw [if_neg he, List.length_append]
      have := List.length_pos.mpr hb
      omega
    rw [← queued_bytes_length]
    refine ⟨?_, hpos⟩
    rw [h3 ho hc, if_neg (by omega)]

/-- Witness of C16: the accepting socket with two payload packets of 3 bytes and 1
byte ahead of an EOF in its incoming queue: 4 bytes are available and `ec` is
left as passed in. -/
theorem available_sums_payloads_ahead_of_error_witness :
    socket.available
        { demo_receiver with
          m_incoming_queue :=
            [demo_packet .payload 0 [1, 2, 3], demo_packet .payload 1 [4], demo_eof 2] }
        .success = (4, .success) := by
  have h := (available_sums_payloads_ahead_of_error
    { demo_receiver with
      m_incoming_queue :=
        [demo_packet .payload 0 [1, 2, 3], demo_packet .payload 1 [4], demo_eof 2] }
    .success (by
      intro p tl hq he
      have hq2 : [demo_packet .payload 0 [1, 2, 3], demo_packet .payload 1 [4], demo_eof 2]
          = p :: tl := hq
      simp only [List.cons.injEq] at hq2
      rw [← hq2.1]
      decide)).2.2.2.2
    (demo_packet .payload 0 [1, 2, 3]) [demo_packet .payload 1 [4], demo_eof 2] rfl (by decide)
    rfl (by decide)
  exact h.1
theorem cancel_spec (s : socket) :
    s.cancel = { s with
      effects := s.effects ++ s.cancel_posts
      m_recv_handler := none
      m_recv_buffer := if s.m_recv_handler = none then s.m_recv_buffer else []
      m_recv_null_buffers := if s.m_recv_handler = none then s.m_recv_null_buffers else false
      m_send_handler := none
      m_send_buffer := if s.m_send_handler = none then s.m_send_buffer else []
      m_send_null_buffers := if s.m_send_handler = none then s.m_send_null_buffers else false
      m_connect_handler := none } := by
  rcases s with ⟨x1, x2, x3, x4, x5, x6, hc, x8, hs, x10, x11, x12, hr, x14, x15, x16, x17,
    x18, x19, x20, x21, x22, x23, x24, x25, x26, x27⟩
  cases hc <;> cases hs <;> cases hr <;> simp [socket.cancel, socket.emit, socket.cancel_posts]

/-- C19: `cancel()` posts `operation_aborted` with 0 bytes once to a pending read handler
(and cancels the read timer), once to a pending write handler, and
`operation_aborted` once to a pending connect handler, in this order and nothing
for an empty slot; these posts are all it adds to the trace of calls (no
handler is invoked inline); the three slots are empty afterwards, the buffers
of an aborted read or write are dropped, nothing else changes, the call
returns success, and a second `cancel()` right after changes and posts
nothing. -/
theorem cancel_posts_aborted (s : socket) :
    s.cancel_ec.2 = .success ∧
    s.cancel_ec.1.effects = s.effects ++
      ((match s.m_recv_handler with
        | none => []
        | some h => [.post_io h .operation_aborted 0, .recv_timer_cancel]) ++
       (match s.m_send_handler with
        | none => []
        | some h => [.post_io h .operation_aborted 0]) ++
       (match s.m_connect_handler with
        | none => []
        | some h => [.post_connect h .operation_aborted])) ∧
    s.cancel_ec.1.m_recv_handler = none ∧ s.cancel_ec.1.m_send_handler = none ∧
    s.cancel_ec.1.m_connect_handler = none ∧
    s.cancel_ec.1 = { s with
      effects := s.cancel_ec.1.effects
      m_recv_handler := none
      m_recv_buffer := if s.m_recv_handler = none then s.m_recv_buffer else []
      m_recv_null_buffers := if s.m_recv_handler = none then s.m_recv_null_buffers else false
      m_send_handler := none
      m_send_buffer := if s.m_send_handler = none then s.m_send_buffer else []
      m_send_null_buffers := if s.m_send_handler = none then s.m_send_null_buffers else false
      m_connect_handler := none } ∧
    s.cancel_ec.1.cancel_ec = (s.cancel_ec.1, .success) := by
  rcases s with ⟨x1, x2, x3, x4, x5, x6, hc, x8, hs, x10, x11, x12, hr, x14, x15, x16, x17,
    x18, x19, x20, x21, x22, x23, x24, x25, x26, x27⟩
  cases hc <;> cases hs <;> cases hr <;>
    simp [socket.cancel_ec, socket.cancel, socket.emit]
theorem emitted_since_of_forwarded (s t : socket) (l : List packet)
    (h : forwarded t.effects = forwarded s.effects ++ l) : socket.emitted_since s t = l := by
  unfold socket.emitted_since
  rw [h, List.drop_left]

/-- C17: `close()` on a socket whose channel, if it has one, has the socket's bound
endpoint as one of its two ends (the remote index is asserted): the call
returns; if the socket has a channel, the route to the remote side is not
empty and no connect handler is pending, it passes exactly one packet to
`forward_packet`, of kind error with error code `eof`, overhead 40, the route
`channel.hops[remote index]`, the bound endpoint as source and the sequence
number next-outgoing-seq had before the call; in every other case (no
channel, an empty route, or a connect still pending) it passes no packet. -/
theorem close_emits_eof (s : socket)
    (hwf : ∀ c, s.m_channel = some c → (c.remote_idx s.m_bound_to).isSome = true) :
    ∃ t, s.close = .ok t ∧
      ((∃ c remote, s.m_channel = some c ∧ c.remote_idx s.m_bound_to = some remote ∧
          c.hops remote ≠ [] ∧ s.m_connect_handler = none ∧
          socket.emitted_since s t =
            [{ packet.default with
               type := .error, ec := .eof,
               from_ep := { addr := s.m_bound_to.addr, port := s.m_bound_to.port },
               overhead := 40, hops := c.hops remote, seq_nr := s.m_next_outgoing_seq }]) ∨
       ((s.m_channel = none ∨
          ∃ c remote, s.m_channel = some c ∧ c.remote_idx s.m_bound_to = some remote ∧
            (c.hops remote = [] ∨ s.m_connect_handler ≠ none)) ∧
        socket.emitted_since s t = [])) := by
  obtain ⟨t, h1, h2⟩ := close_forwarded s hwf
  have h3 := emitted_since_of_forwarded s t _ h2
  refine ⟨t, h1, ?_⟩
  rw [h3]
  unfold socket.close_packets
  cases hc : s.m_channel with
  | none => exact Or.inr ⟨Or.inl rfl, rfl⟩
  | some c =>
    have := hwf c hc
    cases hr : c.remote_idx s.m_bound_to with
    | none => rw [hr] at this; cases this
    | some remote =>
      simp only [hr]
      by_cases hh : c.hops remote ≠ [] ∧ s.m_connect_handler = none
      · rw [if_pos hh]
        exact Or.inl ⟨c, remote, rfl, hr, hh.1, hh.2, rfl⟩
      · rw [if_neg hh]
        refine Or.inr ⟨Or.inr ⟨c, remote, rfl, hr, ?_⟩, rfl⟩
        by_cases h0 : c.hops remote = []
        · exact Or.inl h0
        · exact Or.inr (fun hn => hh ⟨h0, hn⟩)

/-- Witness of C17: `demo_sender` closes and emits its EOF with sequence number 0 on
the route to the accepting side. -/
theorem close_emits_eof_witness :
    ∃ t, demo_sender.close = .ok t ∧
      socket.emitted_since demo_sender t =
        [{ packet.default with
           type := .error, ec := .eof, from_ep := demo_channel.ep0, overhead := 40,
           hops := [3, 4], seq_nr := 0 }] := by
  obtain ⟨t, h1, h2⟩ := close_emits_eof demo_sender (by
    intro c hc
    cases hc
    decide)
  refine ⟨t, h1, ?_⟩
  rcases h2 with ⟨c, remote, hc, hr, _, _, h3⟩ | ⟨h3, _⟩
  · cases hc
    have : remote = 1 := by
      have h4 : demo_channel.remote_idx demo_sender.m_bound_to = some 1 := by decide
      rw [h4] at hr
      exact (Option.some.inj hr).symm
    subst this
    exact h3
  · rcases h3 with h3 | ⟨c, remote, hc, hr, h4⟩
    · cases h3
    · cases hc
      have : remote = 1 := by
        have h5 : demo_channel.remote_idx demo_sender.m_bound_to = some 1 := by decide
        rw [h5] at hr
        exact (Option.some.inj hr).symm
      subst this
      rcases h4 with h4 | h4
      · exact absurd h4 (by decide)
      · exact absurd rfl h4
theorem close_channel_frame (s t : socket) (h : s.close_channel = .ok t) :
    t.m_channel = none ∧ t.m_bound_to = s.m_bound_to ∧ t.m_forwarder = s.m_forwarder ∧
      ∃ l, t.effects = s.effects ++ l := by
  unfold socket.close_channel at h
  cases hc : s.m_channel with
  | none =>
    rw [hc] at h
    simp only [Outcome.ok.injEq] at h
    subst h
    exact ⟨hc, rfl, rfl, [], by simp⟩
  | some c =>
    rw [hc] at h
    simp only at h
    cases hr : c.remote_idx s.m_bound_to with
    | none => rw [hr] at h; cases h
    | some remote =>
      rw [hr] at h
      simp only at h
      split_ifs at h with hh
      · unfold socket.send_packet at h
        rw [forward_ok _ _ (by exact hh.1)] at h
        simp only [Outcome.ok.injEq] at h
        subst h
        exact ⟨rfl, rfl, rfl, _, rfl⟩
      · simp only [Outcome.ok.injEq] at h
        subst h
        exact ⟨rfl, rfl, rfl, [], by simp⟩

theorem close_spec (s t : socket) (h : s.close = .ok t) :
    t.m_open = false ∧ t.m_channel = none ∧ t.m_bound_to = endpoint.default ∧
    (s.m_bound_to ≠ endpoint.default → effect.unbind_socket s.m_bound_to ∈ t.effects) ∧
    t.m_forwarder = none ∧ (∀ f, s.m_forwarder = some f → effect.forwarder_clear f ∈ t.effects) ∧
    t.m_next_outgoing_seq = 0 ∧ t.m_next_incoming_seq = 0 ∧ t.m_last_drop_seq = 0 ∧
    t.m_recv_handler = none ∧ t.m_send_handler = none ∧ t.m_connect_handler = none := by
  unfold socket.close at h
  cases h1 : s.close_channel with
  | abort a => rw [h1] at h; cases h
  | ok s1 =>
    rw [h1] at h
    obtain ⟨f1, f2, f3, l, f4⟩ := close_channel_frame s s1 h1
    rw [← f2, ← f3]
    clear f2 f3 f4 h1
    rcases s1 with ⟨x1, x2, x3, x4, x5, x6, hc, x8, hs, x10, x11, x12, hr, x14, x15, x16, x17,
      x18, x19, x20, x21, x22, x23, x24, x25, x26, x27⟩
    simp only at f1
    subst f1
    simp only [Outcome.ok.injEq] at h
    subst h
    by_cases hb : x2 = endpoint.default
    · subst hb
      cases x3 <;> cases hc <;> cases hs <;> cases hr <;>
        simp [socket.cancel, socket.emit]
    · cases x3 <;> cases hc <;> cases hs <;> cases hr <;>
        simp [socket.cancel, socket.emit, hb]
theorem connect_bound_open (s : socket) (env : environment) (target : endpoint) (h : Handler)
    (ho : s.m_open = true) : (final (s.connect_bound env target h)).m_open = true := by
  unfold socket.connect_bound
  split_ifs
  · exact ho
  · simp only
    cases get_path_mtu env (s.emit (effect.internal_connect target)).m_bound_to.addr
        target.addr with
    | none => exact ho
    | some mtu =>
      simp only
      split_ifs
      · exact ho
      · exact ho

theorem async_connect_reopens (t : socket) (env : environment) (target : endpoint)
    (h : Handler) (fwd : Sink) (h1 : t.m_open = false) (h2 : t.m_channel = none) :
    (final (t.async_connect env target h fwd)).m_open = true := by
  obtain ⟨u, hu, _⟩ := close_forwarded t (by
    intro c hc
    rw [h2] at hc
    cases hc)
  obtain ⟨_, _, hb, _, _, _, _, _, _, _, _, hcon⟩ := close_spec t u hu
  unfold socket.async_connect
  rw [h1]
  simp only [Bool.not_false, if_true, socket.open_socket, hu]
  rw [if_neg (by simp [hcon]), if_pos (by simp [hb]; rfl)]
  unfold socket.ios_bind_socket
  split_ifs
  · rfl
  · cases env.ios.pick_address endpoint.default.addr with
    | none => rfl
    | some a =>
      simp only
      split_ifs
      · rfl
      · exact connect_bound_open _ env target h rfl

/-- C18: `close()` on a socket whose channel, if it has one, has the socket's bound
endpoint as one of its two ends: the call returns success; afterwards the
socket is not open, has no channel, is bound to the default endpoint (and
`unbind_socket` was called with the old endpoint if it was not the default one),
has no forwarder (and `clear()` was called on the old one, after which the
forwarder hands on no packet), its three sequence counters are 0 and its
read, write and connect handler slots are empty; hence a following
`async_connect` finds no connect handler pending, opens the socket again, and
the socket is open wherever that call ends. -/
theorem close_resets (s : socket)
    (hwf : ∀ c, s.m_channel = some c → (c.remote_idx s.m_bound_to).isSome = true) :
    ∃ t, s.close_ec = .ok (t, .success) ∧
      t.m_open = false ∧ t.m_channel = none ∧ t.m_bound_to = endpoint.default ∧
      (s.m_bound_to ≠ endpoint.default → effect.unbind_socket s.m_bound_to ∈ t.effects) ∧
      t.m_forwarder = none ∧
      (∀ f, s.m_forwarder = some f → effect.forwarder_clear f ∈ t.effects) ∧
      (∀ (fw : sink_forwarder) (p : packet), fw.clear.incoming_packet p = none) ∧
      t.m_next_outgoing_seq = 0 ∧ t.m_next_incoming_seq = 0 ∧ t.m_last_drop_seq = 0 ∧
      t.m_recv_handler = none ∧ t.m_send_handler = none ∧ t.m_connect_handler = none ∧
      (∀ (v4 : Bool) (fwd : Sink), ∃ u, t.open_socket v4 fwd = .ok u ∧ u.m_open = true ∧
        u.m_connect_handler = none) ∧
      (∀ (env : environment) (target : endpoint) (h : Handler) (fwd : Sink),
        (final (t.async_connect env target h fwd)).m_open = true) := by
  obtain ⟨t, ht, _⟩ := close_forwarded s hwf
  obtain ⟨a1, a2, a3, a4, a5, a6, a7, a8, a9, a10, a11, a12⟩ := close_spec s t ht
  refine ⟨t, ?_, a1, a2, a3, a4, a5, a6, ?_, a7, a8, a9, a10, a11, a12, ?_, ?_⟩
  · unfold socket.close_ec
    rw [ht]
  · intro fw p
    rfl
  · intro v4 fwd
    obtain ⟨u, hu, _⟩ := close_forwarded t (by
      intro c hc
      rw [a2] at hc
      cases hc)
    obtain ⟨_, _, _, _, _, _, _, _, _, _, _, hcon⟩ := close_spec t u hu
    refine ⟨{ u with m_open := true, m_is_v4 := v4, m_forwarder := some fwd }, ?_, rfl, hcon⟩
    unfold socket.open_socket
    rw [hu]
  · intro env target h fwd
    exact async_connect_reopens t env target h fwd a1 a2

/-- Witness of C18: the close of `demo_busy`, a connected socket with a read, a write
and a connect pending. -/
theorem close_resets_witness :
    ∃ t, demo_busy.close_ec = .ok (t, .success) ∧
      t.m_open = false ∧ t.m_channel = none ∧ t.m_bound_to = endpoint.default ∧
      effect.unbind_socket demo_channel.ep0 ∈ t.effects ∧ t.m_forwarder = none ∧
      effect.forwarder_clear 2 ∈ t.effects ∧
      t.m_recv_handler = none ∧ t.m_send_handler = none ∧ t.m_connect_handler = none := by
  obtain ⟨t, h1, h2, h3, h4, h5, h6, h7, _, _, _, _, h12, h13, h14, _⟩ :=
    close_resets demo_busy (by
      intro c hc
      cases hc
      decide)
  exact ⟨t, h1, h2, h3, h4, h5 (by decide), h6, h7 2 rfl, h12, h13, h14⟩

theorem async_read_some_impl_handler (s t : socket) (bufs : List (List Byte)) (h : Handler)
    (he : s.async_read_some_impl bufs h = .ok t) :
    t.m_recv_handler = none ∨ t.m_recv_handler = some h := by
  unfold socket.async_read_some_impl at he
  cases bufs with
  | nil => cases he
  | cons b bs =>
    simp only at he
    split_ifs at he
    cases hr : s.read_some_impl (b :: bs) with
    | abort a => rw [hr] at he; cases he
    | ok r =>
      rw [hr] at he
      simp only at he
      split_ifs at he <;> simp only [Outcome.ok.injEq] at he <;> subst he
      · exact Or.inr rfl
      · exact Or.inl rfl
      · exact Or.inl rfl

theorem async_write_some_impl_handler (s t : socket) (bufs : List (List Byte)) (h : Handler)
    (he : s.async_write_some_impl bufs h = .ok t) :
    t.m_send_handler = none ∨ t.m_send_handler = some h := by
  unfold socket.async_write_some_impl at he
  cases hr : s.write_some_impl bufs .success with
  | abort a => rw [hr] at he; cases he
  | ok r =>
    rw [hr] at he
    simp only at he
    split_ifs at he <;> simp only [Outcome.ok.injEq] at he <;> subst he
    · exact Or.inr rfl
    · exact Or.inl rfl
    · exact Or.inl rfl

/-- C20: on a socket with a read handler `r0` pending, `async_read_some` (with buffers or
with `null_buffers`) first posts `operation_aborted` with 0 bytes to `r0` once, cancels
the read timer and empties the read slot, and then attempts the new read on
that state; on a socket with a write handler `w0` pending, `async_write_some` first
posts `operation_aborted` with 0 bytes to `w0` once and empties the write slot, and
then attempts the new write on that state. When such a call returns, the slot
(which holds at most one handler) is empty or holds the new handler. -/
theorem pending_handler_aborted_first (s : socket) (bufs : List (List Byte)) (h : Handler) :
    (∀ r0, s.m_recv_handler = some r0 →
      s.async_read_some bufs h =
        socket.async_read_some_impl
          { s with
            effects := s.effects ++ [.post_io r0 .operation_aborted 0, .recv_timer_cancel]
            m_recv_handler := none, m_recv_buffer := [], m_recv_null_buffers := false }
          bufs h ∧
      s.async_read_some_null_buffers h =
        .ok (socket.async_read_some_null_buffers_impl
          { s with
            effects := s.effects ++ [.post_io r0 .operation_aborted 0, .recv_timer_cancel]
            m_recv_handler := none, m_recv_buffer := [], m_recv_null_buffers := false }
          h)) ∧
    (∀ w0, s.m_send_handler = some w0 →
      s.async_write_some bufs h =
        socket.async_write_some_impl
          { s with
            effects := s.effects ++ [.post_io w0 .operation_aborted 0]
            m_send_handler := none, m_send_buffer := [], m_send_null_buffers := false }
          bufs h) ∧
    (∀ t, s.async_read_some bufs h = .ok t →
      t.m_recv_handler = none ∨ t.m_recv_handler = some h) ∧
    (∀ t, s.async_read_some_null_buffers h = .ok t →
      t.m_recv_handler = none ∨ t.m_recv_handler = some h) ∧
    (∀ t, s.async_write_some bufs h = .ok t →
      t.m_send_handler = none ∨ t.m_send_handler = some h) := by
  refine ⟨?_, ?_, ?_, ?_, ?_⟩
  · intro r0 hr
    constructor
    · unfold socket.async_read_some socket.abort_recv_handler
      rw [hr]
      simp [socket.emit]
    · unfold socket.async_read_some_null_buffers socket.abort_recv_handler
      rw [hr]
      simp [socket.emit]
  · intro w0 hw
    unfold socket.async_write_some socket.abort_send_handler
    rw [hw]
    simp [socket.emit]
  · intro t ht
    unfold socket.async_read_some at ht
    cases ha : (if s.m_recv_handler ≠ none then s.abort_recv_handler else .ok s) with
    | abort a => rw [ha] at ht; cases ht
    | ok s1 =>
      rw [ha] at ht
      exact async_read_some_impl_handler s1 t bufs h ht
  · intro t ht
    unfold socket.async_read_some_null_buffers at ht
    cases ha : (if s.m_recv_handler ≠ none then s.abort_recv_handler else .ok s) with
    | abort a => rw [ha] at ht; cases ht
    | ok s1 =>
      rw [ha] at ht
      simp only [Outcome.ok.injEq] at ht
      subst ht
      unfold socket.async_read_some_null_buffers_impl
      simp only
      split_ifs
      · exact Or.inl rfl
      · exact Or.inl rfl
      · exact Or.inr rfl
  · intro t ht
    unfold socket.async_write_some at ht
    cases ha : (if s.m_send_handler ≠ none then s.abort_send_handler else .ok s) with
    | abort a => rw [ha] at ht; cases ht
    | ok s1 =>
      rw [ha] at ht
      exact async_write_some_impl_handler s1 t bufs h ht

/-- Witness of C20: a new read and a new write started on `demo_busy`, which has the
read handler 5 and the write handler 6 pending. -/
theorem pending_handler_aborted_first_witness :
    demo_busy.async_read_some [[0, 0]] 9 =
      socket.async_read_some_impl
        { demo_busy with
          effects := demo_busy.effects ++ [.post_io 5 .operation_aborted 0, .recv_timer_cancel]
          m_recv_handler := none, m_recv_buffer := [], m_recv_null_buffers := false }
        [[0, 0]] 9 ∧
    demo_busy.async_write_some [[0, 0]] 9 =
      socket.async_write_some_impl
        { demo_busy with
          effects := demo_busy.effects ++ [.post_io 6 .operation_aborted 0]
          m_send_handler := none, m_send_buffer := [], m_send_null_buffers := false }
        [[0, 0]] 9 :=
  ⟨((pending_handler_aborted_first demo_busy [[0, 0]] 9).1 5 rfl).1,
   (pending_handler_aborted_first demo_busy [[0, 0]] 9).2.1 6 rfl⟩
theorem packet_dropped_cases (s : socket) (p : packet) (c : channel) (remote : Nat)
    (hc : s.m_channel = some c) (hr : c.remote_idx s.m_bound_to = some remote)
    (hmss : 0 < s.m_mss) (hcwnd : 0 ≤ s.m_cwnd)
    (hrange : (s.m_last_drop_seq : Int) + s.m_cwnd / s.m_mss < 2 ^ 64) :
    ∃ s2, s.packet_dropped p = .ok s2 ∧ s2.m_channel = s.m_channel ∧
      s2.m_bound_to = s.m_bound_to ∧ s2.m_mss = s.m_mss ∧
      (if 0 < s.m_last_drop_seq ∧ (p.seq_nr : Int) < (s.m_last_drop_seq : Int) + s.m_cwnd / s.m_mss
       then s2.m_cwnd = s.m_cwnd ∧ s2.m_last_drop_seq = s.m_last_drop_seq
       else s2.m_cwnd = max (s.m_cwnd / 2) s.m_mss ∧ s2.m_last_drop_seq = p.seq_nr) := by
  have hne : s.m_mss ≠ 0 := by omega
  have hdiv : Int.tdiv s.m_cwnd s.m_mss = s.m_cwnd / s.m_mss :=
    Int.tdiv_eq_ediv hcwnd (le_of_lt hmss)
  have hhalf : Int.tdiv s.m_cwnd 2 = s.m_cwnd / 2 := Int.tdiv_eq_ediv hcwnd (by norm_num)
  have hq : 0 ≤ s.m_cwnd / s.m_mss := Int.ediv_nonneg hcwnd (le_of_lt hmss)
  have hconv : (to_uint64 ((s.m_last_drop_seq : Int) + s.m_cwnd / s.m_mss) : Int)
      = (s.m_last_drop_seq : Int) + s.m_cwnd / s.m_mss :=
    to_uint64_of_range (by omega) hrange
  have hlt : p.seq_nr < to_uint64 ((s.m_last_drop_seq : Int) + s.m_cwnd / s.m_mss)
      ↔ (p.seq_nr : Int) < (s.m_last_drop_seq : Int) + s.m_cwnd / s.m_mss := by
    constructor
    · intro h
      have h2 := Int.ofNat_lt.mpr h
      omega
    · intro h
      apply Int.ofNat_lt.mp
      omega
  simp only [socket.packet_dropped, hc, hr, hne, hdiv, hhalf, hlt, if_false, gt_iff_lt]
  by_cases hcond : 0 < s.m_last_drop_seq
      ∧ (p.seq_nr : Int) < (s.m_last_drop_seq : Int) + s.m_cwnd / s.m_mss
  · rw [if_pos hcond]
    refine ⟨_, rfl, rfl, rfl, rfl, ?_⟩
    rw [if_pos hcond]
    exact ⟨rfl, rfl⟩
  · rw [if_neg hcond]
    refine ⟨_, rfl, rfl, rfl, rfl, ?_⟩
    rw [if_neg hcond]
    refine ⟨?_, rfl⟩
    show (if s.m_cwnd / 2 < s.m_mss then s.m_mss else s.m_cwnd / 2) = max (s.m_cwnd / 2) s.m_mss
    split
    · rw [max_eq_right]; omega
    · rw [max_eq_left]; omega

/-- C11 fails on the code. First: `demo_sender` with a window of 80 bytes (MSS 10, so
eight packets to a window) is told, with no ACK processed in between, of the
drop of the packet with sequence number 10, which halves `cwnd` to 40, and then
of the drop of the packet with sequence number 15, of the same window. The
guard compares with `last_drop_seq + cwnd / MSS` for the window already halved:
15 is not below `10 + 40 / 10`, and `cwnd` is halved again, to 20. Second: the
same for the packets with sequence numbers 0 and 1; the drop of packet 0
records `last_drop_seq = 0`, which the guard reads as no drop recorded. -/
theorem second_drop_halves_again :
    returns (run demo_env { demo_sender with m_cwnd := 80 }
      [.packet_dropped (demo_packet .payload 10 (List.replicate 10 0)),
       .packet_dropped (demo_packet .payload 15 (List.replicate 10 0))]) = true ∧
    (final (run demo_env { demo_sender with m_cwnd := 80 }
      [.packet_dropped (demo_packet .payload 10 (List.replicate 10 0))])).m_cwnd = 40 ∧
    (final (run demo_env { demo_sender with m_cwnd := 80 }
      [.packet_dropped (demo_packet .payload 10 (List.replicate 10 0)),
       .packet_dropped (demo_packet .payload 15 (List.replicate 10 0))])).m_cwnd = 20 ∧
    returns (run demo_env { demo_sender with m_cwnd := 80 }
      [.packet_dropped (demo_packet .payload 0 (List.replicate 10 0)),
       .packet_dropped (demo_packet .payload 1 (List.replicate 10 0))]) = true ∧
    (final (run demo_env { demo_sender with m_cwnd := 80 }
      [.packet_dropped (demo_packet .payload 0 (List.replicate 10 0))])).m_cwnd = 40 ∧
    (final (run demo_env { demo_sender with m_cwnd := 80 }
      [.packet_dropped (demo_packet .payload 0 (List.replicate 10 0)),
       .packet_dropped (demo_packet .payload 1 (List.replicate 10 0))])).m_cwnd = 20 := by
  decide!

/-- C12, as stated, fails: the accepting socket expects sequence number 3 and has an
empty reorder buffer; the payload packet with sequence number 1 is not
discarded but stored in the reorder buffer. -/
theorem duplicate_is_not_discarded :
    demo_reader.m_reorder_buffer = [] ∧
    returns (demo_reader.incoming_packet (demo_packet .payload 1 [9])) = true ∧
    (final (demo_reader.incoming_packet (demo_packet .payload 1 [9]))).m_reorder_buffer
      = [(1, demo_packet .payload 1 [9])] := by
  decide!

/-- C12, amended: for a socket with a channel and a non-empty route to the peer, a
payload packet whose sequence number is lower than the next expected one is
acknowledged and not delivered: `incoming_packet` returns, the incoming queue
and the next expected sequence number are unchanged, and the packet is
stored in the reorder buffer under its sequence number, unless the buffer
holds an entry with that number already, in which case the buffer is
unchanged; nothing else changes and no reader is woken. -/
theorem duplicate_goes_to_reorder_buffer (s : socket) (p : packet) (c : channel) (remote : Nat)
    (hc : s.m_channel = some c) (hr : c.remote_idx s.m_bound_to = some remote)
    (hh : c.hops remote ≠ []) (hp : p.type = .payload)
    (hlt : p.seq_nr < s.m_next_incoming_seq) :
    ∃ t, s.incoming_packet p = .ok t ∧
      t.m_incoming_queue = s.m_incoming_queue ∧
      t.m_next_incoming_seq = s.m_next_incoming_seq ∧
      (map_find s.m_reorder_buffer p.seq_nr = none →
        t.m_reorder_buffer = s.m_reorder_buffer ++ [(p.seq_nr, p)]) ∧
      (map_find s.m_reorder_buffer p.seq_nr ≠ none →
        t.m_reorder_buffer = s.m_reorder_buffer) ∧
      t = { s with
            effects := s.effects ++ [.forward_packet
              { packet.default with type := .ack, seq_nr := p.seq_nr, hops := c.hops remote }]
            m_reorder_buffer := t.m_reorder_buffer } := by
  rw [incoming_packet_data s p (Or.inl hp)]
  unfold socket.data_received
  rw [hc]
  simp only
  rw [hr]
  simp only
  rw [forward_ok _ _ (by exact hh)]
  simp only [socket.emit]
  rw [if_pos (by omega)]
  refine ⟨_, rfl, rfl, rfl, ?_, ?_, ?_⟩
  · intro hn
    exact map_insert_of_none _ _ _ hn
  · intro hn
    show map_insert s.m_reorder_buffer p.seq_nr p = _
    unfold map_insert
    cases hf : map_find s.m_reorder_buffer p.seq_nr with
    | none => exact absurd hf hn
    | some v => rfl
  · simp only [hc]

/-- Witness of C12 (amended): the accepting socket, expecting sequence number 3,
receives the payload packet with sequence number 1. -/
theorem duplicate_goes_to_reorder_buffer_witness :
    ∃ t, demo_reader.incoming_packet (demo_packet .payload 1 [9]) = .ok t ∧
      t.m_incoming_queue = demo_reader.m_incoming_queue ∧
      t.m_next_incoming_seq = demo_reader.m_next_incoming_seq ∧
      t.m_reorder_buffer = [(1, demo_packet .payload 1 [9])] := by
  obtain ⟨t, h1, h2, h3, h4, _, _⟩ :=
    duplicate_goes_to_reorder_buffer demo_reader (demo_packet .payload 1 [9]) demo_channel 0
      rfl (by decide) (by decide) rfl (by decide)
  exact ⟨t, h1, h2, h3, h4 rfl⟩

/-- C13 fails on the code: the accepting socket has a read pending and an empty
queue; the payload packet with sequence number 1 arrives first and waits in
the reorder buffer, then the packet with sequence number 0 arrives and both
are appended to the incoming queue. The queue then holds two packets, so
`maybe_wakeup_reader` returns at once: nothing is posted (the trace holds the two
ACKs only) and the read handler stays pending. -/
theorem reordered_arrival_leaves_reader_pending :
    demo_pending_reader.deliver
        [demo_packet .payload 1 [4, 5], demo_packet .payload 0 [1, 2, 3]] =
      .ok { demo_pending_reader with
            effects :=
              [.forward_packet { packet.default with type := .ack, seq_nr := 1, hops := [1, 2] },
               .forward_packet { packet.default with type := .ack, seq_nr := 0, hops := [1, 2] }]
            m_incoming_queue := [demo_packet .payload 0 [1, 2, 3], demo_packet .payload 1 [4, 5]]
            m_next_incoming_seq := 2 } ∧
    demo_pending_reader.m_recv_handler = some 5 := by
  decide!
/-- C29: when a socket with the connect handler `h` pending receives a `syn_ack` packet,
`incoming_packet` returns, `h` is posted once with success, the connect-handler
slot becomes empty, and nothing else changes: the socket keeps its channel
and every other member. -/
theorem syn_ack_completes_connect (s : socket) (p : packet) (h : Handler)
    (hp : p.type = .syn_ack) (hh : s.m_connect_handler = some h) :
    s.incoming_packet p =
      .ok { s with effects := s.effects ++ [.post_connect h .success]
                   m_connect_handler := none } := by
  unfold socket.incoming_packet
  rw [hp]
  simp only
  rw [hh]
  rfl

/-- Witness of C29: the connecting socket of `demo_channel` receives the SYN-ACK. -/
theorem syn_ack_completes_connect_witness :
    demo_connecting.incoming_packet (demo_packet .syn_ack 0 []) =
      .ok { demo_connecting with
            effects := demo_connecting.effects ++ [.post_connect 7 .success]
            m_connect_handler := none } :=
  syn_ack_completes_connect demo_connecting (demo_packet .syn_ack 0 []) 7 rfl rfl

/-- C21, as stated, fails: `async_connect` with the handler 8 on the open socket
`demo_connecting`, whose connect with the handler 7 is pending, stops at the
assertion that no connect is pending; the socket is as before, nothing is
posted and the handler 7 stays in the slot. -/
theorem second_connect_stops_at_assertion :
    demo_connecting.async_connect demo_env demo_channel.ep1 8 2 = .abort demo_connecting ∧
    demo_connecting.m_connect_handler = some 7 := by
  decide!

/-- C21, amended: `async_connect` on an open socket that has a connect handler
pending stops at the assertion `!m_connect_handler`: it does not return, nothing
is posted, the earlier handler stays pending and the new one is not
recorded (the state is the one before the call). -/
theorem async_connect_asserts_no_pending_connect (s : socket) (env : environment)
    (target : endpoint) (h h0 : Handler) (fwd : Sink) (ho : s.m_open = true)
    (hc : s.m_connect_handler = some h0) :
    s.async_connect env target h fwd = .abort s := by
  unfold socket.async_connect
  rw [ho]
  simp only [Bool.not_true, Bool.false_eq_true, if_false]
  rw [if_pos (by rw [hc]; simp)]

/-- Witness of C21 (amended): a second `async_connect` on `demo_connecting`. -/
theorem async_connect_asserts_no_pending_connect_witness :
    demo_connecting.async_connect demo_env demo_channel.ep1 8 2 = .abort demo_connecting :=
  async_connect_asserts_no_pending_connect demo_connecting demo_env demo_channel.ep1 8 7 2
    rfl rfl

theorem async_connect_bound (s : socket) (env : environment) (target : endpoint) (h : Handler)
    (fwd : Sink) (ho : s.m_open = true) (hc : s.m_connect_handler = none)
    (hb : s.m_bound_to.addr ≠ address.default) :
    s.async_connect env target h fwd = s.connect_bound env target h := by
  unfold socket.async_connect
  rw [ho]
  simp only [Bool.not_true, Bool.false_eq_true, if_false]
  rw [if_neg (by rw [hc]; simp), if_neg hb]

/-- C26: in `async_connect`, once the socket is open and bound to a local address of
the target's family, when the listener lookup (`internal_connect` of the
simulation) reports the error `ec`: the call returns; after the lookup its one
call is arming the connect timer for 50 ms with the handler bound to `ec`
(the handler is not posted); the socket has no channel and no connect
handler; MSS is set to the path MTU and `cwnd` to twice that, computed in `int`.
The first part is the tail of `async_connect` that every call reaches, the
second the whole call on an open socket bound to a non-default address with
no connect pending. -/
theorem failed_lookup_arms_timer (s : socket) (env : environment) (target : endpoint)
    (h : Handler) (fwd : Sink) (mtu : Int)
    (hfam : s.m_bound_to.addr.is_v4 = target.addr.is_v4)
    (hmtu : get_path_mtu env s.m_bound_to.addr target.addr = some mtu)
    (hec : (env.sim_internal_connect s.m_bound_to target).2 ≠ .success) :
    s.connect_bound env target h =
      .ok { s with
            effects := s.effects ++
              [.internal_connect target,
               .connect_timer 50 h (env.sim_internal_connect s.m_bound_to target).2]
            m_channel := none, m_mss := mtu, m_cwnd := to_int32 (mtu * 2) } ∧
    (s.m_open = true → s.m_connect_handler = none → s.m_bound_to.addr ≠ address.default →
      ∃ t, s.async_connect env target h fwd = .ok t ∧
        t.effects = s.effects ++
          [.internal_connect target,
           .connect_timer 50 h (env.sim_internal_connect s.m_bound_to target).2] ∧
        t.m_channel = none ∧ t.m_connect_handler = none) := by
  have h1 : s.connect_bound env target h =
      .ok { s with
            effects := s.effects ++
              [.internal_connect target,
               .connect_timer 50 h (env.sim_internal_connect s.m_bound_to target).2]
            m_channel := none, m_mss := mtu, m_cwnd := to_int32 (mtu * 2) } := by
    unfold socket.connect_bound
    rw [if_neg (by rw [hfam]; simp)]
    simp only [socket.emit]
    rw [hmtu]
    simp only
    rw [if_pos hec]
    simp
  refine ⟨h1, ?_⟩
  intro ho hc hb
  rw [async_connect_bound s env target h fwd ho hc hb, h1]
  exact ⟨_, rfl, rfl, rfl, hc⟩

/-- Witness of C26: `demo_bound` connects to 10.0.0.2:1337 where nothing listens. -/
theorem failed_lookup_arms_timer_witness :
    ∃ t, demo_bound.async_connect demo_dual_env demo_channel.ep1 8 2 = .ok t ∧
      t.effects = [.internal_connect demo_channel.ep1,
                   .connect_timer 50 8 .connection_refused] ∧
      t.m_channel = none ∧ t.m_connect_handler = none :=
  (failed_lookup_arms_timer demo_bound demo_dual_env demo_channel.ep1 8 2 10 rfl (by decide)
    (by decide)).2 rfl rfl (by decide)

/-- C27, as stated, fails: `demo_bound` is bound to an IPv4 address and connects to an
IPv6 target; the handler is posted at once with `address_family_not_supported`,
and no timer is armed. -/
theorem family_mismatch_is_posted_at_once :
    demo_bound.async_connect demo_dual_env demo_v6_target 8 2 =
      .ok { demo_bound with
            effects := [.post_connect 8 .address_family_not_supported] } := by
  decide!

/-- C27, amended: when `async_connect` finds that the target's address family differs
from the family of the socket's bound address, it posts the handler at once
with `address_family_not_supported` (through `post`, by no timer) and returns;
nothing else changes: no channel is looked up and no connect handler is
recorded. The first part is the tail of `async_connect` that every call
reaches, the second the whole call on an open socket bound to a non-default
address with no connect pending. -/
theorem family_mismatch_posts_error (s : socket) (env : environment) (target : endpoint)
    (h : Handler) (fwd : Sink) (hfam : s.m_bound_to.addr.is_v4 ≠ target.addr.is_v4) :
    s.connect_bound env target h =
      .ok { s with effects := s.effects ++ [.post_connect h .address_family_not_supported] } ∧
    (s.m_open = true → s.m_connect_handler = none → s.m_bound_to.addr ≠ address.default →
      s.async_connect env target h fwd =
        .ok { s with
              effects := s.effects ++ [.post_connect h .address_family_not_supported] }) := by
  have h1 : s.connect_bound env target h =
      .ok { s with effects := s.effects ++ [.post_connect h .address_family_not_supported] } := by
    unfold socket.connect_bound
    rw [if_pos hfam]
    rfl
  refine ⟨h1, ?_⟩
  intro ho hc hb
  rw [async_connect_bound s env target h fwd ho hc hb, h1]

/-- Witness of C27 (amended): `demo_bound` connects to an IPv6 target. -/
theorem family_mismatch_posts_error_witness :
    demo_bound.async_connect demo_dual_env demo_v6_target 8 2 =
      .ok { demo_bound with
            effects := demo_bound.effects ++ [.post_connect 8 .address_family_not_supported] } :=
  (family_mismatch_posts_error demo_bound demo_dual_env demo_v6_target 8 2 (by decide)).2
    rfl rfl (by decide)

/-- C30: `internal_connect(bind_ep, c)` for a channel `c` whose `hops[1]` is not empty, on a
socket whose old channel, if it has one, has the socket's bound endpoint as
one of its ends (asserted by the `close` inside `open`): the call returns;
afterwards the socket is open, bound to `bind_ep`, holds the forwarder created
by `open`, and its channel is `c` with the last hop of `hops[1]` replaced by that
forwarder: the other hops of `hops[1]` and its length are unchanged, and so are
`hops[0]` and the two endpoints. -/
theorem internal_connect_attaches (s : socket) (bind_ip : endpoint) (c : channel) (fwd : Sink)
    (hwf : ∀ c0, s.m_channel = some c0 → (c0.remote_idx s.m_bound_to).isSome = true)
    (hne : c.hops1 ≠ []) :
    ∃ t c2, s.internal_connect bind_ip c fwd = .ok t ∧ t.m_open = true ∧
      t.m_bound_to = bind_ip ∧ t.m_forwarder = some fwd ∧ t.m_channel = some c2 ∧
      c2.hops1.getLast? = some fwd ∧ c2.hops1.dropLast = c.hops1.dropLast ∧
      c2.hops1.length = c.hops1.length ∧ c2.hops0 = c.hops0 ∧ c2.ep0 = c.ep0 ∧
      c2.ep1 = c.ep1 := by
  obtain ⟨u, hu, _⟩ := close_forwarded s hwf
  unfold socket.internal_connect socket.open_socket
  rw [hu]
  simp only
  unfold route_replace_last
  cases hh : c.hops1 with
  | nil => exact absurd hh hne
  | cons x xs =>
    simp only
    refine ⟨_, _, rfl, rfl, rfl, rfl, rfl, ?_, ?_, ?_, rfl, rfl, rfl⟩
    · simp
    · simp
    · simp

/-- Witness of C30: a fresh socket is attached to `demo_channel` as its accepting side
with the forwarder 9. -/
theorem internal_connect_attaches_witness :
    ∃ t c2, (socket.init 1).internal_connect demo_channel.ep1 demo_channel 9 = .ok t ∧
      t.m_open = true ∧ t.m_bound_to = demo_channel.ep1 ∧ t.m_forwarder = some 9 ∧
      t.m_channel = some c2 ∧ c2.hops1 = [3, 9] ∧ c2.hops0 = [1, 2] := by
  obtain ⟨t, c2, h1, h2, h3, h4, h5, h6, h7, h8, h9, _, _⟩ :=
    internal_connect_attaches (socket.init 1) demo_channel.ep1 demo_channel 9
      (by intro c0 hc0; cases hc0) (by decide)
  refine ⟨t, c2, h1, h2, h3, h4, h5, ?_, h9⟩
  have e1 : c2.hops1 = c2.hops1.dropLast ++ [9] := by
    have := List.dropLast_append_getLast? 9 (by rw [h6]; simp)
    exact this.symm
  rw [e1, h7]
  rfl

/-- C28 fails on the code for the accepting side: with a path MTU of 10 bytes between
the two endpoints of `demo_channel`, a fresh socket attached by `internal_connect`
as the accepting side has the constructor's MSS of 1475 and window of 2950,
not the path MTU and twice the path MTU. -/
theorem accepting_side_keeps_default_mss :
    demo_env.path_mtu demo_channel.ep1.addr demo_channel.ep0.addr = 10 ∧
    returns ((socket.init 1).internal_connect demo_channel.ep1 demo_channel 9) = true ∧
    (final ((socket.init 1).internal_connect demo_channel.ep1 demo_channel 9)).m_mss = 1475 ∧
    (final ((socket.init 1).internal_connect demo_channel.ep1 demo_channel 9)).m_cwnd = 2950 := by
  decide!

/-- C25 fails on the code for IPv6 targets: the node of `demo_dual_env` owns 10.0.0.1 and
::1; `async_connect` to an IPv6 target on a fresh socket opens it as IPv6,
binds it through the IPv4 wildcard to 10.0.0.1, and then posts
`address_family_not_supported` to the handler. -/
theorem v6_target_is_bound_to_v4 :
    returns ((socket.init 0).async_connect demo_dual_env demo_v6_target 8 2) = true ∧
    (final ((socket.init 0).async_connect demo_dual_env demo_v6_target 8 2)).m_is_v4 = false ∧
    (final ((socket.init 0).async_connect demo_dual_env demo_v6_target 8 2)).m_bound_to =
      { addr := { is_v4 := true, bits := 167772161 }, port := 1000 } ∧
    (final ((socket.init 0).async_connect demo_dual_env demo_v6_target 8 2)).effects =
      [.bind_socket { addr := { is_v4 := true, bits := 167772161 }, port := 0 },
       .post_connect 8 .address_family_not_supported] := by
  decide!

theorem find_none_of_not_available_v4 (ips : List address)
    (h : ∀ ip ∈ ips, ip.is_v4 = false) : ips.find? (fun ip => ip.is_v4) = none := by
  rw [List.find?_eq_none]
  intro ip hip
  simp [h ip hip]

theorem find_none_of_not_available_v6 (ips : List address)
    (h : ∀ ip ∈ ips, ip.is_v4 = true) : ips.find? (fun ip => !ip.is_v4) = none := by
  rw [List.find?_eq_none]
  intro ip hip
  simp [h ip hip]

theorem bind_socket_eq_udp (ios : io_service)
    (f : endpoint → error_code → endpoint × error_code) (ep : endpoint) (ec : error_code) :
    ios.bind_udp_socket f ep ec = ios.bind_socket f ep ec := rfl

theorem bind_socket_spec (ios : io_service)
    (f : endpoint → error_code → endpoint × error_code) (ep : endpoint) (ec : error_code)
    (hips : ios.m_ips ≠ []) :
    (ios.not_available ep.addr →
      ios.bind_socket f ep ec = some (none, endpoint.default, .address_not_available)) ∧
    (¬ ios.not_available ep.addr →
      ∃ a, ios.bound_address ep.addr = some a ∧
        ios.bind_socket f ep ec = some (some { ep with addr := a }, f { ep with addr := a } ec)) := by
  unfold io_service.bind_socket io_service.not_available io_service.bound_address
  rw [if_neg hips]
  by_cases h4 : ep.addr = address.v4_any
  · rw [if_pos h4, if_pos h4]
    cases hf : ios.m_ips.find? (fun ip => ip.is_v4) with
    | none =>
      refine ⟨fun _ => rfl, ?_⟩
      intro hn
      exfalso
      apply hn
      refine Or.inl ⟨h4, ?_⟩
      rw [List.find?_eq_none] at hf
      intro ip hip
      simpa using hf ip hip
    | some a =>
      refine ⟨?_, fun _ => ⟨a, rfl, rfl⟩⟩
      intro hna
      exfalso
      rcases hna with ⟨_, h⟩ | ⟨h6, _⟩ | ⟨h, _⟩
      · rw [find_none_of_not_available_v4 _ h] at hf
        cases hf
      · rw [h4] at h6
        exact absurd h6 (by decide)
      · exact h h4
  · rw [if_neg h4, if_neg h4]
    by_cases h6 : ep.addr = address.v6_any
    · rw [if_pos h6, if_pos h6]
      cases hf : ios.m_ips.find? (fun ip => !ip.is_v4) with
      | none =>
        refine ⟨fun _ => rfl, ?_⟩
        intro hn
        exfalso
        apply hn
        refine Or.inr (Or.inl ⟨h6, ?_⟩)
        rw [List.find?_eq_none] at hf
        intro ip hip
        simpa using hf ip hip
      | some a =>
        refine ⟨?_, fun _ => ⟨a, rfl, rfl⟩⟩
        intro hna
        exfalso
        rcases hna with ⟨h, _⟩ | ⟨_, h⟩ | ⟨_, h, _⟩
        · exact h4 h
        · rw [find_none_of_not_available_v6 _ h] at hf
          cases hf
        · exact h h6
    · rw [if_neg h6, if_neg h6]
      by_cases hc : ios.m_ips.count ep.addr = 0
      · rw [if_pos hc]
        refine ⟨fun _ => rfl, ?_⟩
        intro hn
        exfalso
        apply hn
        exact Or.inr (Or.inr ⟨h4, h6, List.count_eq_zero.mp hc⟩)
      · rw [if_neg hc]
        refine ⟨?_, fun _ => ⟨ep.addr, rfl, rfl⟩⟩
        intro hna
        exfalso
        rcases hna with ⟨h, _⟩ | ⟨h, _⟩ | ⟨_, _, h⟩
        · exact h4 h
        · exact h6 h
        · exact hc (List.count_eq_zero.mpr h)

/-- C24: on a node with at least one address (both functions assert it),
`io_service::bind_socket` and `io_service::bind_udp_socket` report
`address_not_available`, return the default endpoint and do not call the
simulation's bind if the requested address is the IPv4 wildcard and the node
has no IPv4 address, or the IPv6 wildcard and the node has no IPv6 address, or
a specific address that is not in the node's list; if not, they call the
simulation's bind with the same port and with the address unchanged (a
specific address) or replaced by the first address of that family in the
node's list (a wildcard), and return what it returns. -/
theorem bind_reports_unavailable_address (ios : io_service)
    (sim_bind sim_bind_udp : endpoint → error_code → endpoint × error_code) (ep : endpoint)
    (ec : error_code) (hips : ios.m_ips ≠ []) :
    (ios.not_available ep.addr →
      ios.bind_socket sim_bind ep ec = some (none, endpoint.default, .address_not_available) ∧
      ios.bind_udp_socket sim_bind_udp ep ec
        = some (none, endpoint.default, .address_not_available)) ∧
    (¬ ios.not_available ep.addr →
      ∃ a, ios.bound_address ep.addr = some a ∧
        ios.bind_socket sim_bind ep ec
          = some (some { addr := a, port := ep.port }, sim_bind { addr := a, port := ep.port } ec) ∧
        ios.bind_udp_socket sim_bind_udp ep ec
          = some (some { addr := a, port := ep.port },
              sim_bind_udp { addr := a, port := ep.port } ec)) := by
  obtain ⟨a1, a2⟩ := bind_socket_spec ios sim_bind ep ec hips
  obtain ⟨b1, b2⟩ := bind_socket_spec ios sim_bind_udp ep ec hips
  constructor
  · intro hna
    exact ⟨a1 hna, by rw [bind_socket_eq_udp]; exact b1 hna⟩
  · intro hna
    obtain ⟨a, ha, h1⟩ := a2 hna
    obtain ⟨b, hb, h2⟩ := b2 hna
    rw [ha] at hb
    cases hb
    exact ⟨a, ha, h1, by rw [bind_socket_eq_udp]; exact h2⟩

/-- Witness of C24: on the node with the addresses 10.0.0.1 and ::1, a bind to the
IPv6 wildcard with port 80 calls the simulation with [::1]:80, and a bind to
10.0.0.9 is refused. -/
theorem bind_reports_unavailable_address_witness :
    demo_dual_env.ios.bind_socket demo_dual_env.sim_bind_socket
        { addr := address.v6_any, port := 80 } .success
      = some (some { addr := { is_v4 := false, bits := 1 }, port := 80 },
          { addr := { is_v4 := false, bits := 1 }, port := 1000 }, .success) ∧
    demo_dual_env.ios.bind_udp_socket demo_dual_env.sim_bind_socket
        { addr := { is_v4 := true, bits := 167772169 }, port := 80 } .success
      = some (none, endpoint.default, .address_not_available) := by
  constructor
  · obtain ⟨a, ha, h1, _⟩ :=
      (bind_reports_unavailable_address demo_dual_env.ios demo_dual_env.sim_bind_socket
        demo_dual_env.sim_bind_socket { addr := address.v6_any, port := 80 } .success
        (by decide)).2 (by
          intro h
          rcases h with ⟨h, _⟩ | ⟨_, h⟩ | ⟨_, h, _⟩
          · exact absurd h (by decide)
          · exact absurd (h { is_v4 := false, bits := 1 } (by decide)) (by decide)
          · exact h rfl)
    have : a = { is_v4 := false, bits := 1 } := by
      have h2 : demo_dual_env.ios.bound_address address.v6_any
          = some { is_v4 := false, bits := 1 } := by decide
      rw [h2] at ha
      exact (Option.some.inj ha).symm
    subst this
    exact h1
  · exact ((bind_reports_unavailable_address demo_dual_env.ios demo_dual_env.sim_bind_socket
      demo_dual_env.sim_bind_socket { addr := { is_v4 := true, bits := 167772169 }, port := 80 }
      .success (by decide)).1
        (Or.inr (Or.inr ⟨by decide, by decide, by decide⟩))).2

/-- C23: `async_write_some_impl` and `async_read_some_impl` (the latter called, as it
asserts, with a first buffer of positive size) never pass `would_block` to a
handler. When the attempt (`write_some_impl`, `read_some_impl`) reports an error
other than `would_block`, the handler is posted once with that error and 0
bytes; when it reports success, the handler is posted once with success and
the byte count (for a read, after the bytes were copied to the caller's
buffers); in both cases the handler slot and the buffer slot are emptied.
When the attempt reports `would_block` (for a read: with the queue empty, as
asserted), nothing is posted and the handler and the buffers are stored as
the pending operation. Every completion is a call of `post`. -/
theorem async_impl_completes_once (s : socket) (bufs : List (List Byte)) (h : Handler) :
    (∀ r, s.write_some_impl bufs .success = .ok r →
      (r.ec = .would_block →
        s.async_write_some_impl bufs h =
          .ok { r.st with m_send_handler := some h, m_send_buffer := bufs }) ∧
      (r.ec ≠ .would_block → r.ec ≠ .success →
        s.async_write_some_impl bufs h =
          .ok { r.st with effects := r.st.effects ++ [.post_io h r.ec 0]
                          m_send_handler := none, m_send_buffer := [] }) ∧
      (r.ec = .success →
        s.async_write_some_impl bufs h =
          .ok { r.st with effects := r.st.effects ++ [.post_io h .success r.bytes]
                          m_send_handler := none, m_send_buffer := [] })) ∧
    (∀ r b bs, bufs = b :: bs → b ≠ [] → s.read_some_impl bufs = .ok r →
      (r.ec = .would_block → r.st.m_incoming_queue = [] →
        s.async_read_some_impl bufs h =
          .ok { r.st with m_recv_buffer := bufs, m_recv_handler := some h,
                          m_recv_null_buffers := false }) ∧
      (r.ec ≠ .would_block → r.ec ≠ .success →
        s.async_read_some_impl bufs h =
          .ok { r.st with effects := r.st.effects ++ [.post_io h r.ec 0]
                          m_recv_handler := none, m_recv_buffer := [] }) ∧
      (r.ec = .success →
        s.async_read_some_impl bufs h =
          .ok { r.st with
                effects := r.st.effects ++ [.memcpy r.bufs, .post_io h .success r.bytes]
                m_recv_handler := none, m_recv_buffer := [] })) := by
  constructor
  · intro r hr
    unfold socket.async_write_some_impl
    rw [hr]
    simp only
    refine ⟨?_, ?_, ?_⟩
    · intro h1
      rw [if_pos h1]
    · intro h1 h2
      rw [if_neg h1, if_pos h2]
      rfl
    · intro h1
      rw [if_neg (by rw [h1]; decide), if_neg (by rw [h1]; simp)]
      simp [socket.emit]
  · intro r b bs hb hne hr
    subst hb
    unfold socket.async_read_some_impl
    simp only
    rw [if_neg (by simpa using hne), hr]
    simp only
    refine ⟨?_, ?_, ?_⟩
    · intro h1 hq
      rw [if_pos h1, if_neg (by simp [hq])]
    · intro h1 h2
      rw [if_neg h1, if_pos h2]
      rfl
    · intro h1
      rw [if_neg (by rw [h1]; decide), if_neg (by rw [h1]; simp)]
      simp [socket.emit]

/-- Witness of C23: a write on `demo_sender`, which sends and posts the count, and a
read on the accepting socket with an empty queue, which stores the handler. -/
theorem async_impl_completes_once_witness :
    (∃ r, demo_sender.write_some_impl [[1, 2, 3]] .success = .ok r ∧
      demo_sender.async_write_some_impl [[1, 2, 3]] 8 =
        .ok { r.st with effects := r.st.effects ++ [.post_io 8 .success r.bytes]
                        m_send_handler := none, m_send_buffer := [] }) ∧
    demo_receiver.async_read_some_impl [[0, 0]] 9 =
      .ok { demo_receiver with m_recv_buffer := [[0, 0]], m_recv_handler := some 9,
                               m_recv_null_buffers := false } := by
  constructor
  · obtain ⟨r, hr, hb⟩ := written_bytes_ok (demo_sender.write_some_impl [[1, 2, 3]] .success) 3
      (by decide!)
    have hec : r.ec = .success := by
      have : (match demo_sender.write_some_impl [[1, 2, 3]] .success with
          | .ok w => w.ec
          | .abort _ => error_code.eof) = .success := by decide!
      rw [hr] at this
      exact this
    exact ⟨r, hr, ((async_impl_completes_once demo_sender [[1, 2, 3]] 8).1 r hr).2.2 hec⟩
  · have hr : demo_receiver.read_some_impl [[0, 0]]
        = .ok { st := demo_receiver, ec := .would_block, bytes := 0, bufs := [[0, 0]] } := by
      decide!
    exact ((async_impl_completes_once demo_receiver [[0, 0]] 9).2 _ [0, 0] [] rfl (by decide)
      hr).1 rfl rfl

/-- C31: a `sink_forwarder` created for the destination `d` hands every incoming packet
unchanged to `d`; after `clear()` every incoming packet is dropped without a
call to any sink (and without failure: the function returns), `label()` is the
empty string, and a second `clear()` changes nothing. -/
theorem sink_forwarder_forwards_until_cleared (d : Nat) (p : packet) (f : sink_forwarder)
    (label_of : Nat → String) :
    (sink_forwarder.init d).incoming_packet p = some (d, p) ∧
    f.clear.incoming_packet p = none ∧
    f.clear.label label_of = "" ∧
    f.clear.clear = f.clear := by
  exact ⟨rfl, rfl, rfl, rfl⟩

/-- C32: for a packet whose route is `h` followed by the hops `t`, `forward_packet` makes its
one call, to the sink `h`, with the packet whose route is `t` and whose kind,
error code, payload, source endpoint, overhead, sequence number, channel and
drop callback are unchanged. -/
theorem forward_packet_pops_first_hop (p : packet) (h : Sink) (t : route)
    (hp : p.hops = h :: t) :
    forward_packet p = some (h, { p with hops := t }) ∧
    ∀ q, forward_packet p = some (h, q) →
      q.hops = t ∧ q.type = p.type ∧ q.ec = p.ec ∧ q.buffer = p.buffer ∧
      q.from_ep = p.from_ep ∧ q.overhead = p.overhead ∧ q.seq_nr = p.seq_nr ∧
      q.channel = p.channel ∧ q.drop_fun = p.drop_fun := by
  have h1 : forward_packet p = some (h, { p with hops := t }) := by
    unfold forward_packet
    rw [hp]
  refine ⟨h1, ?_⟩
  intro q hq
  rw [h1] at hq
  simp only [Option.some.injEq, Prod.mk.injEq, true_and] at hq
  subst hq
  exact ⟨rfl, rfl, rfl, rfl, rfl, rfl, rfl, rfl, rfl⟩

/-- Witness of C32: a payload packet with the route 1, 2 is handed to the sink 1 with
the route 2. -/
theorem forward_packet_pops_first_hop_witness :
    forward_packet { demo_packet .payload 3 [7, 8] with hops := [1, 2] } =
      some (1, { demo_packet .payload 3 [7, 8] with hops := [2] }) :=
  (forward_packet_pops_first_hop { demo_packet .payload 3 [7, 8] with hops := [1, 2] } 1 [2]
    rfl).1

/-- C33, as stated, fails: `forward_packet` on a packet with an empty route has no
result: `pop_front` reads `front()` of an empty deque, which is undefined. -/
theorem forward_packet_empty_route_undefined :
    forward_packet { demo_packet .payload 3 [7, 8] with hops := [] } = none := by
  decide

/-- C33, amended: `forward_packet` is defined exactly for the packets with a non-empty
route: on an empty route it reaches no sink and has no defined result, on
a non-empty route it calls the first hop. -/
theorem forward_packet_defined_iff (p : packet) :
    (forward_packet p = none ↔ p.hops = []) ∧
    (p.hops ≠ [] → ∃ h q, forward_packet p = some (h, q)) := by
  unfold forward_packet
  cases hp : p.hops with
  | nil => simp
  | cons h t => simp

/-- C34: `ok_to_drop()` is false exactly for the kinds `syn_ack`, `ack` and `error`, true for
`uninitialized`, `syn` and `payload`, and two packets of the same kind get the same
answer whatever their other fields. -/
theorem ok_to_drop_by_kind (p q : packet) :
    (p.ok_to_drop = false ↔ p.type = .syn_ack ∨ p.type = .ack ∨ p.type = .error) ∧
    (p.ok_to_drop = true ↔ p.type = .uninitialized ∨ p.type = .syn ∨ p.type = .payload) ∧
    (p.type = q.type → p.ok_to_drop = q.ok_to_drop) := by
  refine ⟨?_, ?_, ?_⟩
  · unfold packet.ok_to_drop
    cases p.type <;> simp
  · unfold packet.ok_to_drop
    cases p.type <;> simp
  · intro h
    unfold packet.ok_to_drop
    rw [h]

theorem iterator_eq_default (results : List resolver_entry) (i : Nat)
    (hn : results.length < 2 ^ 31) (hi : i ≤ results.length) :
    resolver_iterator.eq { m_results := results, m_idx := (i : Int) } resolver_iterator.default
      = decide (i = results.length) := by
  have hconv : to_uint64 (i : Int) = i := by
    have := @to_uint64_of_range (i : Int) (by omega) (by
      have : (i : Int) < 2 ^ 31 := by exact_mod_cast (by omega : i < 2 ^ 31)
      omega)
    exact_mod_cast this
  unfold resolver_iterator.eq resolver_iterator.at_end resolver_iterator.default
  simp only [hconv]
  rw [if_neg (by omega)]
  have h1 : ((i : Int) == -1) = false := by
    simp only [beq_eq_false_iff_ne, ne_eq]
    omega
  rw [h1]
  by_cases h : i = results.length
  · simp [h]
  · simp [h]

theorem iterator_visit (results : List resolver_entry) (hn : results.length < 2 ^ 31) :
    ∀ (k i fuel : Nat), i + k = results.length → k ≤ fuel →
      resolver_iterator.visit fuel { m_results := results, m_idx := (i : Int) }
        = some (results.drop i) := by
  intro k
  induction k with
  | zero =>
    intro i fuel hi _
    have hi2 : i = results.length := by omega
    unfold resolver_iterator.visit resolver_iterator.ne
    rw [iterator_eq_default results i hn (by omega)]
    simp [hi2]
  | succ k ih =>
    intro i fuel hi hf
    unfold resolver_iterator.visit resolver_iterator.ne
    rw [iterator_eq_default results i hn (by omega)]
    have hne : i ≠ results.length := by omega
    simp only [hne, decide_False, Bool.not_false, if_true]
    cases fuel with
    | zero => omega
    | succ fuel =>
      simp only
      have hlt : i < results.length := by omega
      have hd : resolver_iterator.deref { m_results := results, m_idx := (i : Int) }
          = some (results.get ⟨i, hlt⟩) := by
        unfold resolver_iterator.deref
        rw [if_neg (by simp)]
        simp [List.get?_eq_get hlt]
      rw [hd]
      simp only
      have hinc : resolver_iterator.incr { m_results := results, m_idx := (i : Int) }
          = { m_results := results, m_idx := ((i + 1 : Nat) : Int) } := by
        unfold resolver_iterator.incr
        simp
      rw [hinc, ih (i + 1) fuel (by omega) (by omega)]
      simp only
      rw [List.drop_eq_getElem_cons hlt]
      rfl

/-- C35: an iterator over a result list of `n` entries (`n` in the range of `int`) at the
index `i`, `0 <= i <= n`, compares equal to the default-constructed iterator, on
either side of `==`, if and only if `i = n`; and the loop
`while (iter != iterator()) ++iter` started at index 0 ends (at most `n` iterations)
having visited exactly the `n` entries in order. -/
theorem iterator_end_iff_past_last (results : List resolver_entry) (i fuel : Nat)
    (hn : results.length < 2 ^ 31) (hi : i ≤ results.length) (hf : results.length ≤ fuel) :
    (resolver_iterator.eq { m_results := results, m_idx := (i : Int) } resolver_iterator.default
        = true ↔ i = results.length) ∧
    (resolver_iterator.eq resolver_iterator.default { m_results := results, m_idx := (i : Int) }
        = true ↔ i = results.length) ∧
    resolver_iterator.visit fuel { m_results := results, m_idx := 0 } = some results := by
  refine ⟨?_, ?_, ?_⟩
  · rw [iterator_eq_default results i hn hi]
    simp
  · have hsym : resolver_iterator.eq resolver_iterator.default
          { m_results := results, m_idx := (i : Int) }
        = resolver_iterator.eq { m_results := results, m_idx := (i : Int) }
          resolver_iterator.default := by
      unfold resolver_iterator.eq
      have h1 : ¬ (resolver_iterator.default.m_idx = (i : Int)) := by
        show ¬ ((-1 : Int) = (i : Int))
        omega
      have h2 : ¬ ((i : Int) = resolver_iterator.default.m_idx) := by
        show ¬ ((i : Int) = (-1 : Int))
        omega
      simp only [h1, h2, if_false]
      exact Bool.beq_comm
    rw [hsym, iterator_eq_default results i hn hi]
    simp
  · have := iterator_visit results hn results.length 0 fuel (by omega) hf
    simpa using this

/-- Witness of C35: the four results of the resolver test. -/
theorem iterator_end_iff_past_last_witness :
    (resolver_iterator.eq { m_results := demo_results, m_idx := ((2 : Nat) : Int) }
        resolver_iterator.default = true ↔ 2 = demo_results.length) ∧
    resolver_iterator.visit 4 { m_results := demo_results, m_idx := 0 } = some demo_results :=
  ⟨(iterator_end_iff_past_last demo_results 2 4 (by decide) (by decide) (by decide)).1,
   (iterator_end_iff_past_last demo_results 2 4 (by decide) (by decide) (by decide)).2.2⟩

/-- C39 fails on the code: over the four results of the resolver test, the iterator at
index 0 and the iterator at index 1 compare equal (and `!=` is false): neither
is at the end, and `operator==` returns `lhs_end == rhs_end`. -/
theorem iterators_at_different_indices_compare_equal :
    resolver_iterator.eq { m_results := demo_results, m_idx := 0 }
      { m_results := demo_results, m_idx := 1 } = true ∧
    resolver_iterator.ne { m_results := demo_results, m_idx := 0 }
      { m_results := demo_results, m_idx := 1 } = false := by
  decide

theorem payload_bytes_nonneg : ∀ l : List packet, 0 ≤ payload_bytes l := by
  intro l
  induction l with
  | nil => exact le_refl _
  | cons p l ih =>
    unfold payload_bytes
    omega

/-- C36 fails on the code: the connecting socket writes 15 bytes (segments 0 and 1),
segment 1 is dropped, the ACK of segment 0 re-sends it and the ACK of segment
1 arrives (`demo_retransmit_run`, every call returning). After the
retransmission `bytes_in_flight` is 10 while the recorded sizes sum to 5; after
the last ACK nothing is outstanding and nothing is queued, yet
`bytes_in_flight` is 5, not the 0 it was before the first write: `send_packet`
adds the size of segment 1 a second time. -/
theorem retransmission_counts_bytes_twice :
    returns (run demo_env (socket.init 0) demo_retransmit_run) = true ∧
    (final (run demo_env (socket.init 0) demo_retransmit_run.dropLast)).m_bytes_in_flight = 10 ∧
    outstanding_bytes
      (final (run demo_env (socket.init 0)
        demo_retransmit_run.dropLast)).m_outstanding_packet_sizes = 5 ∧
    (final (run demo_env (socket.init 0) demo_retransmit_run)).m_outstanding_packet_sizes = [] ∧
    (final (run demo_env (socket.init 0) demo_retransmit_run)).m_outgoing_packets = [] ∧
    (final (run demo_env (socket.init 0) demo_retransmit_run)).m_bytes_in_flight = 5 ∧
    (socket.init 0).m_bytes_in_flight = 0 := by
  decide!

/-- C40 fails on the code: after a first connection with 5 bytes written and not
ACKed and the payload packet 1 waiting for packet 0, `close()` returns with the
socket closed and the sequence numbers at 0, but `bytes_in_flight` is still 5,
two sizes are still recorded and packet 1 is still in the reorder buffer. In
the second connection of the same socket the packet 0 of the new peer is
followed in the incoming queue by packet 1 of the first connection, and
`bytes_in_flight` starts at 5. -/
theorem close_keeps_connection_state :
    returns (run demo_env (socket.init 0) demo_first_connection) = true ∧
    (final (run demo_env (socket.init 0) demo_first_connection)).m_open = false ∧
    (final (run demo_env (socket.init 0) demo_first_connection)).m_next_incoming_seq = 0 ∧
    (final (run demo_env (socket.init 0) demo_first_connection)).m_bytes_in_flight = 5 ∧
    (final (run demo_env (socket.init 0)
      demo_first_connection)).m_outstanding_packet_sizes = [(1, 0), (0, 5)] ∧
    (final (run demo_env (socket.init 0) demo_first_connection)).m_reorder_buffer
      = [(1, demo_packet .payload 1 [66, 67])] ∧
    returns (run demo_env (socket.init 0)
      (demo_first_connection ++ demo_second_connection)) = true ∧
    (final (run demo_env (socket.init 0)
      (demo_first_connection ++ demo_second_connection))).m_incoming_queue
      = [demo_packet .payload 0 [1], demo_packet .payload 1 [66, 67]] ∧
    (final (run demo_env (socket.init 0)
      (demo_first_connection ++ demo_second_connection))).m_bytes_in_flight = 5 := by
  decide!

end tcp

end sim
